import Mathlib

/-! uLaunch: library-applet table and daemon/menu command protocol

A shallow embedding of

* `projects/uSystem/source/ul/system/la/la_LibraryApplet.cpp`
  (the static applet table and its two lookups), and
* `uLaunch/include/dmi/dmi_DaemonMenuInteraction.hpp`
  (scoped storage writer/reader, `SendCommandImpl`, `ReceiveCommandImpl`),

followed by the theorems proved about them.

Machine integers are natural numbers; the `size_t` cursor arithmetic is
written with its reduction modulo `2^64`, and a `u32` or `u64` that goes into
a buffer is cut into its 4 or 8 little-endian bytes.

Stateful code is written in state-passing style over a `World`: the state of
the operating system together with the record of the calls made so far. The
primitives of libnx are a parameter (`Os`); `MemOs` is a model of them, used
where a claim needs the bytes of a storage.

Modelled from the spec: the macro `UL_RC_TRY(expr)` (`ul_Result.hpp`, not
among the sources at hand) evaluates `expr` and returns its result from the
enclosing function when that result is a failure; it is written out as
`if R_FAILED r then ... r ...` at each use.
-/

set_option autoImplicit false

/-! ## Result codes -/

/-- Modelled from the spec: the libnx type `Result`, a `u32`; here a natural
number. -/
abbrev Result := Nat

/-- Modelled from the spec: the success code `ResultSuccess`, which is `0`. -/
def ResultSuccess : Result := 0

/-- Modelled from the spec: the libnx test `R_SUCCEEDED(rc)`, which is
`rc == 0`. -/
def R_SUCCEEDED (rc : Result) : Bool := rc == 0

/-- Modelled from the spec: the libnx test `R_FAILED(rc)`, which is
`rc != 0`. -/
def R_FAILED (rc : Result) : Bool := rc != 0

namespace ul.system.la

/-! ## The applet table (`la_LibraryApplet.cpp`) -/

/-- Modelled from the spec: the libnx enum `AppletId`, whose underlying type
is a `u32`; a value of it is that number. -/
abbrev AppletId := Nat

/-!
Modelled from the spec: the enumerators of the libnx enum `AppletId` are
declared in libnx, not in this repository. The spec treats the applet kinds as pairwise
distinct identifiers with a distinct sentinel "none"; the numbers below are
the ones of libnx's `applet.h`. The theorems only use that they are pairwise
distinct.
-/

/-- Modelled from the spec: enumerator `AppletId_None` (the sentinel). -/
def AppletId_None : AppletId := 0x00
/-- Modelled from the spec: enumerator of the "auth" applet. -/
def AppletId_LibraryAppletAuth : AppletId := 0x0A
/-- Modelled from the spec: enumerator of the "cabinet" applet. -/
def AppletId_LibraryAppletCabinet : AppletId := 0x0B
/-- Modelled from the spec: enumerator of the "controller" applet. -/
def AppletId_LibraryAppletController : AppletId := 0x0C
/-- Modelled from the spec: enumerator of the "data-erase" applet. -/
def AppletId_LibraryAppletDataErase : AppletId := 0x0D
/-- Modelled from the spec: enumerator of the "error" applet. -/
def AppletId_LibraryAppletError : AppletId := 0x0E
/-- Modelled from the spec: enumerator of the "net-connect" applet. -/
def AppletId_LibraryAppletNetConnect : AppletId := 0x0F
/-- Modelled from the spec: enumerator of the "player-select" applet. -/
def AppletId_LibraryAppletPlayerSelect : AppletId := 0x10
/-- Modelled from the spec: enumerator of the "keyboard" applet. -/
def AppletId_LibraryAppletSwkbd : AppletId := 0x11
/-- Modelled from the spec: enumerator of the "mii-edit" applet. -/
def AppletId_LibraryAppletMiiEdit : AppletId := 0x12
/-- Modelled from the spec: enumerator of the "web" applet. -/
def AppletId_LibraryAppletWeb : AppletId := 0x13
/-- Modelled from the spec: enumerator of the "shop" applet. -/
def AppletId_LibraryAppletShop : AppletId := 0x14
/-- Modelled from the spec: enumerator of the "photo-viewer" applet. -/
def AppletId_LibraryAppletPhotoViewer : AppletId := 0x15
/-- Modelled from the spec: enumerator of the "settings" applet. -/
def AppletId_LibraryAppletSet : AppletId := 0x16
/-- Modelled from the spec: enumerator of the "offline-web" applet. -/
def AppletId_LibraryAppletOfflineWeb : AppletId := 0x17
/-- Modelled from the spec: enumerator of the "login-share" applet. -/
def AppletId_LibraryAppletLoginShare : AppletId := 0x18
/-- Modelled from the spec: enumerator of the "wifi-web-auth" applet. -/
def AppletId_LibraryAppletWifiWebAuth : AppletId := 0x19
/-- Modelled from the spec: enumerator of the "my-page" applet. -/
def AppletId_LibraryAppletMyPage : AppletId := 0x1A

/-- The source's `struct AppletInfo`. -/
structure AppletInfo where
  program_id : Nat
  applet_id : AppletId
  deriving DecidableEq, Repr

/-- The source's `g_AppletTable`, entry by entry and in the same order. -/
def g_AppletTable : List AppletInfo :=
  [ ⟨0x0100000000001001, AppletId_LibraryAppletAuth⟩,
    ⟨0x0100000000001002, AppletId_LibraryAppletCabinet⟩,
    ⟨0x0100000000001003, AppletId_LibraryAppletController⟩,
    ⟨0x0100000000001004, AppletId_LibraryAppletDataErase⟩,
    ⟨0x0100000000001005, AppletId_LibraryAppletError⟩,
    ⟨0x0100000000001006, AppletId_LibraryAppletNetConnect⟩,
    ⟨0x0100000000001007, AppletId_LibraryAppletPlayerSelect⟩,
    ⟨0x0100000000001008, AppletId_LibraryAppletSwkbd⟩,
    ⟨0x0100000000001009, AppletId_LibraryAppletMiiEdit⟩,
    ⟨0x010000000000100A, AppletId_LibraryAppletWeb⟩,
    ⟨0x010000000000100B, AppletId_LibraryAppletShop⟩,
    ⟨0x010000000000100D, AppletId_LibraryAppletPhotoViewer⟩,
    ⟨0x010000000000100E, AppletId_LibraryAppletSet⟩,
    ⟨0x010000000000100F, AppletId_LibraryAppletOfflineWeb⟩,
    ⟨0x0100000000001010, AppletId_LibraryAppletLoginShare⟩,
    ⟨0x0100000000001011, AppletId_LibraryAppletWifiWebAuth⟩,
    ⟨0x0100000000001013, AppletId_LibraryAppletMyPage⟩ ]

/-- The source's `AppletCount`, the number of table entries. -/
def AppletCount : Nat := g_AppletTable.length

/-- The loop of `GetProgramIdForAppletId` over the entries still to visit:
the first entry whose `applet_id` is `id` gives the result, and `0` is
returned once the entries are exhausted. -/
def GetProgramIdForAppletId.loop (id : AppletId) : List AppletInfo → Nat
  | [] => 0
  | info :: rest =>
    if info.applet_id = id then info.program_id
    else GetProgramIdForAppletId.loop id rest

/-- The source's `GetProgramIdForAppletId`: the loop from index `0`. -/
def GetProgramIdForAppletId (id : AppletId) : Nat :=
  GetProgramIdForAppletId.loop id g_AppletTable

/-- The loop of `GetAppletIdForProgramId` over the entries still to visit:
the first entry whose `program_id` is `id` gives the result, and
`AppletId_None` is returned once the entries are exhausted. -/
def GetAppletIdForProgramId.loop (id : Nat) : List AppletInfo → AppletId
  | [] => AppletId_None
  | info :: rest =>
    if info.program_id = id then info.applet_id
    else GetAppletIdForProgramId.loop id rest

/-- The source's `GetAppletIdForProgramId`: the loop from index `0`. -/
def GetAppletIdForProgramId (id : Nat) : AppletId :=
  GetAppletIdForProgramId.loop id g_AppletTable

end ul.system.la

namespace dmi

/-! ## Bytes and object representations -/

/-- One byte of an exchange buffer. -/
abbrev Byte := Fin 256

/-- The `n` little-endian bytes of `v` (the object representation of an
unsigned integer of `n` bytes on the little-endian target). -/
def leBytes (n : Nat) (v : Nat) : List Byte :=
  (List.range n).map fun i => ⟨v / 256 ^ i % 256, Nat.mod_lt _ (by decide)⟩

/-- The unsigned integer whose little-endian bytes are given. -/
def leValue : List Byte → Nat
  | [] => 0
  | b :: bs => b.val + 256 * leValue bs

/-- The source's `enum class DaemonMessage : u32`. -/
inductive DaemonMessage where
  | Invalid
  | SetSelectedUser
  | LaunchApplication
  | ResumeApplication
  | TerminateApplication
  | LaunchHomebrewLibraryApplet
  | LaunchHomebrewApplication
  | OpenWebPage
  | OpenAlbum
  | RestartMenu
  deriving DecidableEq, Repr

/-- The value `static_cast<u32>(msg)` of a `DaemonMessage`: enumerators count
from `0` in declaration order. -/
def DaemonMessage.toU32 : DaemonMessage → Nat
  | .Invalid => 0
  | .SetSelectedUser => 1
  | .LaunchApplication => 2
  | .ResumeApplication => 3
  | .TerminateApplication => 4
  | .LaunchHomebrewLibraryApplet => 5
  | .LaunchHomebrewApplication => 6
  | .OpenWebPage => 7
  | .OpenAlbum => 8
  | .RestartMenu => 9

/-- The source's `struct CommandCommonHeader`. -/
structure CommandCommonHeader where
  magic : Nat
  val : Nat
  deriving DecidableEq, Repr

/-- The source's `CommandMagic`. -/
def CommandMagic : Nat := 0x444D4930

/-- The source's `CommandStorageSize`. -/
def CommandStorageSize : Nat := 0x800

/-- The value `sizeof(CommandCommonHeader)`: two `u32` fields, no padding. -/
def CommandCommonHeader.sizeof : Nat := 8

/-- The object representation of a header: `magic` then `val`, each a
little-endian `u32`. -/
def CommandCommonHeader.toBytes (h : CommandCommonHeader) : List Byte :=
  leBytes 4 h.magic ++ leBytes 4 h.val

/-- The header held by an 8-byte object after the given bytes were stored
into it from its start (the object is zero before: `out_header = {}`). -/
def CommandCommonHeader.ofBytes (bytes : List Byte) : CommandCommonHeader :=
  ⟨leValue (bytes.take 4), leValue ((bytes.drop 4).take 4)⟩

/-! ## The operating system, as a parameter -/

/-- Modelled from the spec: the libnx struct `AppletStorage`, a handle to a
storage object of the operating system; the handle is a number, `0` being
the zero-initialised struct (`AppletStorage st = {}`). -/
abbrev AppletStorage := Nat

/-- The four result codes of the protocol layer. Their declarations
(`ul_Result.hpp`) are not among the sources at hand, so their values are a
parameter. -/
structure ResultCodes where
  ResultOutOfPushSpace : Result
  ResultOutOfPopSpace : Result
  ResultInvalidInHeaderMagic : Result
  ResultInvalidOutHeaderMagic : Result

/-- The primitives the protocol layer calls, over a state `σ` of the
operating system. The functions of libnx and the functions given for the
template parameters `PushStorageFn`, `PopStorageFn` are defined elsewhere;
every primitive is an arbitrary function of the state, so that each call may
succeed or fail in any way.

* `appletCreateStorage size` gives a result and the handle stored in `*st`;
* `appletStorageWrite st offset data size` gives a result;
* `appletStorageRead st offset size` gives a result and the bytes stored in
  the out buffer;
* `appletStorageClose st` gives nothing;
* `PushStorageFn st` gives a result;
* `PopStorageFn wait` gives a result and the handle stored in `*st`. -/
structure Os (σ : Type) where
  appletCreateStorage : Nat → σ → Result × AppletStorage × σ
  appletStorageWrite : AppletStorage → Nat → List Byte → Nat → σ → Result × σ
  appletStorageRead : AppletStorage → Nat → Nat → σ → Result × List Byte × σ
  appletStorageClose : AppletStorage → σ → σ
  PushStorageFn : AppletStorage → σ → Result × σ
  PopStorageFn : Bool → σ → Result × AppletStorage × σ

/-- What an execution does that is visible from outside: the calls of the
primitives, with arguments and results, and the invocations of the two
injected functions (with the message type passed, when one is passed). -/
inductive Event where
  | appletCreateStorage (size : Nat) (rc : Result) (st : AppletStorage)
  | appletStorageWrite (st : AppletStorage) (offset : Nat) (data : List Byte) (size : Nat)
      (rc : Result)
  | appletStorageRead (st : AppletStorage) (offset : Nat) (size : Nat) (rc : Result)
      (out : List Byte)
  | appletStorageClose (st : AppletStorage)
  | PushStorage (st : AppletStorage) (rc : Result)
  | PopStorage (wait : Bool) (rc : Result) (st : AppletStorage)
  | push_fn (msg_type : Option Nat)
  | pop_fn (msg_type : Option Nat)
  deriving DecidableEq, Repr

/-- What a recorded event says was read from a storage: the result of the
`appletStorageRead` and the bytes it stored. -/
def Event.popped : Event → Option (Result × List Byte)
  | Event.appletStorageRead _ _ _ rc out => some (rc, out)
  | _ => none

/-- An event that is the invocation of the injected function `push_fn`. -/
def Event.isPushFn : Event → Bool
  | Event.push_fn _ => true
  | _ => false

/-- An event that is the invocation of the injected function `pop_fn`. -/
def Event.isPopFn : Event → Bool
  | Event.pop_fn _ => true
  | _ => false

/-- The state an execution runs in: the state of the operating system and
the events so far, oldest first. -/
structure World (σ : Type) where
  os : σ
  trace : List Event
  deriving DecidableEq, Repr

/-- Record one event. -/
def World.log {σ : Type} (w : World σ) (e : Event) : World σ :=
  ⟨w.os, w.trace ++ [e]⟩

/-- The world `w1` continues the world `w` by events that all satisfy `p`:
the record of `w1` starts with the record of `w`, and every event after that
satisfies `p`. -/
def World.continuedBy {σ : Type} (p : Event → Bool) (w w1 : World σ) : Prop :=
  w1.trace.take w.trace.length = w.trace ∧ (w1.trace.drop w.trace.length).all p = true

instance World.decidableContinuedBy {σ : Type} (p : Event → Bool) (w w1 : World σ) :
    Decidable (w.continuedBy p w1) :=
  inferInstanceAs (Decidable (_ ∧ _))

/-- An event that is a call of a primitive of the operating system, that is,
no invocation of an injected function. -/
def Event.isPrimitive (e : Event) : Bool :=
  !e.isPushFn && !e.isPopFn

/-- Result of an operation on a writer. -/
structure WriterStep (σ : Type) (W : Type) where
  rc : Result
  writer : W
  world : World σ

/-- Result of an operation on a reader; `out` is what the operation stored
in the caller's buffer. -/
structure ReaderStep (σ : Type) (R : Type) where
  rc : Result
  out : List Byte
  reader : R
  world : World σ

namespace sys

variable {σ : Type}

/-- Call `appletCreateStorage(&st, size)` and record it. -/
def appletCreateStorage (os : Os σ) (size : Nat) (w : World σ) :
    Result × AppletStorage × World σ :=
  let r := os.appletCreateStorage size w.os
  (r.1, r.2.1, ⟨r.2.2, w.trace ++ [Event.appletCreateStorage size r.1 r.2.1]⟩)

/-- Call `appletStorageWrite(&st, offset, data, size)` and record it. -/
def appletStorageWrite (os : Os σ) (st : AppletStorage) (offset : Nat) (data : List Byte)
    (size : Nat) (w : World σ) : Result × World σ :=
  let r := os.appletStorageWrite st offset data size w.os
  (r.1, ⟨r.2, w.trace ++ [Event.appletStorageWrite st offset data size r.1]⟩)

/-- Call `appletStorageRead(&st, offset, out_data, size)` and record it. -/
def appletStorageRead (os : Os σ) (st : AppletStorage) (offset : Nat) (size : Nat)
    (w : World σ) : Result × List Byte × World σ :=
  let r := os.appletStorageRead st offset size w.os
  (r.1, r.2.1, ⟨r.2.2, w.trace ++ [Event.appletStorageRead st offset size r.1 r.2.1]⟩)

/-- Call `appletStorageClose(&st)` and record it. -/
def appletStorageClose (os : Os σ) (st : AppletStorage) (w : World σ) : World σ :=
  ⟨os.appletStorageClose st w.os, w.trace ++ [Event.appletStorageClose st]⟩

/-- Call `PushStorageFn(st)` and record it. -/
def PushStorage (os : Os σ) (st : AppletStorage) (w : World σ) : Result × World σ :=
  let r := os.PushStorageFn st w.os
  (r.1, ⟨r.2, w.trace ++ [Event.PushStorage st r.1]⟩)

/-- Call `PopStorageFn(st, wait)` and record it. -/
def PopStorage (os : Os σ) (wait : Bool) (w : World σ) :
    Result × AppletStorage × World σ :=
  let r := os.PopStorageFn wait w.os
  (r.1, r.2.1, ⟨r.2.2, w.trace ++ [Event.PopStorage wait r.1 r.2.1]⟩)

end sys

namespace impl

variable {σ : Type}

/-! ## `ScopedStorageWriterBase` -/

/-- The data members of the source's `ScopedStorageWriterBase`. -/
structure ScopedStorageWriterBase where
  st : AppletStorage
  cur_offset : Nat
  deriving DecidableEq, Repr

/-- The constructor: `st()`, `cur_offset(0)`. -/
def ScopedStorageWriterBase.ctor : ScopedStorageWriterBase := ⟨0, 0⟩

/-- The source's `Initialize`: `this->st = st`. -/
def ScopedStorageWriterBase.Initialize (self : ScopedStorageWriterBase) (st : AppletStorage) :
    ScopedStorageWriterBase :=
  ⟨st, self.cur_offset⟩

/-- The source's `PushData(data, size)`. The sum `cur_offset + size` and the
update `cur_offset += size` are `size_t` arithmetic, modulo `2^64`;
`UL_RC_TRY` returns the result of the write when it is a failure. -/
def ScopedStorageWriterBase.PushData (rc : ResultCodes) (os : Os σ)
    (self : ScopedStorageWriterBase) (data : List Byte) (size : Nat) (w : World σ) :
    WriterStep σ ScopedStorageWriterBase :=
  if (self.cur_offset + size) % 2 ^ 64 ≤ CommandStorageSize then
    let r := sys.appletStorageWrite os self.st self.cur_offset data size w
    if R_FAILED r.1 then ⟨r.1, self, r.2⟩
    else ⟨ResultSuccess, ⟨self.st, (self.cur_offset + size) % 2 ^ 64⟩, r.2⟩
  else ⟨rc.ResultOutOfPushSpace, self, w⟩

/-- The source's `Push<T>(t)`, which is `PushData(&t, sizeof(T))`; `object`
is the object representation of `t`, `sizeof(T)` bytes long. -/
def ScopedStorageWriterBase.Push (rc : ResultCodes) (os : Os σ)
    (self : ScopedStorageWriterBase) (object : List Byte) (w : World σ) :
    WriterStep σ ScopedStorageWriterBase :=
  self.PushData rc os object object.length w

/-- The destructor: `UL_RC_ASSERT(PushStorage(&st)); appletStorageClose(&st);`.
The result is `some rc` when the assertion stops the process with the failing
code `rc` (the close is then not reached) and `none` when the destructor
completes.

Modelled from the spec: the macro `UL_RC_ASSERT` (`ul_Result.hpp`) is not
among the sources at hand; as an assertion on a result code it lets a
success pass and does not return on a failure. -/
def ScopedStorageWriterBase.dtor (os : Os σ) (self : ScopedStorageWriterBase)
    (w : World σ) : Option Result × World σ :=
  let r := sys.PushStorage os self.st w
  if R_FAILED r.1 then (some r.1, r.2)
  else (none, sys.appletStorageClose os self.st r.2)

/-! ## `ScopedStorageReaderBase` -/

/-- The data members of the source's `ScopedStorageReaderBase`. -/
structure ScopedStorageReaderBase where
  st : AppletStorage
  cur_offset : Nat
  deriving DecidableEq, Repr

/-- The constructor: `st()`, `cur_offset(0)`. -/
def ScopedStorageReaderBase.ctor : ScopedStorageReaderBase := ⟨0, 0⟩

/-- The source's `Initialize`: `this->st = st`. -/
def ScopedStorageReaderBase.Initialize (self : ScopedStorageReaderBase) (st : AppletStorage) :
    ScopedStorageReaderBase :=
  ⟨st, self.cur_offset⟩

/-- The source's `PopData(out_data, size)`. When the bounds test fails
nothing is stored in the out buffer. -/
def ScopedStorageReaderBase.PopData (rc : ResultCodes) (os : Os σ)
    (self : ScopedStorageReaderBase) (size : Nat) (w : World σ) :
    ReaderStep σ ScopedStorageReaderBase :=
  if (self.cur_offset + size) % 2 ^ 64 ≤ CommandStorageSize then
    let r := sys.appletStorageRead os self.st self.cur_offset size w
    if R_FAILED r.1 then ⟨r.1, r.2.1, self, r.2.2⟩
    else ⟨ResultSuccess, r.2.1, ⟨self.st, (self.cur_offset + size) % 2 ^ 64⟩, r.2.2⟩
  else ⟨rc.ResultOutOfPopSpace, [], self, w⟩

/-- The source's `Pop<T>(out_t)`, which is `PopData(&out_t, sizeof(T))`. -/
def ScopedStorageReaderBase.Pop (rc : ResultCodes) (os : Os σ)
    (self : ScopedStorageReaderBase) (sizeofT : Nat) (w : World σ) :
    ReaderStep σ ScopedStorageReaderBase :=
  self.PopData rc os sizeofT w

/-- The destructor: `appletStorageClose(&st)`. -/
def ScopedStorageReaderBase.dtor (os : Os σ) (self : ScopedStorageReaderBase)
    (w : World σ) : World σ :=
  sys.appletStorageClose os self.st w

/-! ## Opening a storage -/

/-- The source's `OpenStorageReader(reader, wait)`. -/
def OpenStorageReader (os : Os σ) (reader : ScopedStorageReaderBase) (wait : Bool)
    (w : World σ) : ReaderStep σ ScopedStorageReaderBase :=
  let r := sys.PopStorage os wait w
  if R_FAILED r.1 then ⟨r.1, [], reader, r.2.2⟩
  else ⟨ResultSuccess, [], reader.Initialize r.2.1, r.2.2⟩

/-- The source's `OpenStorageWriter(writer)`. -/
def OpenStorageWriter (os : Os σ) (writer : ScopedStorageWriterBase) (w : World σ) :
    WriterStep σ ScopedStorageWriterBase :=
  let r := sys.appletCreateStorage os CommandStorageSize w
  if R_FAILED r.1 then ⟨r.1, writer, r.2.2⟩
  else ⟨ResultSuccess, writer.Initialize r.2.1, r.2.2⟩

/-! ## The injected functions -/

/-- A function `std::function<Result(StorageWriter&)>` (or, with the message
type applied, `std::function<Result(const MessageType, StorageWriter&)>`):
what it does next. It returns a result, or calls `writer.PushData` and goes
on according to the result, or does something else to the operating system
(any function of its state, giving a result) and goes on. -/
inductive WriterFn (σ : Type) where
  | ret (rc : Result)
  | PushData (data : List Byte) (size : Nat) (k : Result → WriterFn σ)
  | effect (f : σ → Result × σ) (k : Result → WriterFn σ)

/-- A function `std::function<Result(StorageReader&)>` (or, with the message
type applied, `std::function<Result(const MessageType, StorageReader&)>`):
what it does next. It returns a result, or calls `reader.PopData` and goes
on according to the result and the bytes read, or does something else to the
operating system and goes on. -/
inductive ReaderFn (σ : Type) where
  | ret (rc : Result)
  | PopData (size : Nat) (k : Result → List Byte → ReaderFn σ)
  | effect (f : σ → Result × σ) (k : Result → ReaderFn σ)

/-- Run an injected writer function on a writer. -/
def WriterFn.run (rc : ResultCodes) (os : Os σ) :
    WriterFn σ → ScopedStorageWriterBase → World σ → WriterStep σ ScopedStorageWriterBase
  | .ret r, writer, w => ⟨r, writer, w⟩
  | .PushData data size k, writer, w =>
    let p := writer.PushData rc os data size w
    (k p.rc).run rc os p.writer p.world
  | .effect f k, writer, w =>
    let e := f w.os
    (k e.1).run rc os writer ⟨e.2, w.trace⟩

/-- Run an injected reader function on a reader. The `out` of the result is
the buffer of the last `PopData`, if any. -/
def ReaderFn.run (rc : ResultCodes) (os : Os σ) :
    ReaderFn σ → ScopedStorageReaderBase → World σ → ReaderStep σ ScopedStorageReaderBase
  | .ret r, reader, w => ⟨r, [], reader, w⟩
  | .PopData size k, reader, w =>
    let p := reader.PopData rc os size w
    (k p.rc p.out).run rc os p.reader p.world
  | .effect f k, reader, w =>
    let e := f w.os
    (k e.1).run rc os reader ⟨e.2, w.trace⟩

/-! ## `SendCommandImpl` -/

/-- How a call ends: it returns a result to its caller, or an assertion
stops the process. -/
inductive Outcome where
  | returned (rc : Result)
  | aborted (rc : Result)
  deriving DecidableEq, Repr

/-- Leaving a block that declares a writer, `b` being the result with
which the block is left: the destructor of the writer runs, and either its
assertion stops the process or the block's result stands. -/
def leaveWriterScope (os : Os σ) (b : WriterStep σ ScopedStorageWriterBase) :
    Outcome × World σ :=
  let d := b.writer.dtor os b.world
  match d.1 with
  | some a => (Outcome.aborted a, d.2)
  | none => (Outcome.returned b.rc, d.2)

/-- The statements of the first block of `SendCommandImpl`, up to the point
where the block is left: by a `return` of `UL_RC_TRY` (a failing `rc`) or at
its end (`rc` is `0`). The writer is the local `writer` as it is then. -/
def SendCommandImpl.requestBody (rc : ResultCodes) (os : Os σ) (msg_type : Nat)
    (push_fn : WriterFn σ) (w : World σ) : WriterStep σ ScopedStorageWriterBase :=
  let in_header : CommandCommonHeader := ⟨CommandMagic, msg_type⟩
  let writer := ScopedStorageWriterBase.ctor
  let o := OpenStorageWriter os writer w
  if R_FAILED o.rc then o
  else
    let p := o.writer.Push rc os in_header.toBytes o.world
    if R_FAILED p.rc then p
    else push_fn.run rc os p.writer (p.world.log (Event.push_fn none))

/-- The first block of `SendCommandImpl` with the destructor of `writer`
that runs when the block is left. -/
def SendCommandImpl.request (rc : ResultCodes) (os : Os σ) (msg_type : Nat)
    (push_fn : WriterFn σ) (w : World σ) : Outcome × World σ :=
  leaveWriterScope os (SendCommandImpl.requestBody rc os msg_type push_fn w)

/-- The statements of the second block of `SendCommandImpl`, up to the point
where the block is left. -/
def SendCommandImpl.replyBody (rc : ResultCodes) (os : Os σ) (pop_fn : ReaderFn σ)
    (w : World σ) : ReaderStep σ ScopedStorageReaderBase :=
  let reader := ScopedStorageReaderBase.ctor
  let o := OpenStorageReader os reader true w
  if R_FAILED o.rc then o
  else
    let p := o.reader.Pop rc os CommandCommonHeader.sizeof o.world
    if R_FAILED p.rc then p
    else
      let out_header := CommandCommonHeader.ofBytes p.out
      if out_header.magic ≠ CommandMagic then
        ⟨rc.ResultInvalidOutHeaderMagic, p.out, p.reader, p.world⟩
      else if R_FAILED out_header.val then ⟨out_header.val, p.out, p.reader, p.world⟩
      else pop_fn.run rc os p.reader (p.world.log (Event.pop_fn none))

/-- The second block of `SendCommandImpl` with the destructor of `reader`,
and the final `return ResultSuccess`. -/
def SendCommandImpl.reply (rc : ResultCodes) (os : Os σ) (pop_fn : ReaderFn σ)
    (w : World σ) : Outcome × World σ :=
  let b := SendCommandImpl.replyBody rc os pop_fn w
  (Outcome.returned b.rc, b.reader.dtor os b.world)

/-- The source's `SendCommandImpl(msg_type, push_fn, pop_fn)`. -/
def SendCommandImpl (rc : ResultCodes) (os : Os σ) (msg_type : Nat)
    (push_fn : WriterFn σ) (pop_fn : ReaderFn σ) (w : World σ) : Outcome × World σ :=
  match SendCommandImpl.request rc os msg_type push_fn w with
  | (Outcome.aborted a, w1) => (Outcome.aborted a, w1)
  | (Outcome.returned r, w1) =>
    if R_FAILED r then (Outcome.returned r, w1)
    else SendCommandImpl.reply rc os pop_fn w1

/-! ## `ReceiveCommandImpl` -/

/-- The locals of `ReceiveCommandImpl` when its first block is left:
`early` is `some rc` when it is left by `return rc`. -/
structure ReadPhase (σ : Type) where
  early : Option Result
  msg_type : Nat
  in_out_header : CommandCommonHeader
  reader : ScopedStorageReaderBase
  world : World σ

/-- The statements of the first block of `ReceiveCommandImpl`, up to the
point where the block is left. `in_out_header = {}` and
`msg_type = MessageType()` are zero before. -/
def ReceiveCommandImpl.readBody (rc : ResultCodes) (os : Os σ)
    (pop_fn : Nat → ReaderFn σ) (w : World σ) : ReadPhase σ :=
  let reader := ScopedStorageReaderBase.ctor
  let o := OpenStorageReader os reader false w
  if R_FAILED o.rc then ⟨some o.rc, 0, ⟨0, 0⟩, o.reader, o.world⟩
  else
    let p := o.reader.Pop rc os CommandCommonHeader.sizeof o.world
    if R_FAILED p.rc then ⟨some p.rc, 0, ⟨0, 0⟩, p.reader, p.world⟩
    else
      let in_out_header := CommandCommonHeader.ofBytes p.out
      if in_out_header.magic ≠ CommandMagic then
        ⟨some rc.ResultInvalidInHeaderMagic, 0, in_out_header, p.reader, p.world⟩
      else
        let msg_type := in_out_header.val
        let f := (pop_fn msg_type).run rc os p.reader (p.world.log (Event.pop_fn (some msg_type)))
        ⟨none, msg_type, ⟨in_out_header.magic, f.rc⟩, f.reader, f.world⟩

/-- The first block of `ReceiveCommandImpl` with the destructor of
`reader`. -/
def ReceiveCommandImpl.read (rc : ResultCodes) (os : Os σ)
    (pop_fn : Nat → ReaderFn σ) (w : World σ) : ReadPhase σ :=
  let b := ReceiveCommandImpl.readBody rc os pop_fn w
  ⟨b.early, b.msg_type, b.in_out_header, b.reader, b.reader.dtor os b.world⟩

/-- The statements of the second block of `ReceiveCommandImpl`, up to the
point where the block is left. -/
def ReceiveCommandImpl.replyBody (rc : ResultCodes) (os : Os σ)
    (push_fn : Nat → WriterFn σ) (msg_type : Nat) (in_out_header : CommandCommonHeader)
    (w : World σ) : WriterStep σ ScopedStorageWriterBase :=
  let writer := ScopedStorageWriterBase.ctor
  let o := OpenStorageWriter os writer w
  if R_FAILED o.rc then o
  else
    let p := o.writer.Push rc os in_out_header.toBytes o.world
    if R_FAILED p.rc then p
    else if R_SUCCEEDED in_out_header.val then
      (push_fn msg_type).run rc os p.writer (p.world.log (Event.push_fn (some msg_type)))
    else p

/-- The second block of `ReceiveCommandImpl` with the destructor of
`writer`, and the final `return ResultSuccess`. -/
def ReceiveCommandImpl.reply (rc : ResultCodes) (os : Os σ)
    (push_fn : Nat → WriterFn σ) (msg_type : Nat) (in_out_header : CommandCommonHeader)
    (w : World σ) : Outcome × World σ :=
  leaveWriterScope os (ReceiveCommandImpl.replyBody rc os push_fn msg_type in_out_header w)

/-- The source's `ReceiveCommandImpl(pop_fn, push_fn)`. -/
def ReceiveCommandImpl (rc : ResultCodes) (os : Os σ)
    (pop_fn : Nat → ReaderFn σ) (push_fn : Nat → WriterFn σ) (w : World σ) :
    Outcome × World σ :=
  let r := ReceiveCommandImpl.read rc os pop_fn w
  match r.early with
  | some e => (Outcome.returned e, r.world)
  | none => ReceiveCommandImpl.reply rc os push_fn r.msg_type r.in_out_header r.world

/-! ## Encoders and decoders made of payload fields -/

/-- An encoder that calls `PushData` once per payload field, in order. With
`check` it leaves with the first failing result (each call under
`UL_RC_TRY`); without it the results are ignored, as the lambdas of
`smi_Commands.hpp` do. It returns `ResultSuccess` at its end. -/
def pushFields (check : Bool) : List (List Byte) → WriterFn σ
  | [] => WriterFn.ret ResultSuccess
  | field :: rest =>
    WriterFn.PushData field field.length fun r =>
      if check && R_FAILED r then WriterFn.ret r else pushFields check rest

/-- A decoder that calls `PopData` once per payload field size, in order,
with or without checking each result, like `pushFields`. -/
def popFields (check : Bool) : List Nat → ReaderFn σ
  | [] => ReaderFn.ret ResultSuccess
  | size :: rest =>
    ReaderFn.PopData size fun r _ =>
      if check && R_FAILED r then ReaderFn.ret r else popFields check rest

end impl

/-! ## A model of the storage primitives -/

/-- Modelled from the spec: a storage object of the operating system
(libnx, outside this repository) as the spec describes an exchange buffer: a byte
region of fixed capacity. A new region is zero-filled; `bytes` are the bytes
of the region from its start up to the last one written so far, and the
bytes after them, up to `capacity`, are zero. -/
structure Storage where
  capacity : Nat
  bytes : List Byte
  deriving DecidableEq, Repr

/-- Modelled from the spec: the bytes of the region from its start, at least
`n` of them. -/
def Storage.upTo (b : Storage) (n : Nat) : List Byte :=
  b.bytes ++ List.replicate (n - b.bytes.length) 0

/-- Modelled from the spec: the state of the storage primitives: a writer
publishes its buffer to the peer, a reader attaches to an inbound buffer.
`storages` are the storages created so far, the handle `n + 1` naming the
entry of index `n`; `inbox` are the handles the peer has published to this
side and `outbox` the handles this side has published to the peer, oldest
first. -/
structure MemOs where
  storages : List Storage
  inbox : List AppletStorage
  outbox : List AppletStorage
  deriving DecidableEq, Repr

namespace MemOs

/-- Modelled from the spec: the failure code of the model's primitives. -/
def failure : Result := 0x2

/-- Modelled from the spec: the storage a handle names, when it names
one. -/
def content (s : MemOs) (st : AppletStorage) : Option Storage :=
  if st = 0 then none else s.storages[st - 1]?

/-- Modelled from the spec: replace the storage a handle names. -/
def setContent (s : MemOs) (st : AppletStorage) (b : Storage) : MemOs :=
  ⟨s.storages.set (st - 1) b, s.inbox, s.outbox⟩

/-- Modelled from the spec: the state as the peer sees it: what one side has
published is what the other side receives. -/
def toPeer (s : MemOs) : MemOs :=
  ⟨s.storages, s.outbox, s.inbox⟩

/-- Modelled from the spec: creating a storage of `size` bytes gives a new
zero-filled region. -/
def appletCreateStorage (size : Nat) (s : MemOs) : Result × AppletStorage × MemOs :=
  (ResultSuccess, s.storages.length + 1, ⟨s.storages ++ [⟨size, []⟩], s.inbox, s.outbox⟩)

/-- Modelled from the spec: writing `size` bytes at `offset` succeeds when the
region holds them and replaces those bytes; otherwise it fails and changes
nothing. -/
def appletStorageWrite (st : AppletStorage) (offset : Nat) (data : List Byte) (size : Nat)
    (s : MemOs) : Result × MemOs :=
  match s.content st with
  | some b =>
    if data.length = size ∧ offset + size ≤ b.capacity then
      (ResultSuccess, s.setContent st
        ⟨b.capacity, (b.upTo offset).take offset ++ data ++ (b.upTo offset).drop (offset + size)⟩)
    else (failure, s)
  | none => (failure, s)

/-- Modelled from the spec: reading `size` bytes at `offset` succeeds when the
region holds them and gives those bytes; otherwise it fails and stores
nothing. -/
def appletStorageRead (st : AppletStorage) (offset : Nat) (size : Nat) (s : MemOs) :
    Result × List Byte × MemOs :=
  match s.content st with
  | some b =>
    if offset + size ≤ b.capacity then
      (ResultSuccess, ((b.upTo (offset + size)).drop offset).take size, s)
    else (failure, [], s)
  | none => (failure, [], s)

/-- Modelled from the spec: publishing a storage appends its handle to the
outbox. -/
def PushStorageFn (st : AppletStorage) (s : MemOs) : Result × MemOs :=
  match s.content st with
  | some _ => (ResultSuccess, ⟨s.storages, s.inbox, s.outbox ++ [st]⟩)
  | none => (failure, s)

/-- Modelled from the spec: receiving a storage takes the oldest handle of the
inbox; with an empty inbox it fails. -/
def PopStorageFn (_wait : Bool) (s : MemOs) : Result × AppletStorage × MemOs :=
  match s.inbox with
  | [] => (failure, 0, s)
  | st :: rest => (ResultSuccess, st, ⟨s.storages, rest, s.outbox⟩)

end MemOs

/-- Modelled from the spec: the model as an operating system for the protocol
layer. Closing a handle leaves the storage to whoever else holds it. -/
def memOs : Os MemOs :=
  ⟨MemOs.appletCreateStorage, MemOs.appletStorageWrite, MemOs.appletStorageRead,
    fun _ s => s, MemOs.PushStorageFn, MemOs.PopStorageFn⟩

/-- Sample values for the four result codes of the protocol layer, used
where a concrete instance is needed. -/
def sampleCodes : ResultCodes := ⟨0x2d7c, 0x2f7c, 0x317c, 0x337c⟩

/-- A world of the storage model in which the peer has published one
storage, holding the given header and no payload, and nothing else has
happened. -/
def inbound (hdr : CommandCommonHeader) : World MemOs :=
  ⟨⟨[⟨CommandStorageSize, hdr.toBytes⟩], [1], []⟩, []⟩

end dmi

namespace ul.menu.smi

open dmi dmi.impl

/-- The first lambda of the source's `LaunchApplication(app_id)`:
`writer.Push(app_id); return ResultSuccess;` with `app_id` a `u64`. -/
def LaunchApplication.push_fn {σ : Type} (app_id : Nat) : WriterFn σ :=
  WriterFn.PushData (leBytes 8 app_id) 8 fun _ => WriterFn.ret ResultSuccess

/-- The second lambda of the source's `LaunchApplication(app_id)`:
`return ResultSuccess;`. -/
def LaunchApplication.pop_fn {σ : Type} : ReaderFn σ :=
  ReaderFn.ret ResultSuccess

end ul.menu.smi

namespace ul.system.la

open dmi (Byte AppletStorage)

/-! ## The applet session (`la_LibraryApplet.cpp`) -/

/-- Modelled from the spec: libnx's `INVALID_HANDLE`, which is `0`. -/
def INVALID_HANDLE : Nat := 0

/-- Modelled from the spec: libnx's enumerator `LibAppletMode_AllForeground`,
which is `0`. -/
def LibAppletMode_AllForeground : Nat := 0

/-- The functions of libnx that the session calls on `g_AppletHolder`, over a
state `σ` that stands for the holder together with the applet behind it.
They are defined in libnx; each is an arbitrary function of that state, so
that each call may succeed or fail in any way. The first three only read the
state: the field `StateChangedEvent.revent`, `serviceIsActive(&s)` and
`appletHolderCheckFinished` (a wait of zero length on the state-changed
event).

`libappletArgsPush la_version` stands for `libappletArgsCreate(&la_args,
la_version)` followed by `libappletArgsPush(&la_args, &g_AppletHolder)`. -/
structure Libnx (σ : Type) where
  StateChangedEvent_revent : σ → Nat
  serviceIsActive : σ → Bool
  appletHolderCheckFinished : σ → Bool
  appletHolderRequestExitOrTerminate : Nat → σ → Result × σ
  appletHolderClose : σ → σ
  appletCreateLibraryApplet : AppletId → Nat → σ → Result × σ
  libappletArgsPush : Nat → σ → Result × σ
  libappletPushInData : List Byte → Nat → σ → Result × σ
  libappletPopOutData : Nat → σ → Result × List Byte × σ
  appletHolderPushInData : AppletStorage → σ → Result × σ
  appletHolderPopOutData : σ → Result × AppletStorage × σ
  appletHolderStart : σ → Result × σ

/-- A call of libnx that acts on the holder, with its arguments and its
result. -/
inductive Call where
  | appletHolderRequestExitOrTerminate (timeout : Nat) (rc : Result)
  | appletHolderClose
  | appletCreateLibraryApplet (id : AppletId) (mode : Nat) (rc : Result)
  | libappletArgsPush (la_version : Nat) (rc : Result)
  | libappletPushInData (data : List Byte) (size : Nat) (rc : Result)
  | libappletPopOutData (size : Nat) (rc : Result)
  | appletHolderPushInData (st : AppletStorage) (rc : Result)
  | appletHolderPopOutData (rc : Result) (st : AppletStorage)
  | appletHolderStart (rc : Result)
  deriving DecidableEq, Repr

/-- The three globals of the source, and the record of the calls made on the
holder so far, oldest first. -/
structure Session (σ : Type) where
  g_AppletHolder : σ
  g_MenuAppletId : AppletId
  g_LastAppletId : AppletId
  calls : List Call
  deriving DecidableEq, Repr

variable {σ : Type}

/-- One call on the holder: the new holder, and the call recorded. -/
def Session.called (s : Session σ) (holder : σ) (c : Call) : Session σ :=
  ⟨holder, s.g_MenuAppletId, s.g_LastAppletId, s.calls ++ [c]⟩

/-- The source's `IsActive`. -/
def IsActive (nx : Libnx σ) (s : Session σ) : Bool :=
  if nx.StateChangedEvent_revent s.g_AppletHolder = INVALID_HANDLE then false
  else if !nx.serviceIsActive s.g_AppletHolder then false
  else !nx.appletHolderCheckFinished s.g_AppletHolder

/-- The source's `Terminate`: the timeout is `15'000'000'000ul`
nanoseconds. -/
def Terminate (nx : Libnx σ) (s : Session σ) : Result × Session σ :=
  let r := nx.appletHolderRequestExitOrTerminate 15000000000 s.g_AppletHolder
  (r.1, s.called r.2 (Call.appletHolderRequestExitOrTerminate 15000000000 r.1))

/-- The source's `Send`. -/
def Send (nx : Libnx σ) (data : List Byte) (size : Nat) (s : Session σ) :
    Result × Session σ :=
  let r := nx.libappletPushInData data size s.g_AppletHolder
  (r.1, s.called r.2 (Call.libappletPushInData data size r.1))

/-- The source's `Read`; the second component is what was stored in
`data`. -/
def Read (nx : Libnx σ) (size : Nat) (s : Session σ) : Result × List Byte × Session σ :=
  let r := nx.libappletPopOutData size s.g_AppletHolder
  (r.1, r.2.1, s.called r.2.2 (Call.libappletPopOutData size r.1))

/-- The source's `Push`. -/
def Push (nx : Libnx σ) (st : AppletStorage) (s : Session σ) : Result × Session σ :=
  let r := nx.appletHolderPushInData st s.g_AppletHolder
  (r.1, s.called r.2 (Call.appletHolderPushInData st r.1))

/-- The source's `Pop`; the second component is what was stored in `*st`. -/
def Pop (nx : Libnx σ) (s : Session σ) : Result × AppletStorage × Session σ :=
  let r := nx.appletHolderPopOutData s.g_AppletHolder
  (r.1, r.2.1, s.called r.2.2 (Call.appletHolderPopOutData r.1 r.2.1))

/-- The first two statements of the source's `Start`:
`if(IsActive()) { Terminate(); }` and `appletHolderClose(&g_AppletHolder);`.
The result of `Terminate` is dropped. -/
def Start.prologue (nx : Libnx σ) (s : Session σ) : Session σ :=
  let s1 := if IsActive nx s then (Terminate nx s).2 else s
  s1.called (nx.appletHolderClose s1.g_AppletHolder) Call.appletHolderClose

/-- The source's `Start(id, la_version, in_data, in_size)`. Each `UL_RC_TRY`
returns the result of its step when it is a failure. -/
def Start (nx : Libnx σ) (id : AppletId) (la_version : Nat) (in_data : List Byte)
    (in_size : Nat) (s : Session σ) : Result × Session σ :=
  let s2 := Start.prologue nx s
  let c := nx.appletCreateLibraryApplet id LibAppletMode_AllForeground s2.g_AppletHolder
  let s3 := s2.called c.2 (Call.appletCreateLibraryApplet id LibAppletMode_AllForeground c.1)
  if R_FAILED c.1 then (c.1, s3)
  else
    let a := nx.libappletArgsPush la_version s3.g_AppletHolder
    let s4 := s3.called a.2 (Call.libappletArgsPush la_version a.1)
    if R_FAILED a.1 then (a.1, s4)
    else
      let d := if in_size > 0 then Send nx in_data in_size s4 else (ResultSuccess, s4)
      if R_FAILED d.1 then d
      else
        let t := nx.appletHolderStart d.2.g_AppletHolder
        let s6 := d.2.called t.2 (Call.appletHolderStart t.1)
        if R_FAILED t.1 then (t.1, s6)
        else (ResultSuccess, ⟨s6.g_AppletHolder, s6.g_MenuAppletId, id, s6.calls⟩)

/-- The source's `GetLastAppletId`. -/
def GetLastAppletId (nx : Libnx σ) (s : Session σ) : AppletId × Session σ :=
  let last_id_copy := s.g_LastAppletId
  if !IsActive nx s then
    (last_id_copy, ⟨s.g_AppletHolder, s.g_MenuAppletId, AppletId_None, s.calls⟩)
  else (last_id_copy, s)

/-- The source's `IsMenu`:
`IsActive() && (g_MenuAppletId != AppletId_None) && (GetLastAppletId() == g_MenuAppletId)`,
the operands evaluated from the left, each only when the ones before it are
true. -/
def IsMenu (nx : Libnx σ) (s : Session σ) : Bool × Session σ :=
  if IsActive nx s then
    if s.g_MenuAppletId ≠ AppletId_None then
      let g := GetLastAppletId nx s
      (decide (g.1 = g.2.g_MenuAppletId), g.2)
    else (false, s)
  else (false, s)

/-- The source's `SetMenuAppletId`. -/
def SetMenuAppletId (id : AppletId) (s : Session σ) : Session σ :=
  ⟨s.g_AppletHolder, id, s.g_LastAppletId, s.calls⟩

/-- The source's `GetMenuAppletId`. -/
def GetMenuAppletId (s : Session σ) : AppletId :=
  s.g_MenuAppletId

end ul.system.la

namespace ul.system.la

open dmi (Byte AppletStorage)

/-! ## A model of the holder -/

/-- Modelled from the spec: the holder of libnx as the session sees it, after
the spec's states `Idle` (no handle), `Starting` / `Running` (handle created,
not finished) and back to `Idle`: `revent` is the handle of the state-changed
event (`0` when there is none), `active` says whether the service session of
the holder is open, `started` whether the applet was started, and `finished`
whether the state-changed event is signalled. -/
structure HolderModel where
  revent : Nat
  active : Bool
  started : Bool
  finished : Bool
  deriving DecidableEq, Repr

/-- Modelled from the spec: the holder with no handle (the `Idle` state), which
is also the zero-initialised global. -/
def HolderModel.idle : HolderModel := ⟨0, false, false, false⟩

/-- Modelled from the spec: the applet behind the holder finishes, which
signals the state-changed event. -/
def HolderModel.finish (h : HolderModel) : HolderModel :=
  ⟨h.revent, h.active, h.started, true⟩

/-- The steps of the model that can be made to fail. -/
inductive Step where
  | terminate
  | create
  | argsPush
  | pushInData
  | popOutData
  | holderPush
  | holderPop
  | start
  deriving DecidableEq, Repr

/-- Modelled from the spec: the functions of libnx on the model of the holder.
`fail step` is the result the step is made to return, `0` for a step that
works. Creating gives a handle (and leaves no handle when it fails); closing
gives the handle up; a request to exit that works leaves the applet
finished; a start that works leaves it started; the other calls leave the
holder as it is. -/
def modelNx (fail : Step → Result) : Libnx HolderModel :=
  ⟨fun h => h.revent,
   fun h => h.active,
   fun h => h.finished,
   fun _ h => if R_FAILED (fail Step.terminate) then (fail Step.terminate, h)
     else (ResultSuccess, h.finish),
   fun _ => HolderModel.idle,
   fun _ _ _ => if R_FAILED (fail Step.create) then (fail Step.create, HolderModel.idle)
     else (ResultSuccess, ⟨1, true, false, false⟩),
   fun _ h => (fail Step.argsPush, h),
   fun _ _ h => (fail Step.pushInData, h),
   fun _ h => (fail Step.popOutData, [], h),
   fun _ h => (fail Step.holderPush, h),
   fun h => (fail Step.holderPop, 0, h),
   fun h => if R_FAILED (fail Step.start) then (fail Step.start, h)
     else (ResultSuccess, ⟨h.revent, h.active, true, h.finished⟩)⟩

/-- The session as the process starts: no handle, both applet ids
`AppletId_None`, no call made. -/
def Session.initial : Session HolderModel :=
  ⟨HolderModel.idle, AppletId_None, AppletId_None, []⟩

/-! ## Sequences of operations -/

/-- An operation of the session other than `SetMenuAppletId` and
`GetMenuAppletId`, with its arguments. -/
inductive Op where
  | IsActive
  | Terminate
  | Start (id : AppletId) (la_version : Nat) (in_data : List Byte) (in_size : Nat)
  | Send (data : List Byte) (size : Nat)
  | Read (size : Nat)
  | Push (st : AppletStorage)
  | Pop
  | GetLastAppletId
  | IsMenu
  | GetProgramIdForAppletId (id : AppletId)
  | GetAppletIdForProgramId (id : Nat)

variable {σ : Type}

/-- The session after an operation (what the operation returns is
dropped). -/
def Op.run (nx : Libnx σ) (s : Session σ) : Op → Session σ
  | Op.IsActive => s
  | Op.Terminate => (la.Terminate nx s).2
  | Op.Start id la_version in_data in_size => (la.Start nx id la_version in_data in_size s).2
  | Op.Send data size => (la.Send nx data size s).2
  | Op.Read size => (la.Read nx size s).2.2
  | Op.Push st => (la.Push nx st s).2
  | Op.Pop => (la.Pop nx s).2.2
  | Op.GetLastAppletId => (la.GetLastAppletId nx s).2
  | Op.IsMenu => (la.IsMenu nx s).2
  | Op.GetProgramIdForAppletId _ => s
  | Op.GetAppletIdForProgramId _ => s

end ul.system.la

namespace ul.system.la

/-- A call that `Start` makes after it has created the new handle: pushing
the arguments, pushing the input, starting. -/
def Call.isStartStep : Call → Bool
  | Call.libappletArgsPush _ _ => true
  | Call.libappletPushInData _ _ _ => true
  | Call.appletHolderStart _ => true
  | _ => false

end ul.system.la

namespace dmi

/-! ## The storage model with failures -/

/-- An event a writer's block records between acquiring its storage `st` and
leaving: a write to `st`, or the invocation of `push_fn`. -/
def Event.isWriterBody (st : AppletStorage) : Event → Bool
  | Event.appletStorageWrite st1 _ _ _ _ => st1 == st
  | Event.push_fn _ => true
  | _ => false

/-- An event a reader's block records between acquiring its storage `st` and
leaving: a read from `st`, or the invocation of `pop_fn`. -/
def Event.isReaderBody (st : AppletStorage) : Event → Bool
  | Event.appletStorageRead st1 _ _ _ _ => st1 == st
  | Event.pop_fn _ => true
  | _ => false

/-- Results forced on primitives of the storage model: `create` on
`appletCreateStorage`, `write offset` on an `appletStorageWrite` at `offset`,
`publish` on `PushStorageFn`; `0` lets the primitive work as in the model. -/
structure Faults where
  create : Result
  write : Nat → Result
  publish : Result

/-- Modelled from the spec: the storage model with failures of the operating
system: a primitive on which a failure is forced returns it and changes
nothing (a failing creation leaves the zero handle in `*st`). -/
def faultyOs (f : Faults) : Os MemOs :=
  ⟨fun size s =>
     if R_FAILED f.create then (f.create, 0, s) else MemOs.appletCreateStorage size s,
   fun st offset data size s =>
     if R_FAILED (f.write offset) then (f.write offset, s)
     else MemOs.appletStorageWrite st offset data size s,
   MemOs.appletStorageRead,
   fun _ s => s,
   fun st s => if R_FAILED f.publish then (f.publish, s) else MemOs.PushStorageFn st s,
   MemOs.PopStorageFn⟩

end dmi

namespace ul.menu.smi

open dmi dmi.impl

/-! ## The commands of `smi_Commands.hpp` -/

/-- The values `static_cast<u32>` of the enumerators of `SystemMessage` that
the commands with a payload use. The enum is declared in
`smi_MenuProtocol.hpp`, which is not among the sources at hand; the values
are a parameter. -/
structure SystemMessage where
  SetSelectedUser : Nat
  LaunchApplication : Nat
  LaunchHomebrewLibraryApplet : Nat
  LaunchHomebrewApplication : Nat
  OpenWebPage : Nat
  SetHomebrewTakeoverApplication : Nat
  UpdateMenuPath : Nat
  UpdateMenuIndex : Nat

/-- Modelled from the spec: `SendCommand` of `smi_MenuProtocol.hpp`, which is
not among the sources at hand. The spec has the menu/system catalog reuse
the one generic implementation of the channel, so it is
`impl::SendCommandImpl` on the storage functions of its side. -/
def SendCommand {σ : Type} (rc : ResultCodes) (os : Os σ) (msg : Nat)
    (push_fn : WriterFn σ) (pop_fn : ReaderFn σ) (w : World σ) : Outcome × World σ :=
  SendCommandImpl rc os msg push_fn pop_fn w

/-- Modelled from the spec: libnx's `FS_MAX_PATH`, which is `0x301`. -/
def FS_MAX_PATH : Nat := 0x301

/-- The second lambda of every command: `return ResultSuccess;`. -/
def returnSuccess {σ : Type} : ReaderFn σ :=
  ReaderFn.ret ResultSuccess

variable {σ : Type}

/-- The first lambda of `SetSelectedUser(user_id)`:
`writer.Push(user_id); return ResultSuccess;`. An `AccountUid` is two `u64`
(`uid[0]`, `uid[1]`). -/
def SetSelectedUser.push_fn (user_id : Nat × Nat) : WriterFn σ :=
  WriterFn.PushData (leBytes 8 user_id.1 ++ leBytes 8 user_id.2) 16 fun _ =>
    WriterFn.ret ResultSuccess

/-- The source's `SetSelectedUser(user_id)`. -/
def SetSelectedUser (rc : ResultCodes) (os : Os σ) (sm : SystemMessage) (user_id : Nat × Nat)
    (w : World σ) : Outcome × World σ :=
  SendCommand rc os sm.SetSelectedUser (SetSelectedUser.push_fn user_id) returnSuccess w

/-- The source's `LaunchApplication(app_id)`. -/
def LaunchApplication (rc : ResultCodes) (os : Os σ) (sm : SystemMessage) (app_id : Nat)
    (w : World σ) : Outcome × World σ :=
  SendCommand rc os sm.LaunchApplication (LaunchApplication.push_fn app_id) returnSuccess w

/-- The first lambda of `LaunchHomebrewLibraryApplet` and of
`LaunchHomebrewApplication`: `writer.Push(target_ipt); return ResultSuccess;`.
`target_ipt` is the object representation of the value
`loader::TargetInput::Create(nro_path, nro_argv, false, "")`; the type is
declared in a file that is not among the sources at hand. -/
def LaunchHomebrew.push_fn (target_ipt : List Byte) : WriterFn σ :=
  WriterFn.PushData target_ipt target_ipt.length fun _ => WriterFn.ret ResultSuccess

/-- The source's `LaunchHomebrewLibraryApplet(nro_path, nro_argv)`; `Create`
stands for `loader::TargetInput::Create`, giving the object
representation. -/
def LaunchHomebrewLibraryApplet (rc : ResultCodes) (os : Os σ) (sm : SystemMessage)
    (Create : List Byte → List Byte → Bool → List Byte → List Byte)
    (nro_path nro_argv : List Byte) (w : World σ) : Outcome × World σ :=
  SendCommand rc os sm.LaunchHomebrewLibraryApplet
    (LaunchHomebrew.push_fn (Create nro_path nro_argv false [])) returnSuccess w

/-- The source's `LaunchHomebrewApplication(nro_path, nro_argv)`. -/
def LaunchHomebrewApplication (rc : ResultCodes) (os : Os σ) (sm : SystemMessage)
    (Create : List Byte → List Byte → Bool → List Byte → List Byte)
    (nro_path nro_argv : List Byte) (w : World σ) : Outcome × World σ :=
  SendCommand rc os sm.LaunchHomebrewApplication
    (LaunchHomebrew.push_fn (Create nro_path nro_argv false [])) returnSuccess w

/-- The first lambda of `OpenWebPage(url)`:
`writer.PushData(url, sizeof(url)); return ResultSuccess;` with `url` an
array of 500 `char`. -/
def OpenWebPage.push_fn (url : List Byte) : WriterFn σ :=
  WriterFn.PushData url 500 fun _ => WriterFn.ret ResultSuccess

/-- The source's `OpenWebPage(url)`. -/
def OpenWebPage (rc : ResultCodes) (os : Os σ) (sm : SystemMessage) (url : List Byte)
    (w : World σ) : Outcome × World σ :=
  SendCommand rc os sm.OpenWebPage (OpenWebPage.push_fn url) returnSuccess w

/-- The first lambda of `SetHomebrewTakeoverApplication(app_id)`:
`writer.Push(app_id); return ResultSuccess;` with `app_id` a `u64`. -/
def SetHomebrewTakeoverApplication.push_fn (app_id : Nat) : WriterFn σ :=
  WriterFn.PushData (leBytes 8 app_id) 8 fun _ => WriterFn.ret ResultSuccess

/-- The source's `SetHomebrewTakeoverApplication(app_id)`. -/
def SetHomebrewTakeoverApplication (rc : ResultCodes) (os : Os σ) (sm : SystemMessage)
    (app_id : Nat) (w : World σ) : Outcome × World σ :=
  SendCommand rc os sm.SetHomebrewTakeoverApplication
    (SetHomebrewTakeoverApplication.push_fn app_id) returnSuccess w

/-- The first lambda of `UpdateMenuPath(menu_path)`:
`writer.PushData(menu_path, sizeof(menu_path)); return ResultSuccess;` with
`menu_path` an array of `FS_MAX_PATH` `char`. -/
def UpdateMenuPath.push_fn (menu_path : List Byte) : WriterFn σ :=
  WriterFn.PushData menu_path FS_MAX_PATH fun _ => WriterFn.ret ResultSuccess

/-- The source's `UpdateMenuPath(menu_path)`. -/
def UpdateMenuPath (rc : ResultCodes) (os : Os σ) (sm : SystemMessage) (menu_path : List Byte)
    (w : World σ) : Outcome × World σ :=
  SendCommand rc os sm.UpdateMenuPath (UpdateMenuPath.push_fn menu_path) returnSuccess w

/-- The first lambda of `UpdateMenuIndex(menu_index)`:
`writer.Push(menu_index); return ResultSuccess;` with `menu_index` a
`u32`. -/
def UpdateMenuIndex.push_fn (menu_index : Nat) : WriterFn σ :=
  WriterFn.PushData (leBytes 4 menu_index) 4 fun _ => WriterFn.ret ResultSuccess

/-- The source's `UpdateMenuIndex(menu_index)`. -/
def UpdateMenuIndex (rc : ResultCodes) (os : Os σ) (sm : SystemMessage) (menu_index : Nat)
    (w : World σ) : Outcome × World σ :=
  SendCommand rc os sm.UpdateMenuIndex (UpdateMenuIndex.push_fn menu_index) returnSuccess w

/-- A call of one of the eight commands that write a payload, with its
arguments. -/
inductive Command where
  | SetSelectedUser (user_id : Nat × Nat)
  | LaunchApplication (app_id : Nat)
  | LaunchHomebrewLibraryApplet
      (Create : List Byte → List Byte → Bool → List Byte → List Byte)
      (nro_path nro_argv : List Byte)
  | LaunchHomebrewApplication
      (Create : List Byte → List Byte → Bool → List Byte → List Byte)
      (nro_path nro_argv : List Byte)
  | OpenWebPage (url : List Byte)
  | SetHomebrewTakeoverApplication (app_id : Nat)
  | UpdateMenuPath (menu_path : List Byte)
  | UpdateMenuIndex (menu_index : Nat)

/-- The command function called. -/
def Command.call (rc : ResultCodes) (os : Os σ) (sm : SystemMessage) :
    Command → World σ → Outcome × World σ
  | Command.SetSelectedUser user_id => smi.SetSelectedUser rc os sm user_id
  | Command.LaunchApplication app_id => smi.LaunchApplication rc os sm app_id
  | Command.LaunchHomebrewLibraryApplet Create nro_path nro_argv =>
    smi.LaunchHomebrewLibraryApplet rc os sm Create nro_path nro_argv
  | Command.LaunchHomebrewApplication Create nro_path nro_argv =>
    smi.LaunchHomebrewApplication rc os sm Create nro_path nro_argv
  | Command.OpenWebPage url => smi.OpenWebPage rc os sm url
  | Command.SetHomebrewTakeoverApplication app_id =>
    smi.SetHomebrewTakeoverApplication rc os sm app_id
  | Command.UpdateMenuPath menu_path => smi.UpdateMenuPath rc os sm menu_path
  | Command.UpdateMenuIndex menu_index => smi.UpdateMenuIndex rc os sm menu_index

/-- The message type a command sends. -/
def Command.msg (sm : SystemMessage) : Command → Nat
  | Command.SetSelectedUser _ => sm.SetSelectedUser
  | Command.LaunchApplication _ => sm.LaunchApplication
  | Command.LaunchHomebrewLibraryApplet _ _ _ => sm.LaunchHomebrewLibraryApplet
  | Command.LaunchHomebrewApplication _ _ _ => sm.LaunchHomebrewApplication
  | Command.OpenWebPage _ => sm.OpenWebPage
  | Command.SetHomebrewTakeoverApplication _ => sm.SetHomebrewTakeoverApplication
  | Command.UpdateMenuPath _ => sm.UpdateMenuPath
  | Command.UpdateMenuIndex _ => sm.UpdateMenuIndex

/-- The first lambda of a command, which writes its payload. -/
def Command.push_fn : Command → WriterFn σ
  | Command.SetSelectedUser user_id => SetSelectedUser.push_fn user_id
  | Command.LaunchApplication app_id => LaunchApplication.push_fn app_id
  | Command.LaunchHomebrewLibraryApplet Create nro_path nro_argv =>
    LaunchHomebrew.push_fn (Create nro_path nro_argv false [])
  | Command.LaunchHomebrewApplication Create nro_path nro_argv =>
    LaunchHomebrew.push_fn (Create nro_path nro_argv false [])
  | Command.OpenWebPage url => OpenWebPage.push_fn url
  | Command.SetHomebrewTakeoverApplication app_id =>
    SetHomebrewTakeoverApplication.push_fn app_id
  | Command.UpdateMenuPath menu_path => UpdateMenuPath.push_fn menu_path
  | Command.UpdateMenuIndex menu_index => UpdateMenuIndex.push_fn menu_index

/-- Sample values for the enumerators of `SystemMessage`, used where a
concrete instance is needed. -/
def sampleMessages : SystemMessage := ⟨1, 2, 5, 6, 7, 10, 11, 12⟩

end ul.menu.smi

namespace ul.cfg

open dmi (Byte)

/-! ## The configuration (`cfg_Config.hpp`) -/

/-- The source's `enum class ConfigEntryId : u8`, as the value of its
underlying type. -/
abbrev ConfigEntryId := Nat

/-- The enumerator `ConfigEntryId::MenuTakeoverProgramId`. -/
def ConfigEntryId.MenuTakeoverProgramId : ConfigEntryId := 0

/-- The enumerator `ConfigEntryId::HomebrewAppletTakeoverProgramId`. -/
def ConfigEntryId.HomebrewAppletTakeoverProgramId : ConfigEntryId := 1

/-- The enumerator `ConfigEntryId::HomebrewApplicationTakeoverApplicationId`. -/
def ConfigEntryId.HomebrewApplicationTakeoverApplicationId : ConfigEntryId := 2

/-- The enumerator `ConfigEntryId::ViewerUsbEnabled`. -/
def ConfigEntryId.ViewerUsbEnabled : ConfigEntryId := 3

/-- The enumerator `ConfigEntryId::ActiveThemeName`. -/
def ConfigEntryId.ActiveThemeName : ConfigEntryId := 4

/-- The source's `enum class ConfigEntryType : u8`, as the value of its
underlying type. -/
abbrev ConfigEntryType := Nat

/-- The enumerator `ConfigEntryType::Bool`. -/
def ConfigEntryType.Bool : ConfigEntryType := 0

/-- The enumerator `ConfigEntryType::U64`. -/
def ConfigEntryType.U64 : ConfigEntryType := 1

/-- The enumerator `ConfigEntryType::String`. -/
def ConfigEntryType.String : ConfigEntryType := 2

/-- The type argument `T` of the templates `Get` and `GetEntry`, as far as
their `std::is_same_v` tests tell types apart: `bool`, `u64`, `std::string`,
or any other type. -/
inductive TypeArg where
  | bool
  | u64
  | string
  | other
  deriving DecidableEq, Repr

/-- A value assigned to `out_t`: a `bool`, a `u64`, or a `std::string` (its
bytes). -/
inductive Value where
  | bool (b : Bool)
  | u64 (v : Nat)
  | string (s : List Byte)
  deriving DecidableEq, Repr

/-- The source's `ConfigEntryHeader`. -/
structure ConfigEntryHeader where
  id : ConfigEntryId
  type : ConfigEntryType
  size : Nat
  pad : Nat
  deriving DecidableEq, Repr

/-- The source's `ConfigEntry`. -/
structure ConfigEntry where
  header : ConfigEntryHeader
  bool_value : Bool
  u64_value : Nat
  str_value : List Byte
  deriving DecidableEq, Repr

/-- The source's `ConfigEntry::Get<T>(out_t)`: `some v` when it returns
`true` having assigned `v` to `out_t`, `none` when it returns `false` (and
leaves `out_t` alone). -/
def ConfigEntry.Get (self : ConfigEntry) (T : TypeArg) : Option Value :=
  if self.header.type = ConfigEntryType.Bool then
    if T = TypeArg.bool then some (Value.bool self.bool_value) else none
  else if self.header.type = ConfigEntryType.U64 then
    if T = TypeArg.u64 then some (Value.u64 self.u64_value) else none
  else if self.header.type = ConfigEntryType.String then
    if T = TypeArg.string then some (Value.string self.str_value) else none
  else none

/-- The source's `Config`. -/
structure Config where
  entries : List ConfigEntry
  deriving DecidableEq, Repr

/-- The `switch(id)` of `Config::GetEntry<T>` after its loop: the default
values. -/
def Config.GetEntry.defaults (T : TypeArg) (id : ConfigEntryId) : Option Value :=
  if id = ConfigEntryId.MenuTakeoverProgramId then
    if T = TypeArg.u64 then some (Value.u64 0x010000000000100B) else none
  else if id = ConfigEntryId.HomebrewAppletTakeoverProgramId then
    if T = TypeArg.u64 then some (Value.u64 0x0100000000001001) else none
  else if id = ConfigEntryId.HomebrewApplicationTakeoverApplicationId then
    if T = TypeArg.u64 then some (Value.u64 0) else none
  else if id = ConfigEntryId.ViewerUsbEnabled then
    if T = TypeArg.bool then some (Value.bool false) else none
  else if id = ConfigEntryId.ActiveThemeName then
    if T = TypeArg.string then some (Value.string []) else none
  else none

/-- The loop of `Config::GetEntry<T>` over the entries still to visit, and
what follows it: the first entry whose `header.id` is `id` gives the result
by its `Get`; once the entries are exhausted the defaults apply. -/
def Config.GetEntry.loop (T : TypeArg) (id : ConfigEntryId) : List ConfigEntry → Option Value
  | [] => Config.GetEntry.defaults T id
  | entry :: rest =>
    if entry.header.id = id then entry.Get T
    else Config.GetEntry.loop T id rest

/-- The source's `Config::GetEntry<T>(id, out_t)`: `some v` when it returns
`true` having assigned `v` to `out_t`, `none` when it returns `false`. -/
def Config.GetEntry (self : Config) (T : TypeArg) (id : ConfigEntryId) : Option Value :=
  Config.GetEntry.loop T id self.entries

end ul.cfg

namespace ul.cfg

open dmi (Byte)

/-! ## Setting configuration entries -/

/-- The argument `t` of the templates `Set<T>` and `SetEntry<T>`: a value of
type `bool`, `u64` or `std::string`, or a value of any other type `T`. -/
inductive Arg where
  | value (v : Value)
  | other
  deriving DecidableEq, Repr

/-- The type argument `T` that goes with a value. -/
def Value.type : Value → TypeArg
  | Value.bool _ => TypeArg.bool
  | Value.u64 _ => TypeArg.u64
  | Value.string _ => TypeArg.string

/-- The source's `ConfigEntry::Set<T>(t)`: the result and the entry after
the call. `header.size` is a `u8`: the length of the string is stored modulo
`256`. -/
def ConfigEntry.Set (self : ConfigEntry) (t : Arg) : Bool × ConfigEntry :=
  if self.header.type = ConfigEntryType.Bool then
    match t with
    | Arg.value (Value.bool b) => (true, ⟨self.header, b, self.u64_value, self.str_value⟩)
    | _ => (false, self)
  else if self.header.type = ConfigEntryType.U64 then
    match t with
    | Arg.value (Value.u64 v) => (true, ⟨self.header, self.bool_value, v, self.str_value⟩)
    | _ => (false, self)
  else if self.header.type = ConfigEntryType.String then
    match t with
    | Arg.value (Value.string s) =>
      (true, ⟨⟨self.header.id, self.header.type, s.length % 256, self.header.pad⟩,
        self.bool_value, self.u64_value, s⟩)
    | _ => (false, self)
  else (false, self)

/-- The part of `Config::SetEntry<T>` after its loop, up to the `push_back`:
the new entry, or `none` where the source has `return false`. The entry
starts as `{ .header = { .id = id } }`, every other member zero;
`sizeof(t)` is `8` for a `u64` and `1` for a `bool`. An `id` that is none of
the enumerators takes no `case` of the `switch`, and the entry is left as it
started. -/
def Config.SetEntry.new_entry (id : ConfigEntryId) (t : Arg) : Option ConfigEntry :=
  if id = ConfigEntryId.MenuTakeoverProgramId ∨
      id = ConfigEntryId.HomebrewAppletTakeoverProgramId ∨
      id = ConfigEntryId.HomebrewApplicationTakeoverApplicationId then
    match t with
    | Arg.value (Value.u64 v) => some ⟨⟨id, ConfigEntryType.U64, 8, 0⟩, false, v, []⟩
    | _ => none
  else if id = ConfigEntryId.ViewerUsbEnabled then
    match t with
    | Arg.value (Value.bool b) => some ⟨⟨id, ConfigEntryType.Bool, 1, 0⟩, b, 0, []⟩
    | _ => none
  else if id = ConfigEntryId.ActiveThemeName then
    match t with
    | Arg.value (Value.string s) =>
      some ⟨⟨id, ConfigEntryType.String, s.length % 256, 0⟩, false, 0, s⟩
    | _ => none
  else some ⟨⟨id, 0, 0, 0⟩, false, 0, []⟩

/-- The loop of `Config::SetEntry<T>` over the entries still to visit, and
what follows it: the first entry whose `header.id` is `id` is set in place
and its `Set` gives the result; once the entries are exhausted the new entry
is appended, unless the source returns `false` before. -/
def Config.SetEntry.loop (id : ConfigEntryId) (t : Arg) :
    List ConfigEntry → Bool × List ConfigEntry
  | [] =>
    match Config.SetEntry.new_entry id t with
    | some new_entry => (true, [new_entry])
    | none => (false, [])
  | entry :: rest =>
    if entry.header.id = id then ((entry.Set t).1, (entry.Set t).2 :: rest)
    else ((Config.SetEntry.loop id t rest).1, entry :: (Config.SetEntry.loop id t rest).2)

/-- The source's `Config::SetEntry<T>(id, t)`: the result and the `Config`
after the call. -/
def Config.SetEntry (self : Config) (id : ConfigEntryId) (t : Arg) : Bool × Config :=
  ((Config.SetEntry.loop id t self.entries).1, ⟨(Config.SetEntry.loop id t self.entries).2⟩)

/-- The five enumerators of `ConfigEntryId`. -/
def ConfigEntryId.enumerators : List ConfigEntryId :=
  [ConfigEntryId.MenuTakeoverProgramId, ConfigEntryId.HomebrewAppletTakeoverProgramId,
    ConfigEntryId.HomebrewApplicationTakeoverApplicationId, ConfigEntryId.ViewerUsbEnabled,
    ConfigEntryId.ActiveThemeName]

/-- The type that goes with an id: `U64` for the three take-over ids, `Bool`
for `ViewerUsbEnabled`, `String` for `ActiveThemeName`; none for a value that
is no enumerator. This is the pairing of the `switch` of `SetEntry`. -/
def ConfigEntryId.type (id : ConfigEntryId) : Option ConfigEntryType :=
  if id = ConfigEntryId.MenuTakeoverProgramId ∨
      id = ConfigEntryId.HomebrewAppletTakeoverProgramId ∨
      id = ConfigEntryId.HomebrewApplicationTakeoverApplicationId then
    some ConfigEntryType.U64
  else if id = ConfigEntryId.ViewerUsbEnabled then some ConfigEntryType.Bool
  else if id = ConfigEntryId.ActiveThemeName then some ConfigEntryType.String
  else none

/-- A well-formed `Config`: no two entries share an id, and the type of
every entry is the one that goes with its id. -/
def Config.WellFormed (self : Config) : Prop :=
  (self.entries.map fun entry => entry.header.id).Nodup ∧
  ∀ entry ∈ self.entries, ConfigEntryId.type entry.header.id = some entry.header.type

instance Config.decidableWellFormed (self : Config) : Decidable self.WellFormed :=
  inferInstanceAs (Decidable (_ ∧ _))

/-- A sequence of calls of `SetEntry`, each with its id and argument, from a
given `Config`: the `Config` after the last call. -/
def Config.SetEntries (self : Config) : List (ConfigEntryId × Arg) → Config
  | [] => self
  | call :: rest => Config.SetEntries (self.SetEntry call.1 call.2).2 rest

end ul.cfg

/-! ## Theorems -/

namespace ul.system.la

/-- A scan for an applet id that no remaining entry carries ends with `0`. -/
theorem GetProgramIdForAppletId.loop_absent_zero (id : AppletId) (tbl : List AppletInfo)
    (h : ∀ info ∈ tbl, info.applet_id ≠ id) :
    GetProgramIdForAppletId.loop id tbl = 0 := by
  induction tbl with
  | nil => rfl
  | cons info rest ih =>
    have h1 : info.applet_id ≠ id := h info (List.mem_cons_self _ _)
    have h2 : ∀ i ∈ rest, i.applet_id ≠ id := fun i hi => h i (List.mem_cons_of_mem _ hi)
    simp [GetProgramIdForAppletId.loop, h1, ih h2]

/-- A scan for a program id that no remaining entry carries ends with
`AppletId_None`. -/
theorem GetAppletIdForProgramId.loop_absent_none (id : Nat) (tbl : List AppletInfo)
    (h : ∀ info ∈ tbl, info.program_id ≠ id) :
    GetAppletIdForProgramId.loop id tbl = AppletId_None := by
  induction tbl with
  | nil => rfl
  | cons info rest ih =>
    have h1 : info.program_id ≠ id := h info (List.mem_cons_self _ _)
    have h2 : ∀ i ∈ rest, i.program_id ≠ id := fun i hi => h i (List.mem_cons_of_mem _ hi)
    simp [GetAppletIdForProgramId.loop, h1, ih h2]

/-- C1: for every entry of `g_AppletTable`, looking its program id up gives
an applet id other than `AppletId_None`, and looking that applet id up gives
the program id back; in particular `0x010000000000100B` maps to the shop
applet and the shop applet maps to `0x010000000000100B`. -/
theorem C1_table_lookup_roundtrip :
    (∀ info ∈ g_AppletTable,
      GetAppletIdForProgramId info.program_id ≠ AppletId_None ∧
      GetProgramIdForAppletId (GetAppletIdForProgramId info.program_id) = info.program_id) ∧
    GetAppletIdForProgramId 0x010000000000100B = AppletId_LibraryAppletShop ∧
    GetProgramIdForAppletId AppletId_LibraryAppletShop = 0x010000000000100B := by
  decide

/-- C2: a program id carried by no table entry is looked up as
`AppletId_None`, and an applet id carried by no table entry (such as
`AppletId_None` itself) is looked up as `0`. Both lookups are total functions
of their argument alone. -/
theorem C2_lookup_absent_gives_sentinel :
    (∀ id : Nat, (∀ info ∈ g_AppletTable, info.program_id ≠ id) →
      GetAppletIdForProgramId id = AppletId_None) ∧
    (∀ id : AppletId, (∀ info ∈ g_AppletTable, info.applet_id ≠ id) →
      GetProgramIdForAppletId id = 0) ∧
    GetProgramIdForAppletId AppletId_None = 0 :=
  ⟨fun id h => GetAppletIdForProgramId.loop_absent_none id g_AppletTable h,
   fun id h => GetProgramIdForAppletId.loop_absent_zero id g_AppletTable h,
   by decide⟩

/-- C2 at the program id `0x010000000000100C` and the applet id `0x02`,
neither of which the table carries. -/
theorem C2_lookup_absent_gives_sentinel_witness :
    GetAppletIdForProgramId 0x010000000000100C = AppletId_None ∧
    GetProgramIdForAppletId 0x02 = 0 :=
  ⟨C2_lookup_absent_gives_sentinel.1 0x010000000000100C (by decide),
   C2_lookup_absent_gives_sentinel.2.1 0x02 (by decide)⟩

end ul.system.la

namespace dmi.impl

variable {σ : Type}

/-! ### Bounds and cursor -/

/-- `PushData` never leaves the cursor above `CommandStorageSize` when it
was not above it before. -/
theorem ScopedStorageWriterBase.PushData_cursor_le (rc : ResultCodes) (os : Os σ)
    (self : ScopedStorageWriterBase) (data : List Byte) (size : Nat) (w : World σ)
    (h : self.cur_offset ≤ CommandStorageSize) :
    (self.PushData rc os data size w).writer.cur_offset ≤ CommandStorageSize := by
  unfold ScopedStorageWriterBase.PushData
  by_cases hb : (self.cur_offset + size) % 2 ^ 64 ≤ CommandStorageSize
  · by_cases hf : R_FAILED (sys.appletStorageWrite os self.st self.cur_offset data size w).1 = true
    · simp only [hb, hf, if_true]; exact h
    · simp only [hb, hf, if_true]; exact hb
  · simp only [hb, if_false]; exact h

/-- `PopData` never leaves the cursor above `CommandStorageSize` when it was
not above it before. -/
theorem ScopedStorageReaderBase.PopData_cursor_le (rc : ResultCodes) (os : Os σ)
    (self : ScopedStorageReaderBase) (size : Nat) (w : World σ)
    (h : self.cur_offset ≤ CommandStorageSize) :
    (self.PopData rc os size w).reader.cur_offset ≤ CommandStorageSize := by
  unfold ScopedStorageReaderBase.PopData
  by_cases hb : (self.cur_offset + size) % 2 ^ 64 ≤ CommandStorageSize
  · by_cases hf : R_FAILED (sys.appletStorageRead os self.st self.cur_offset size w).1 = true
    · simp only [hb, hf, if_true]; exact h
    · simp only [hb, hf, if_true]; exact hb
  · simp only [hb, if_false]; exact h

/-- Whatever an injected writer function does, the cursor stays within
`CommandStorageSize`. -/
theorem WriterFn.run_writer_cursor_le (rc : ResultCodes) (os : Os σ) (f : WriterFn σ) :
    ∀ (writer : ScopedStorageWriterBase) (w : World σ),
      writer.cur_offset ≤ CommandStorageSize →
      (f.run rc os writer w).writer.cur_offset ≤ CommandStorageSize := by
  induction f with
  | ret r => intro writer w h; exact h
  | PushData data size k ih =>
    intro writer w h
    simp only [WriterFn.run]
    exact ih _ _ _ (ScopedStorageWriterBase.PushData_cursor_le rc os writer data size w h)
  | effect f k ih =>
    intro writer w h
    simp only [WriterFn.run]
    exact ih _ _ _ h

/-- Whatever an injected reader function does, the cursor stays within
`CommandStorageSize`. -/
theorem ReaderFn.run_reader_cursor_le (rc : ResultCodes) (os : Os σ) (f : ReaderFn σ) :
    ∀ (reader : ScopedStorageReaderBase) (w : World σ),
      reader.cur_offset ≤ CommandStorageSize →
      (f.run rc os reader w).reader.cur_offset ≤ CommandStorageSize := by
  induction f with
  | ret r => intro reader w h; exact h
  | PopData size k ih =>
    intro reader w h
    simp only [ReaderFn.run]
    exact ih _ _ _ _ (ScopedStorageReaderBase.PopData_cursor_le rc os reader size w h)
  | effect f k ih =>
    intro reader w h
    simp only [ReaderFn.run]
    exact ih _ _ _ h

/-- C3: with the cursor at `c <= 0x800` and a size `s` such that
`c + s > 0x800` (the sum not overflowing `size_t`), `PushData` returns
`ResultOutOfPushSpace` and `PopData` returns `ResultOutOfPopSpace`; neither
calls the storage (the state of the operating system and the recorded events
are unchanged), and the writer and the reader, cursor included, are
unchanged. -/
theorem C3_out_of_space (rc : ResultCodes) (os : Os σ) (st : AppletStorage) (c s : Nat)
    (data : List Byte) (w : World σ)
    (_hc : c ≤ 0x800) (hs : c + s > 0x800) (hno : c + s < 2 ^ 64) :
    ScopedStorageWriterBase.PushData rc os ⟨st, c⟩ data s w
      = ⟨rc.ResultOutOfPushSpace, ⟨st, c⟩, w⟩ ∧
    ScopedStorageReaderBase.PopData rc os ⟨st, c⟩ s w
      = ⟨rc.ResultOutOfPopSpace, [], ⟨st, c⟩, w⟩ := by
  have hmod : (c + s) % 2 ^ 64 = c + s := Nat.mod_eq_of_lt hno
  have hgt : ¬ (c + s ≤ CommandStorageSize) := by
    simp only [CommandStorageSize]; omega
  constructor
  · simp only [ScopedStorageWriterBase.PushData, hmod, hgt, if_false]
  · simp only [ScopedStorageReaderBase.PopData, hmod, hgt, if_false]

/-- C4: starting from a freshly constructed writer or reader, after any
calls of `PushData` / `PopData` (any arguments, chosen in any way from the
results so far, and any behaviour of the storage primitives) the cursor is
at most `CommandStorageSize`, which is `0x800`. -/
theorem C4_cursor_within_capacity (rc : ResultCodes) (os : Os σ) (w : World σ) :
    (∀ f : WriterFn σ,
      (f.run rc os ScopedStorageWriterBase.ctor w).writer.cur_offset ≤ CommandStorageSize) ∧
    (∀ f : ReaderFn σ,
      (f.run rc os ScopedStorageReaderBase.ctor w).reader.cur_offset ≤ CommandStorageSize) ∧
    CommandStorageSize = 0x800 :=
  ⟨fun f => WriterFn.run_writer_cursor_le rc os f _ w (Nat.zero_le _),
   fun f => ReaderFn.run_reader_cursor_le rc os f _ w (Nat.zero_le _),
   rfl⟩

end dmi.impl

namespace dmi

variable {σ : Type}

/-! ### Records of events -/

/-- A world whose record is that of `w` followed by events satisfying `p`
continues `w`. -/
theorem World.continuedBy_of_append {p : Event → Bool} {w w1 : World σ} (evs : List Event)
    (h1 : w1.trace = w.trace ++ evs) (h2 : ∀ e ∈ evs, p e = true) : w.continuedBy p w1 := by
  unfold World.continuedBy
  rw [h1]
  refine ⟨List.take_left' rfl, ?_⟩
  rw [List.drop_left' rfl, List.all_eq_true]
  exact h2

/-- The record of a world that continues `w` is that of `w` followed by
events satisfying `p`. -/
theorem World.continuedBy_append {p : Event → Bool} {w w1 : World σ}
    (h : w.continuedBy p w1) :
    ∃ evs, w1.trace = w.trace ++ evs ∧ ∀ e ∈ evs, p e = true := by
  obtain ⟨h1, h2⟩ := h
  refine ⟨w1.trace.drop w.trace.length, ?_, List.all_eq_true.1 h2⟩
  conv_lhs => rw [← List.take_append_drop w.trace.length w1.trace]
  rw [h1]

/-- A world continues itself, by no event. -/
theorem World.continuedBy_refl (p : Event → Bool) (w : World σ) : w.continuedBy p w :=
  World.continuedBy_of_append [] (by simp) (by simp)

/-- Continuations compose. -/
theorem World.continuedBy_trans {p : Event → Bool} {w w1 w2 : World σ}
    (h1 : w.continuedBy p w1) (h2 : w1.continuedBy p w2) : w.continuedBy p w2 := by
  obtain ⟨e1, h1, h1'⟩ := World.continuedBy_append h1
  obtain ⟨e2, h2, h2'⟩ := World.continuedBy_append h2
  refine World.continuedBy_of_append (e1 ++ e2) (by rw [h2, h1, List.append_assoc]) ?_
  intro e he
  rcases List.mem_append.1 he with he | he
  · exact h1' e he
  · exact h2' e he

/-- A continuation by events satisfying `p` is one by events satisfying any
weaker `q`. -/
theorem World.continuedBy_mono {p q : Event → Bool} {w w1 : World σ}
    (h : w.continuedBy p w1) (hpq : ∀ e, p e = true → q e = true) : w.continuedBy q w1 := by
  obtain ⟨evs, h1, h2⟩ := World.continuedBy_append h
  exact World.continuedBy_of_append evs h1 fun e he => hpq e (h2 e he)

/-- Recording one event satisfying `p` is a continuation. -/
theorem World.continuedBy_event (p : Event → Bool) (w : World σ) (s : σ) (e : Event)
    (he : p e = true) : w.continuedBy p ⟨s, w.trace ++ [e]⟩ :=
  World.continuedBy_of_append [e] rfl (by simpa using he)

/-- Changing the state of the operating system alone is a continuation. -/
theorem World.continuedBy_os (p : Event → Bool) (w : World σ) (s : σ) :
    w.continuedBy p ⟨s, w.trace⟩ :=
  World.continuedBy_of_append [] (by simp) (by simp)

end dmi

namespace dmi.impl

variable {σ : Type}

/-- The events `PushData` adds to the record are calls of primitives. -/
theorem ScopedStorageWriterBase.PushData_trace (rc : ResultCodes) (os : Os σ)
    (self : ScopedStorageWriterBase) (data : List Byte) (size : Nat) (w : World σ) :
    w.continuedBy Event.isPrimitive (self.PushData rc os data size w).world := by
  unfold ScopedStorageWriterBase.PushData
  by_cases hb : (self.cur_offset + size) % 2 ^ 64 ≤ CommandStorageSize
  · by_cases hf : R_FAILED (sys.appletStorageWrite os self.st self.cur_offset data size w).1
        = true <;> simp only [hb, hf, if_true] <;>
      exact World.continuedBy_event _ w _ _ (by rfl)
  · simp only [hb, if_false]
    exact World.continuedBy_refl _ w

/-- The events `PopData` adds to the record are calls of primitives. -/
theorem ScopedStorageReaderBase.PopData_trace (rc : ResultCodes) (os : Os σ)
    (self : ScopedStorageReaderBase) (size : Nat) (w : World σ) :
    w.continuedBy Event.isPrimitive (self.PopData rc os size w).world := by
  unfold ScopedStorageReaderBase.PopData
  by_cases hb : (self.cur_offset + size) % 2 ^ 64 ≤ CommandStorageSize
  · by_cases hf : R_FAILED (sys.appletStorageRead os self.st self.cur_offset size w).1
        = true <;> simp only [hb, hf, if_true] <;>
      exact World.continuedBy_event _ w _ _ (by rfl)
  · simp only [hb, if_false]
    exact World.continuedBy_refl _ w

/-- An injected writer function only adds calls of primitives to the
record. -/
theorem WriterFn.run_writer_trace (rc : ResultCodes) (os : Os σ) (f : WriterFn σ) :
    ∀ (writer : ScopedStorageWriterBase) (w : World σ),
      w.continuedBy Event.isPrimitive (f.run rc os writer w).world := by
  induction f with
  | ret r => intro writer w; exact World.continuedBy_refl _ w
  | PushData data size k ih =>
    intro writer w
    simp only [WriterFn.run]
    exact World.continuedBy_trans
      (ScopedStorageWriterBase.PushData_trace rc os writer data size w) (ih _ _ _)
  | effect g k ih =>
    intro writer w
    simp only [WriterFn.run]
    exact World.continuedBy_trans (World.continuedBy_os _ w _) (ih _ _ _)

/-- An injected reader function only adds calls of primitives to the
record. -/
theorem ReaderFn.run_reader_trace (rc : ResultCodes) (os : Os σ) (f : ReaderFn σ) :
    ∀ (reader : ScopedStorageReaderBase) (w : World σ),
      w.continuedBy Event.isPrimitive (f.run rc os reader w).world := by
  induction f with
  | ret r => intro reader w; exact World.continuedBy_refl _ w
  | PopData size k ih =>
    intro reader w
    simp only [ReaderFn.run]
    exact World.continuedBy_trans
      (ScopedStorageReaderBase.PopData_trace rc os reader size w) (ih _ _ _ _)
  | effect g k ih =>
    intro reader w
    simp only [ReaderFn.run]
    exact World.continuedBy_trans (World.continuedBy_os _ w _) (ih _ _ _)

/-- The destructor of a writer only adds calls of primitives to the
record. -/
theorem ScopedStorageWriterBase.dtor_trace (os : Os σ) (self : ScopedStorageWriterBase)
    (w : World σ) : w.continuedBy Event.isPrimitive (self.dtor os w).2 := by
  unfold ScopedStorageWriterBase.dtor
  by_cases hf : R_FAILED (sys.PushStorage os self.st w).1 = true
  · simp only [hf, if_true]
    exact World.continuedBy_event _ w _ _ (by rfl)
  · simp only [hf]
    exact World.continuedBy_trans (World.continuedBy_event _ w _ _ (by rfl))
      (World.continuedBy_event _ _ _ _ (by rfl))

/-- Opening a storage writer only adds a call of a primitive to the
record. -/
theorem OpenStorageWriter_trace (os : Os σ) (writer : ScopedStorageWriterBase) (w : World σ) :
    w.continuedBy Event.isPrimitive (OpenStorageWriter os writer w).world := by
  unfold OpenStorageWriter
  by_cases hf : R_FAILED (sys.appletCreateStorage os CommandStorageSize w).1 = true <;>
    simp only [hf, if_true] <;> exact World.continuedBy_event _ w _ _ (by rfl)

/-- The world a block that declares a writer ends in is the one the
destructor leaves. -/
theorem leaveWriterScope_world (os : Os σ) (b : WriterStep σ ScopedStorageWriterBase) :
    (leaveWriterScope os b).2 = (b.writer.dtor os b.world).2 := by
  unfold leaveWriterScope
  dsimp only
  split <;> rfl

/-- The first block of `SendCommandImpl` records no invocation of
`pop_fn`. -/
theorem SendCommandImpl.request_trace (rc : ResultCodes) (os : Os σ) (msg_type : Nat)
    (push_fn : WriterFn σ) (w : World σ) :
    w.continuedBy (fun e => !e.isPopFn)
      (SendCommandImpl.request rc os msg_type push_fn w).2 := by
  have hmono : ∀ e : Event, e.isPrimitive = true → (!e.isPopFn) = true := by
    intro e he
    simp only [Event.isPrimitive, Bool.and_eq_true] at he
    exact he.2
  unfold SendCommandImpl.request
  rw [leaveWriterScope_world]
  refine World.continuedBy_trans ?_
    (World.continuedBy_mono (ScopedStorageWriterBase.dtor_trace os _ _) hmono)
  unfold SendCommandImpl.requestBody
  dsimp only
  have ho := World.continuedBy_mono
    (OpenStorageWriter_trace os ScopedStorageWriterBase.ctor w) hmono
  split
  · exact ho
  · refine World.continuedBy_trans ho ?_
    have hp := World.continuedBy_mono
      (ScopedStorageWriterBase.PushData_trace rc os
        (OpenStorageWriter os ScopedStorageWriterBase.ctor w).writer
        (CommandCommonHeader.toBytes ⟨CommandMagic, msg_type⟩)
        (CommandCommonHeader.toBytes ⟨CommandMagic, msg_type⟩).length
        (OpenStorageWriter os ScopedStorageWriterBase.ctor w).world) hmono
    split
    · exact hp
    · refine World.continuedBy_trans hp (World.continuedBy_trans ?_
        (World.continuedBy_mono (WriterFn.run_writer_trace rc os push_fn _ _) hmono))
      exact World.continuedBy_event _ _ _ _ (by rfl)

end dmi.impl

namespace dmi.impl

variable {σ : Type}

/-- The second block of `SendCommandImpl` on a reply whose header is read
successfully: the reader is at offset 8 with the header bytes read. -/
theorem SendCommandImpl.replyBody_after_header (rc : ResultCodes) (os : Os σ) (pop_fn : ReaderFn σ)
    (w1 : World σ) (st : AppletStorage) (s1 s2 : σ) (bytes : List Byte)
    (hpop : os.PopStorageFn true w1.os = (ResultSuccess, st, s1))
    (hread : os.appletStorageRead st 0 8 s1 = (ResultSuccess, bytes, s2)) :
    SendCommandImpl.replyBody rc os pop_fn w1 =
      if (CommandCommonHeader.ofBytes bytes).magic ≠ CommandMagic then
        ⟨rc.ResultInvalidOutHeaderMagic, bytes, ⟨st, 8⟩,
          ⟨s2, w1.trace ++ [Event.PopStorage true ResultSuccess st,
            Event.appletStorageRead st 0 8 ResultSuccess bytes]⟩⟩
      else if (CommandCommonHeader.ofBytes bytes).val ≠ 0 then
        ⟨(CommandCommonHeader.ofBytes bytes).val, bytes, ⟨st, 8⟩,
          ⟨s2, w1.trace ++ [Event.PopStorage true ResultSuccess st,
            Event.appletStorageRead st 0 8 ResultSuccess bytes]⟩⟩
      else
        pop_fn.run rc os ⟨st, 8⟩
          ⟨s2, w1.trace ++ [Event.PopStorage true ResultSuccess st,
            Event.appletStorageRead st 0 8 ResultSuccess bytes, Event.pop_fn none]⟩ := by
  simp [SendCommandImpl.replyBody, OpenStorageReader, sys.PopStorage, hpop, R_FAILED,
    ResultSuccess, ScopedStorageReaderBase.Pop, ScopedStorageReaderBase.PopData,
    ScopedStorageReaderBase.ctor, ScopedStorageReaderBase.Initialize,
    CommandCommonHeader.sizeof, CommandStorageSize, sys.appletStorageRead, hread, World.log]

end dmi.impl

namespace dmi.impl

variable {σ : Type}

/-- The first block of `ReceiveCommandImpl` on a request whose header is
read successfully. -/
theorem ReceiveCommandImpl.readBody_header (rc : ResultCodes) (os : Os σ)
    (pop_fn : Nat → ReaderFn σ) (w : World σ) (st : AppletStorage) (s1 s2 : σ)
    (bytes : List Byte)
    (hpop : os.PopStorageFn false w.os = (ResultSuccess, st, s1))
    (hread : os.appletStorageRead st 0 8 s1 = (ResultSuccess, bytes, s2)) :
    ReceiveCommandImpl.readBody rc os pop_fn w =
      if (CommandCommonHeader.ofBytes bytes).magic ≠ CommandMagic then
        ⟨some rc.ResultInvalidInHeaderMagic, 0, CommandCommonHeader.ofBytes bytes, ⟨st, 8⟩,
          ⟨s2, w.trace ++ [Event.PopStorage false ResultSuccess st,
            Event.appletStorageRead st 0 8 ResultSuccess bytes]⟩⟩
      else
        ⟨none, (CommandCommonHeader.ofBytes bytes).val,
          ⟨(CommandCommonHeader.ofBytes bytes).magic,
            ((pop_fn (CommandCommonHeader.ofBytes bytes).val).run rc os ⟨st, 8⟩
              ⟨s2, w.trace ++ [Event.PopStorage false ResultSuccess st,
                Event.appletStorageRead st 0 8 ResultSuccess bytes,
                Event.pop_fn (some (CommandCommonHeader.ofBytes bytes).val)]⟩).rc⟩,
          ((pop_fn (CommandCommonHeader.ofBytes bytes).val).run rc os ⟨st, 8⟩
              ⟨s2, w.trace ++ [Event.PopStorage false ResultSuccess st,
                Event.appletStorageRead st 0 8 ResultSuccess bytes,
                Event.pop_fn (some (CommandCommonHeader.ofBytes bytes).val)]⟩).reader,
          ((pop_fn (CommandCommonHeader.ofBytes bytes).val).run rc os ⟨st, 8⟩
              ⟨s2, w.trace ++ [Event.PopStorage false ResultSuccess st,
                Event.appletStorageRead st 0 8 ResultSuccess bytes,
                Event.pop_fn (some (CommandCommonHeader.ofBytes bytes).val)]⟩).world⟩ := by
  simp [ReceiveCommandImpl.readBody, OpenStorageReader, sys.PopStorage, hpop, R_FAILED,
    ResultSuccess, ScopedStorageReaderBase.Pop, ScopedStorageReaderBase.PopData,
    ScopedStorageReaderBase.ctor, ScopedStorageReaderBase.Initialize,
    CommandCommonHeader.sizeof, CommandStorageSize, sys.appletStorageRead, hread, World.log]

/-- The second block of `ReceiveCommandImpl` when the storage is created and
the header written successfully. -/
theorem ReceiveCommandImpl.replyBody_after_create (rc : ResultCodes) (os : Os σ)
    (push_fn : Nat → WriterFn σ) (msg_type : Nat) (hdr : CommandCommonHeader) (w : World σ)
    (st : AppletStorage) (s1 s2 : σ)
    (hcreate : os.appletCreateStorage CommandStorageSize w.os = (ResultSuccess, st, s1))
    (hwrite : os.appletStorageWrite st 0 hdr.toBytes 8 s1 = (ResultSuccess, s2)) :
    ReceiveCommandImpl.replyBody rc os push_fn msg_type hdr w =
      if hdr.val = 0 then
        (push_fn msg_type).run rc os ⟨st, 8⟩
          ⟨s2, w.trace ++ [Event.appletCreateStorage CommandStorageSize ResultSuccess st,
            Event.appletStorageWrite st 0 hdr.toBytes 8 ResultSuccess,
            Event.push_fn (some msg_type)]⟩
      else
        ⟨ResultSuccess, ⟨st, 8⟩,
          ⟨s2, w.trace ++ [Event.appletCreateStorage CommandStorageSize ResultSuccess st,
            Event.appletStorageWrite st 0 hdr.toBytes 8 ResultSuccess]⟩⟩ := by
  have hlen : hdr.toBytes.length = 8 := by
    simp [CommandCommonHeader.toBytes, leBytes]
  simp [ReceiveCommandImpl.replyBody, OpenStorageWriter, sys.appletCreateStorage, hcreate,
    R_FAILED, R_SUCCEEDED, ResultSuccess, ScopedStorageWriterBase.Push,
    ScopedStorageWriterBase.PushData, ScopedStorageWriterBase.ctor,
    ScopedStorageWriterBase.Initialize, hlen, sys.appletStorageWrite, hwrite, World.log]
  simp [CommandStorageSize]

/-- C6: when the request phase has succeeded and the reply storage is
received and its header read, a header whose magic is not `CommandMagic`
(whatever its code field and whatever bytes follow) makes `SendCommandImpl`
return `ResultInvalidOutHeaderMagic`; after the request phase it only pops
the storage, reads the 8 header bytes at offset 0 and closes the storage; the
reader is left at offset 8; and `pop_fn` is not invoked anywhere in the
call. -/
theorem C6_initiator_magic_enforcement (rc : ResultCodes) (os : Os σ) (msg_type : Nat)
    (push_fn : WriterFn σ) (pop_fn : ReaderFn σ) (w w1 : World σ)
    (st : AppletStorage) (s1 s2 : σ) (bytes : List Byte)
    (hreq : SendCommandImpl.request rc os msg_type push_fn w
      = (Outcome.returned ResultSuccess, w1))
    (hpop : os.PopStorageFn true w1.os = (ResultSuccess, st, s1))
    (hread : os.appletStorageRead st 0 8 s1 = (ResultSuccess, bytes, s2))
    (hmagic : (CommandCommonHeader.ofBytes bytes).magic ≠ CommandMagic) :
    SendCommandImpl rc os msg_type push_fn pop_fn w =
      (Outcome.returned rc.ResultInvalidOutHeaderMagic,
        ⟨os.appletStorageClose st s2,
          w1.trace ++ [Event.PopStorage true ResultSuccess st,
            Event.appletStorageRead st 0 8 ResultSuccess bytes,
            Event.appletStorageClose st]⟩) ∧
    (SendCommandImpl.replyBody rc os pop_fn w1).reader = ⟨st, 8⟩ ∧
    w.continuedBy (fun e => !e.isPopFn) (SendCommandImpl rc os msg_type push_fn pop_fn w).2 := by
  have hb := SendCommandImpl.replyBody_after_header rc os pop_fn w1 st s1 s2 bytes hpop hread
  rw [if_pos hmagic] at hb
  have hmain : SendCommandImpl rc os msg_type push_fn pop_fn w =
      (Outcome.returned rc.ResultInvalidOutHeaderMagic,
        ⟨os.appletStorageClose st s2,
          w1.trace ++ [Event.PopStorage true ResultSuccess st,
            Event.appletStorageRead st 0 8 ResultSuccess bytes,
            Event.appletStorageClose st]⟩) := by
    simp [SendCommandImpl, hreq, R_FAILED, ResultSuccess, SendCommandImpl.reply] at hb ⊢
    simp [hb, ScopedStorageReaderBase.dtor, sys.appletStorageClose]
  refine ⟨hmain, by rw [hb], ?_⟩
  rw [hmain]
  have h1 := SendCommandImpl.request_trace rc os msg_type push_fn w
  rw [hreq] at h1
  refine World.continuedBy_trans h1 (World.continuedBy_of_append _ rfl ?_)
  intro e he
  simp only [List.mem_cons, List.mem_singleton, List.not_mem_nil, or_false] at he
  rcases he with rfl | rfl | rfl <;> rfl

/-- C7: when the request storage is received and its header read, a header
whose magic is not `CommandMagic` makes `ReceiveCommandImpl` return
`ResultInvalidInHeaderMagic`; all it does is pop the storage, read the 8
header bytes at offset 0 and close the storage: neither `pop_fn` nor
`push_fn` is invoked, and no further byte is read. -/
theorem C7_responder_magic_enforcement (rc : ResultCodes) (os : Os σ)
    (pop_fn : Nat → ReaderFn σ) (push_fn : Nat → WriterFn σ) (w : World σ)
    (st : AppletStorage) (s1 s2 : σ) (bytes : List Byte)
    (hpop : os.PopStorageFn false w.os = (ResultSuccess, st, s1))
    (hread : os.appletStorageRead st 0 8 s1 = (ResultSuccess, bytes, s2))
    (hmagic : (CommandCommonHeader.ofBytes bytes).magic ≠ CommandMagic) :
    ReceiveCommandImpl rc os pop_fn push_fn w =
      (Outcome.returned rc.ResultInvalidInHeaderMagic,
        ⟨os.appletStorageClose st s2,
          w.trace ++ [Event.PopStorage false ResultSuccess st,
            Event.appletStorageRead st 0 8 ResultSuccess bytes,
            Event.appletStorageClose st]⟩) := by
  have hb := ReceiveCommandImpl.readBody_header rc os pop_fn w st s1 s2 bytes hpop hread
  rw [if_pos hmagic] at hb
  simp [ReceiveCommandImpl, ReceiveCommandImpl.read, hb, ScopedStorageReaderBase.dtor,
    sys.appletStorageClose]

/-- C8: when the request phase has succeeded and the reply header is read
with magic `CommandMagic` and code `r`: if `r` is a failure (not `0`),
`SendCommandImpl` returns exactly `r` and does nothing but close the storage
after reading the header (`pop_fn` is not invoked); if `r` is `0`, `pop_fn`
is invoked on the reader at offset 8 and `SendCommandImpl` returns exactly
what `pop_fn` returns. -/
theorem C8_remote_failure_pass_through (rc : ResultCodes) (os : Os σ) (msg_type : Nat)
    (push_fn : WriterFn σ) (pop_fn : ReaderFn σ) (w w1 : World σ)
    (st : AppletStorage) (s1 s2 : σ) (bytes : List Byte) (r : Nat)
    (hreq : SendCommandImpl.request rc os msg_type push_fn w
      = (Outcome.returned ResultSuccess, w1))
    (hpop : os.PopStorageFn true w1.os = (ResultSuccess, st, s1))
    (hread : os.appletStorageRead st 0 8 s1 = (ResultSuccess, bytes, s2))
    (hhdr : CommandCommonHeader.ofBytes bytes = ⟨CommandMagic, r⟩) :
    (r ≠ 0 →
      SendCommandImpl rc os msg_type push_fn pop_fn w =
        (Outcome.returned r,
          ⟨os.appletStorageClose st s2,
            w1.trace ++ [Event.PopStorage true ResultSuccess st,
              Event.appletStorageRead st 0 8 ResultSuccess bytes,
              Event.appletStorageClose st]⟩)) ∧
    (r = 0 →
      (SendCommandImpl rc os msg_type push_fn pop_fn w).1 =
        Outcome.returned (pop_fn.run rc os ⟨st, 8⟩
          ⟨s2, w1.trace ++ [Event.PopStorage true ResultSuccess st,
            Event.appletStorageRead st 0 8 ResultSuccess bytes, Event.pop_fn none]⟩).rc) := by
  have hb := SendCommandImpl.replyBody_after_header rc os pop_fn w1 st s1 s2 bytes hpop hread
  rw [hhdr] at hb
  simp only [ne_eq, not_true_eq_false, if_false] at hb
  constructor
  · intro hr
    rw [if_pos hr] at hb
    simp [SendCommandImpl, hreq, R_FAILED, ResultSuccess, SendCommandImpl.reply] at hb ⊢
    simp [hb, ScopedStorageReaderBase.dtor, sys.appletStorageClose]
  · intro hr
    rw [if_neg (not_not.2 hr)] at hb
    simp [SendCommandImpl, hreq, R_FAILED, ResultSuccess, SendCommandImpl.reply] at hb ⊢
    rw [hb]

end dmi.impl

namespace dmi.impl

variable {σ : Type}

/-- `PushData` keeps the storage handle of the writer. -/
theorem ScopedStorageWriterBase.PushData_st (rc : ResultCodes) (os : Os σ)
    (self : ScopedStorageWriterBase) (data : List Byte) (size : Nat) (w : World σ) :
    (self.PushData rc os data size w).writer.st = self.st := by
  unfold ScopedStorageWriterBase.PushData
  by_cases hb : (self.cur_offset + size) % 2 ^ 64 ≤ CommandStorageSize
  · rw [if_pos hb]
    dsimp only
    split <;> rfl
  · rw [if_neg hb]

/-- `PopData` keeps the storage handle of the reader. -/
theorem ScopedStorageReaderBase.PopData_st (rc : ResultCodes) (os : Os σ)
    (self : ScopedStorageReaderBase) (size : Nat) (w : World σ) :
    (self.PopData rc os size w).reader.st = self.st := by
  unfold ScopedStorageReaderBase.PopData
  by_cases hb : (self.cur_offset + size) % 2 ^ 64 ≤ CommandStorageSize
  · rw [if_pos hb]
    dsimp only
    split <;> rfl
  · rw [if_neg hb]

/-- An injected writer function keeps the storage handle of the writer. -/
theorem WriterFn.run_writer_st (rc : ResultCodes) (os : Os σ) (f : WriterFn σ) :
    ∀ (writer : ScopedStorageWriterBase) (w : World σ),
      (f.run rc os writer w).writer.st = writer.st := by
  induction f with
  | ret r => intro writer w; rfl
  | PushData data size k ih =>
    intro writer w
    simp only [WriterFn.run]
    rw [ih, ScopedStorageWriterBase.PushData_st]
  | effect g k ih =>
    intro writer w
    simp only [WriterFn.run]
    rw [ih]

/-- An injected reader function keeps the storage handle of the reader. -/
theorem ReaderFn.run_reader_st (rc : ResultCodes) (os : Os σ) (f : ReaderFn σ) :
    ∀ (reader : ScopedStorageReaderBase) (w : World σ),
      (f.run rc os reader w).reader.st = reader.st := by
  induction f with
  | ret r => intro reader w; rfl
  | PopData size k ih =>
    intro reader w
    simp only [ReaderFn.run]
    rw [ih, ScopedStorageReaderBase.PopData_st]
  | effect g k ih =>
    intro reader w
    simp only [ReaderFn.run]
    rw [ih]

/-- C9: for a request with magic `CommandMagic` and opcode `O` on which
`pop_fn(O, reader)` returns `f.rc`, and with the reply storage created and the
header written successfully: the first write to the reply storage is the
header `{CommandMagic, f.rc}` at offset 0. If `f.rc` is a failure, nothing
else is written, `push_fn` is not invoked, and the storage is published
(`PushStorage`) and then closed; if `f.rc` is success, `push_fn` is invoked
once, with the same opcode `O`, on the writer at offset 8, and the storage is
published when the block is left. -/
theorem C9_responder_reply_framing (rc : ResultCodes) (os : Os σ)
    (pop_fn : Nat → ReaderFn σ) (push_fn : Nat → WriterFn σ) (w : World σ)
    (st_in : AppletStorage) (s1 s2 : σ) (bytes : List Byte) (O : Nat)
    (f : ReaderStep σ ScopedStorageReaderBase) (st : AppletStorage) (s3 s4 : σ) (w4 : World σ)
    (hpop : os.PopStorageFn false w.os = (ResultSuccess, st_in, s1))
    (hread : os.appletStorageRead st_in 0 8 s1 = (ResultSuccess, bytes, s2))
    (hhdr : CommandCommonHeader.ofBytes bytes = ⟨CommandMagic, O⟩)
    (hf : f = (pop_fn O).run rc os ⟨st_in, 8⟩
      ⟨s2, w.trace ++ [Event.PopStorage false ResultSuccess st_in,
        Event.appletStorageRead st_in 0 8 ResultSuccess bytes, Event.pop_fn (some O)]⟩)
    (hcreate : os.appletCreateStorage CommandStorageSize
      (os.appletStorageClose st_in f.world.os) = (ResultSuccess, st, s3))
    (hwrite : os.appletStorageWrite st 0 (CommandCommonHeader.toBytes ⟨CommandMagic, f.rc⟩) 8 s3
      = (ResultSuccess, s4))
    (hw4 : w4 = ⟨s4, f.world.trace ++ [Event.appletStorageClose st_in,
      Event.appletCreateStorage CommandStorageSize ResultSuccess st,
      Event.appletStorageWrite st 0 (CommandCommonHeader.toBytes ⟨CommandMagic, f.rc⟩) 8
        ResultSuccess]⟩) :
    (f.rc ≠ 0 →
      ReceiveCommandImpl rc os pop_fn push_fn w
        = leaveWriterScope os ⟨ResultSuccess, ⟨st, 8⟩, w4⟩ ∧
      (ReceiveCommandImpl rc os pop_fn push_fn w).2.trace
        = w4.trace ++ Event.PushStorage st (os.PushStorageFn st s4).1 ::
            (if R_FAILED (os.PushStorageFn st s4).1 then []
             else [Event.appletStorageClose st])) ∧
    (f.rc = 0 →
      ReceiveCommandImpl rc os pop_fn push_fn w
        = leaveWriterScope os
            ((push_fn O).run rc os ⟨st, 8⟩ (w4.log (Event.push_fn (some O)))) ∧
      (w4.log (Event.push_fn (some O))).continuedBy Event.isPrimitive
        (ReceiveCommandImpl rc os pop_fn push_fn w).2) := by
  have hb := ReceiveCommandImpl.readBody_header rc os pop_fn w st_in s1 s2 bytes hpop hread
  rw [hhdr] at hb
  simp only [ne_eq, not_true_eq_false, if_false] at hb
  rw [← hf] at hb
  have hst : f.reader.st = st_in := by rw [hf, ReaderFn.run_reader_st]
  have hrd : ReceiveCommandImpl rc os pop_fn push_fn w =
      ReceiveCommandImpl.reply rc os push_fn O ⟨CommandMagic, f.rc⟩
        ⟨os.appletStorageClose st_in f.world.os,
          f.world.trace ++ [Event.appletStorageClose st_in]⟩ := by
    simp [ReceiveCommandImpl, ReceiveCommandImpl.read, hb, ScopedStorageReaderBase.dtor,
      sys.appletStorageClose, hst]
  have hbody := ReceiveCommandImpl.replyBody_after_create rc os push_fn O ⟨CommandMagic, f.rc⟩
    ⟨os.appletStorageClose st_in f.world.os, f.world.trace ++ [Event.appletStorageClose st_in]⟩
    st s3 s4 hcreate hwrite
  simp only [List.append_assoc, List.singleton_append] at hbody
  constructor
  · intro hr
    rw [if_neg hr] at hbody
    have hmain : ReceiveCommandImpl rc os pop_fn push_fn w
        = leaveWriterScope os ⟨ResultSuccess, ⟨st, 8⟩, w4⟩ := by
      rw [hrd, ReceiveCommandImpl.reply, hbody, hw4]
    refine ⟨hmain, ?_⟩
    rw [hmain, leaveWriterScope_world, hw4]
    simp only [ScopedStorageWriterBase.dtor, sys.PushStorage, sys.appletStorageClose]
    by_cases hp : R_FAILED (os.PushStorageFn st s4).1 = true <;> simp [hp]
  · intro hr
    rw [if_pos hr] at hbody
    have hmain : ReceiveCommandImpl rc os pop_fn push_fn w
        = leaveWriterScope os
            ((push_fn O).run rc os ⟨st, 8⟩ (w4.log (Event.push_fn (some O)))) := by
      rw [hrd, ReceiveCommandImpl.reply, hbody, hw4]
      simp [World.log]
    refine ⟨hmain, ?_⟩
    rw [hmain, leaveWriterScope_world]
    exact World.continuedBy_trans (WriterFn.run_writer_trace rc os _ _ _)
      (ScopedStorageWriterBase.dtor_trace os _ _)

end dmi.impl

namespace dmi

/-! ### The storage model -/

/-- The handle given to a new storage names it. -/
theorem MemOs.content_new (storages : List Storage) (b : Storage)
    (inbox outbox : List AppletStorage) :
    (MemOs.mk (storages ++ [b]) inbox outbox).content (storages.length + 1) = some b := by
  simp [MemOs.content]

/-- After replacing the storage a handle names, the handle names the new
storage. -/
theorem MemOs.content_setContent (s : MemOs) (st : AppletStorage) (b0 b : Storage)
    (h : s.content st = some b0) : (s.setContent st b).content st = some b := by
  unfold MemOs.content at h ⊢
  by_cases h0 : st = 0
  · simp [h0] at h
  · simp only [h0, if_false] at h ⊢
    have hlt : st - 1 < s.storages.length := by
      by_contra hge
      rw [List.getElem?_eq_none (Nat.le_of_not_lt hge)] at h
      cases h
    simp [MemOs.setContent, List.getElem?_set_self hlt]

/-- A write at the end of the bytes written so far appends the data. -/
theorem MemOs.appletStorageWrite_end (s : MemOs) (st : AppletStorage) (cap : Nat)
    (pre data : List Byte) (h : s.content st = some ⟨cap, pre⟩)
    (hcap : pre.length + data.length ≤ cap) :
    MemOs.appletStorageWrite st pre.length data data.length s =
      (ResultSuccess, s.setContent st ⟨cap, pre ++ data⟩) := by
  have hd : List.drop (pre.length + data.length) pre = [] :=
    List.drop_eq_nil_of_le (Nat.le_add_right _ _)
  simp [MemOs.appletStorageWrite, h, hcap, Storage.upTo, hd]

/-- A read inside the bytes written so far gives those bytes and leaves the
state as it is. -/
theorem MemOs.appletStorageRead_mid (s : MemOs) (st : AppletStorage) (cap : Nat)
    (pre data post : List Byte) (h : s.content st = some ⟨cap, pre ++ data ++ post⟩)
    (hcap : pre.length + data.length ≤ cap) :
    MemOs.appletStorageRead st pre.length data.length s = (ResultSuccess, data, s) := by
  have hz : pre.length + data.length - (pre.length + data.length + post.length) = 0 := by omega
  simp [MemOs.appletStorageRead, h, hcap, Storage.upTo, hz]

end dmi

namespace dmi.impl

/-- On the storage model, `PushData` at the end of the bytes written so far
succeeds and appends the data. -/
theorem ScopedStorageWriterBase.PushData_memOs (rc : ResultCodes) (st : AppletStorage)
    (cap : Nat) (pre data : List Byte) (w : World MemOs)
    (h : w.os.content st = some ⟨cap, pre⟩)
    (hcap : pre.length + data.length ≤ cap)
    (hfit : pre.length + data.length ≤ CommandStorageSize) :
    ScopedStorageWriterBase.PushData rc memOs ⟨st, pre.length⟩ data data.length w =
      ⟨ResultSuccess, ⟨st, (pre ++ data).length⟩,
        ⟨w.os.setContent st ⟨cap, pre ++ data⟩,
          w.trace ++ [Event.appletStorageWrite st pre.length data data.length ResultSuccess]⟩⟩ := by
  have hlt : pre.length + data.length < 2 ^ 64 := by
    have : CommandStorageSize = 0x800 := rfl
    omega
  have hmod : (pre.length + data.length) % 2 ^ 64 = pre.length + data.length :=
    Nat.mod_eq_of_lt hlt
  have hw : memOs.appletStorageWrite st pre.length data data.length w.os =
      (ResultSuccess, w.os.setContent st ⟨cap, pre ++ data⟩) :=
    MemOs.appletStorageWrite_end w.os st cap pre data h hcap
  unfold ScopedStorageWriterBase.PushData
  rw [hmod, if_pos hfit]
  simp only [sys.appletStorageWrite, hw, List.length_append]
  rfl

/-- On the storage model, `PopData` inside the bytes written so far succeeds
and gives those bytes. -/
theorem ScopedStorageReaderBase.PopData_memOs (rc : ResultCodes) (st : AppletStorage)
    (cap : Nat) (pre data post : List Byte) (w : World MemOs)
    (h : w.os.content st = some ⟨cap, pre ++ data ++ post⟩)
    (hcap : pre.length + data.length ≤ cap)
    (hfit : pre.length + data.length ≤ CommandStorageSize) :
    ScopedStorageReaderBase.PopData rc memOs ⟨st, pre.length⟩ data.length w =
      ⟨ResultSuccess, data, ⟨st, (pre ++ data).length⟩,
        ⟨w.os,
          w.trace ++ [Event.appletStorageRead st pre.length data.length ResultSuccess data]⟩⟩ := by
  have hlt : pre.length + data.length < 2 ^ 64 := by
    have : CommandStorageSize = 0x800 := rfl
    omega
  have hmod : (pre.length + data.length) % 2 ^ 64 = pre.length + data.length :=
    Nat.mod_eq_of_lt hlt
  have hr : memOs.appletStorageRead st pre.length data.length w.os =
      (ResultSuccess, data, w.os) :=
    MemOs.appletStorageRead_mid w.os st cap pre data post h hcap
  unfold ScopedStorageReaderBase.PopData
  rw [hmod, if_pos hfit]
  simp only [sys.appletStorageRead, hr, List.length_append]
  rfl

/-- On the storage model, the encoder of a list of fields that fit writes
them one after the other. -/
theorem pushFields_memOs (rc : ResultCodes) (check : Bool) (st : AppletStorage) (cap : Nat) :
    ∀ (fields : List (List Byte)) (pre : List Byte) (w : World MemOs),
      w.os.content st = some ⟨cap, pre⟩ →
      pre.length + (fields.map List.length).sum ≤ cap →
      pre.length + (fields.map List.length).sum ≤ CommandStorageSize →
      ∃ w1 : World MemOs,
        (pushFields check fields).run rc memOs ⟨st, pre.length⟩ w =
          ⟨ResultSuccess, ⟨st, pre.length + (fields.map List.length).sum⟩, w1⟩ ∧
        w1.os.content st = some ⟨cap, pre ++ fields.flatten⟩ ∧
        w1.os.inbox = w.os.inbox ∧ w1.os.outbox = w.os.outbox ∧
        w.continuedBy Event.isPrimitive w1 := by
  intro fields
  induction fields with
  | nil =>
    intro pre w h _ _
    exact ⟨w, by simp [pushFields, WriterFn.run], by simpa using h, rfl, rfl,
      World.continuedBy_refl _ w⟩
  | cons field rest ih =>
    intro pre w h hcap hfit
    simp only [List.map_cons, List.sum_cons] at hcap hfit
    have hstep := ScopedStorageWriterBase.PushData_memOs rc st cap pre field w h
      (by omega) (by omega)
    obtain ⟨w1, h1, h2, h3, h4, h5⟩ := ih (pre ++ field)
      ⟨w.os.setContent st ⟨cap, pre ++ field⟩,
        w.trace ++ [Event.appletStorageWrite st pre.length field field.length ResultSuccess]⟩
      (MemOs.content_setContent w.os st _ _ h)
      (by rw [List.length_append]; omega) (by rw [List.length_append]; omega)
    refine ⟨w1, ?_, ?_, ?_, ?_, ?_⟩
    · simp only [pushFields, WriterFn.run, hstep]
      simp only [R_FAILED, ResultSuccess, bne_self_eq_false, Bool.and_false, Bool.false_eq_true,
        if_false] at h1 ⊢
      rw [h1]
      simp [List.length_append, Nat.add_assoc]
    · simpa using h2
    · exact h3
    · exact h4
    · exact World.continuedBy_trans (World.continuedBy_event _ w _ _ (by rfl)) h5

/-- On the storage model, the decoder of the sizes of a list of fields
stored one after the other reads exactly those fields. -/
theorem popFields_memOs (rc : ResultCodes) (check : Bool) (st : AppletStorage) (cap : Nat) :
    ∀ (fields : List (List Byte)) (pre post : List Byte) (w : World MemOs),
      w.os.content st = some ⟨cap, pre ++ fields.flatten ++ post⟩ →
      pre.length + (fields.map List.length).sum ≤ cap →
      pre.length + (fields.map List.length).sum ≤ CommandStorageSize →
      ∃ (out : List Byte) (evs : List Event),
        (popFields check (fields.map List.length)).run rc memOs ⟨st, pre.length⟩ w =
          ⟨ResultSuccess, out, ⟨st, pre.length + (fields.map List.length).sum⟩,
            ⟨w.os, w.trace ++ evs⟩⟩ ∧
        evs.filterMap Event.popped = fields.map fun f => (ResultSuccess, f) := by
  intro fields
  induction fields with
  | nil =>
    intro pre post w _ _ _
    exact ⟨[], [], by simp [popFields, ReaderFn.run], rfl⟩
  | cons field rest ih =>
    intro pre post w h hcap hfit
    simp only [List.map_cons, List.sum_cons] at hcap hfit
    have h' : w.os.content st = some ⟨cap, pre ++ field ++ (rest.flatten ++ post)⟩ := by
      rw [h]; simp
    have hstep := ScopedStorageReaderBase.PopData_memOs rc st cap pre field
      (rest.flatten ++ post) w h' (by omega) (by omega)
    obtain ⟨out, evs, h1, h2⟩ := ih (pre ++ field) post
      ⟨w.os, w.trace ++ [Event.appletStorageRead st pre.length field.length ResultSuccess field]⟩
      (by rw [h]; simp)
      (by rw [List.length_append]; omega) (by rw [List.length_append]; omega)
    refine ⟨out, Event.appletStorageRead st pre.length field.length ResultSuccess field :: evs,
      ?_, ?_⟩
    · simp only [List.map_cons, popFields, ReaderFn.run, hstep]
      simp only [R_FAILED, ResultSuccess, bne_self_eq_false, Bool.and_false, Bool.false_eq_true,
        if_false] at h1 ⊢
      rw [h1]
      simp [List.length_append, Nat.add_assoc]
    · simp [List.filterMap_cons, Event.popped, h2]

end dmi.impl

namespace dmi

/-- Decoding the four little-endian bytes of a value gives the value
modulo `2^32`. -/
theorem leValue_leBytes_four (v : Nat) : leValue (leBytes 4 v) = v % 2 ^ 32 := by
  simp [leBytes, leValue, List.range, List.range.loop]
  omega

/-- The object representation of a header has 8 bytes. -/
theorem CommandCommonHeader.length_toBytes (h : CommandCommonHeader) : h.toBytes.length = 8 := by
  simp [CommandCommonHeader.toBytes, leBytes]

/-- A header is read back from its object representation, whatever bytes
follow it, each field modulo `2^32`. -/
theorem CommandCommonHeader.ofBytes_toBytes (h : CommandCommonHeader) (rest : List Byte) :
    CommandCommonHeader.ofBytes (h.toBytes ++ rest) = ⟨h.magic % 2 ^ 32, h.val % 2 ^ 32⟩ := by
  have h4 : ∀ v, (leBytes 4 v).length = 4 := by intro v; simp [leBytes]
  have h1 : (h.toBytes ++ rest).take 4 = leBytes 4 h.magic := by
    rw [CommandCommonHeader.toBytes, List.append_assoc]
    exact List.take_left' (h4 _)
  have h2 : ((h.toBytes ++ rest).drop 4).take 4 = leBytes 4 h.val := by
    rw [CommandCommonHeader.toBytes, List.append_assoc, List.drop_left' (h4 _)]
    exact List.take_left' (h4 _)
  rw [CommandCommonHeader.ofBytes, h1, h2, leValue_leBytes_four, leValue_leBytes_four]

end dmi

namespace dmi.impl

/-- On the storage model, the request phase of `SendCommandImpl` with an
encoder of fields that fit succeeds, and publishes a new storage that holds
the header followed by the fields. -/
theorem SendCommandImpl.request_memOs (rc : ResultCodes) (O : Nat)
    (fields : List (List Byte)) (check : Bool) (w : World MemOs)
    (hfit : 8 + (fields.map List.length).sum ≤ 0x800) :
    ∃ w1 : World MemOs,
      SendCommandImpl.request rc memOs O (pushFields check fields) w
        = (Outcome.returned ResultSuccess, w1) ∧
      w1.os.content (w.os.storages.length + 1)
        = some ⟨CommandStorageSize,
            CommandCommonHeader.toBytes ⟨CommandMagic, O⟩ ++ fields.flatten⟩ ∧
      w1.os.inbox = w.os.inbox ∧
      w1.os.outbox = w.os.outbox ++ [w.os.storages.length + 1] ∧
      (SendCommandImpl.requestBody rc memOs O (pushFields check fields) w).writer
        = ⟨w.os.storages.length + 1, 8 + (fields.map List.length).sum⟩ := by
  have hlen := CommandCommonHeader.length_toBytes ⟨CommandMagic, O⟩
  obtain ⟨hdr, hhdr⟩ : ∃ hdr, hdr = CommandCommonHeader.toBytes ⟨CommandMagic, O⟩ := ⟨_, rfl⟩
  obtain ⟨st, hst⟩ : ∃ st, st = w.os.storages.length + 1 := ⟨_, rfl⟩
  obtain ⟨os0, hos0⟩ : ∃ os0 : MemOs, os0 =
    MemOs.mk (w.os.storages ++ [⟨CommandStorageSize, []⟩]) w.os.inbox w.os.outbox := ⟨_, rfl⟩
  rw [← hhdr] at hlen
  rw [← hhdr, ← hst]
  have hc0 : os0.content st = some ⟨CommandStorageSize, []⟩ := by
    rw [hos0, hst]; exact MemOs.content_new _ _ _ _
  have hin0 : os0.inbox = w.os.inbox := by rw [hos0]
  have hout0 : os0.outbox = w.os.outbox := by rw [hos0]
  have hopen : OpenStorageWriter memOs ScopedStorageWriterBase.ctor w =
      ⟨ResultSuccess, ⟨st, 0⟩,
        ⟨os0, w.trace ++ [Event.appletCreateStorage CommandStorageSize ResultSuccess st]⟩⟩ := by
    rw [hos0, hst]
    simp [OpenStorageWriter, sys.appletCreateStorage, memOs, MemOs.appletCreateStorage,
      R_FAILED, ResultSuccess, ScopedStorageWriterBase.ctor, ScopedStorageWriterBase.Initialize]
  have hpush := ScopedStorageWriterBase.PushData_memOs rc st CommandStorageSize [] hdr
    ⟨os0, w.trace ++ [Event.appletCreateStorage CommandStorageSize ResultSuccess st]⟩ hc0
    (by rw [hlen]; simp [CommandStorageSize]) (by rw [hlen]; simp [CommandStorageSize])
  simp only [List.nil_append, List.length_nil] at hpush
  obtain ⟨w2, hrun, hcontent, hin, hout, _⟩ := pushFields_memOs rc check st CommandStorageSize
    fields hdr
    (World.log ⟨os0.setContent st ⟨CommandStorageSize, hdr⟩,
      w.trace ++ [Event.appletCreateStorage CommandStorageSize ResultSuccess st] ++
        [Event.appletStorageWrite st 0 hdr hdr.length ResultSuccess]⟩ (Event.push_fn none))
    (MemOs.content_setContent _ _ _ _ hc0)
    (by rw [hlen]; simpa [CommandStorageSize] using hfit)
    (by rw [hlen]; simpa [CommandStorageSize] using hfit)
  have hbody : SendCommandImpl.requestBody rc memOs O (pushFields check fields) w =
      ⟨ResultSuccess, ⟨st, 8 + (fields.map List.length).sum⟩, w2⟩ := by
    rw [hlen] at hrun
    simp only [SendCommandImpl.requestBody, hopen, ScopedStorageWriterBase.Push, ← hhdr, hpush]
    simp only [R_FAILED, ResultSuccess, bne_self_eq_false, Bool.false_eq_true, if_false, hlen]
      at hrun ⊢
    exact hrun
  have hpub : memOs.PushStorageFn st w2.os =
      (ResultSuccess, ⟨w2.os.storages, w2.os.inbox, w2.os.outbox ++ [st]⟩) := by
    simp [memOs, MemOs.PushStorageFn, hcontent]
  refine ⟨⟨⟨w2.os.storages, w2.os.inbox, w2.os.outbox ++ [st]⟩,
    w2.trace ++ [Event.PushStorage st ResultSuccess, Event.appletStorageClose st]⟩,
    ?_, ?_, ?_, ?_, ?_⟩
  · have hclose : ∀ s : MemOs, memOs.appletStorageClose st s = s := fun _ => rfl
    rw [SendCommandImpl.request, hbody]
    simp [leaveWriterScope, ScopedStorageWriterBase.dtor, sys.PushStorage, hpub, R_FAILED,
      ResultSuccess, sys.appletStorageClose, hclose]
  · simpa [MemOs.content] using hcontent
  · simp [hin, World.log, MemOs.setContent, hin0]
  · simp [hout, World.log, MemOs.setContent, hout0]
  · rw [hbody]

end dmi.impl

namespace dmi.impl

/-- C5: on the storage model, for every message type `O` (a `u32`) and every
list of payload fields that fit, with the 8-byte header, in `0x800` bytes:
the request phase of `SendCommandImpl` (header, then one `PushData` per field)
succeeds, and the read phase of `ReceiveCommandImpl` run by the peer on what
was published (header, then one `PopData` per field size, in the same order)
passes the magic test, decodes `msg_type = O`, invokes `pop_fn` with `O`, and
its reads return, in order, the header bytes and then exactly the bytes of
each field. Both ways of writing the encoder and the decoder (results checked
or ignored) are covered. -/
theorem C5_request_round_trip (rc : ResultCodes) (O : Nat) (fields : List (List Byte))
    (check check' : Bool) (s : MemOs)
    (hO : O < 2 ^ 32)
    (hfit : 8 + (fields.map List.length).sum ≤ 0x800)
    (hout : s.outbox = []) :
    ∃ (w1 : World MemOs) (rd : ReadPhase MemOs),
      SendCommandImpl.request rc memOs O (pushFields check fields) ⟨s, []⟩
        = (Outcome.returned ResultSuccess, w1) ∧
      ReceiveCommandImpl.read rc memOs (fun _ => popFields check' (fields.map List.length))
        ⟨w1.os.toPeer, []⟩ = rd ∧
      rd.early = none ∧
      rd.msg_type = O ∧
      Event.pop_fn (some O) ∈ rd.world.trace ∧
      rd.world.trace.filterMap Event.popped
        = (ResultSuccess, CommandCommonHeader.toBytes ⟨CommandMagic, O⟩)
            :: fields.map fun f => (ResultSuccess, f) := by
  obtain ⟨w1, hreq, hcontent, _, hout1, _⟩ :=
    SendCommandImpl.request_memOs rc O fields check ⟨s, []⟩ hfit
  refine ⟨w1, _, hreq, rfl, ?_⟩
  have hlen := CommandCommonHeader.length_toBytes ⟨CommandMagic, O⟩
  have hof : CommandCommonHeader.ofBytes (CommandCommonHeader.toBytes ⟨CommandMagic, O⟩)
      = ⟨CommandMagic, O⟩ := by
    have h := CommandCommonHeader.ofBytes_toBytes ⟨CommandMagic, O⟩ []
    rw [List.append_nil] at h
    rw [h, Nat.mod_eq_of_lt hO]
    rfl
  obtain ⟨hdr, hhdr⟩ : ∃ hdr, hdr = CommandCommonHeader.toBytes ⟨CommandMagic, O⟩ := ⟨_, rfl⟩
  obtain ⟨st, hst⟩ : ∃ st, st = s.storages.length + 1 := ⟨_, rfl⟩
  rw [← hhdr] at hlen hof hcontent ⊢
  simp only [← hst] at hcontent hout1
  rw [hout, List.nil_append] at hout1
  obtain ⟨s1, hs1⟩ : ∃ s1 : MemOs, s1 = ⟨w1.os.storages, [], w1.os.inbox⟩ := ⟨_, rfl⟩
  have hc1 : s1.content st = some ⟨CommandStorageSize, hdr ++ fields.flatten⟩ := by
    rw [hs1]; exact hcontent
  have hpop : memOs.PopStorageFn false (World.mk w1.os.toPeer []).os = (ResultSuccess, st, s1) := by
    simp [memOs, MemOs.PopStorageFn, MemOs.toPeer, hout1, hs1]
  have hread : memOs.appletStorageRead st 0 8 s1 = (ResultSuccess, hdr, s1) := by
    have h := MemOs.appletStorageRead_mid s1 st CommandStorageSize [] hdr fields.flatten
      (by simpa using hc1) (by rw [hlen]; simp [CommandStorageSize])
    rw [hlen] at h
    exact h
  have hb := ReceiveCommandImpl.readBody_header rc memOs
    (fun _ => popFields check' (fields.map List.length)) ⟨w1.os.toPeer, []⟩ st s1 s1 hdr hpop hread
  rw [hof] at hb
  simp only [ne_eq, not_true_eq_false, if_false, List.nil_append] at hb
  obtain ⟨out, evs, hrun, hevs⟩ := popFields_memOs rc check' st CommandStorageSize fields hdr []
    ⟨s1, [Event.PopStorage false ResultSuccess st,
      Event.appletStorageRead st 0 8 ResultSuccess hdr, Event.pop_fn (some O)]⟩
    (by simpa using hc1)
    (by rw [hlen]; simpa [CommandStorageSize] using hfit)
    (by rw [hlen]; simpa [CommandStorageSize] using hfit)
  rw [hlen] at hrun
  rw [hrun] at hb
  simp only [ReceiveCommandImpl.read, hb, ScopedStorageReaderBase.dtor, sys.appletStorageClose]
  refine ⟨trivial, trivial, ?_, ?_⟩
  · simp
  · simp [List.filterMap_append, List.filterMap_cons, Event.popped, hevs]

end dmi.impl

namespace dmi.impl

open ul.menu.smi

/-! ### Scenarios -/

/-- C3 at a fresh writer and a fresh reader on a buffer of capacity `0x800`:
pushing or popping `0x801` bytes fails and leaves the cursor at `0`. -/
theorem C3_out_of_space_witness :
    ScopedStorageWriterBase.PushData sampleCodes memOs ⟨0, 0⟩ [] 0x801 (inbound ⟨CommandMagic, 0⟩)
      = ⟨sampleCodes.ResultOutOfPushSpace, ⟨0, 0⟩, inbound ⟨CommandMagic, 0⟩⟩ ∧
    ScopedStorageReaderBase.PopData sampleCodes memOs ⟨0, 0⟩ 0x801 (inbound ⟨CommandMagic, 0⟩)
      = ⟨sampleCodes.ResultOutOfPopSpace, [], ⟨0, 0⟩, inbound ⟨CommandMagic, 0⟩⟩ :=
  C3_out_of_space sampleCodes memOs 0 0 0x801 [] (inbound ⟨CommandMagic, 0⟩)
    (by decide) (by decide) (by decide)

/-- C5 at the request `LaunchApplication` with the application id
`0x0100000000001000` as its one field. -/
theorem C5_request_round_trip_witness :
    ∃ (w1 : World MemOs) (rd : ReadPhase MemOs),
      SendCommandImpl.request sampleCodes memOs 2
          (pushFields true [leBytes 8 0x0100000000001000]) ⟨⟨[], [], []⟩, []⟩
        = (Outcome.returned ResultSuccess, w1) ∧
      ReceiveCommandImpl.read sampleCodes memOs
          (fun _ => popFields true ([leBytes 8 0x0100000000001000].map List.length))
          ⟨w1.os.toPeer, []⟩ = rd ∧
      rd.early = none ∧
      rd.msg_type = 2 ∧
      Event.pop_fn (some 2) ∈ rd.world.trace ∧
      rd.world.trace.filterMap Event.popped
        = (ResultSuccess, CommandCommonHeader.toBytes ⟨CommandMagic, 2⟩)
            :: [leBytes 8 0x0100000000001000].map fun f => (ResultSuccess, f) :=
  C5_request_round_trip sampleCodes 2 [leBytes 8 0x0100000000001000] true true ⟨[], [], []⟩
    (by decide) (by decide) rfl

/-- C6 at the reply header `{magic = 0xDEADBEEF, code = 0}`. -/
theorem C6_initiator_magic_enforcement_witness :
    (SendCommandImpl sampleCodes memOs 2 (LaunchApplication.push_fn 0x0100000000001000)
        LaunchApplication.pop_fn (inbound ⟨0xDEADBEEF, 0⟩)).1
      = Outcome.returned sampleCodes.ResultInvalidOutHeaderMagic ∧
    (SendCommandImpl.replyBody sampleCodes memOs LaunchApplication.pop_fn
        (SendCommandImpl.request sampleCodes memOs 2
          (LaunchApplication.push_fn 0x0100000000001000) (inbound ⟨0xDEADBEEF, 0⟩)).2).reader
      = ⟨1, 8⟩ ∧
    (inbound ⟨0xDEADBEEF, 0⟩).continuedBy (fun e => !e.isPopFn)
      (SendCommandImpl sampleCodes memOs 2 (LaunchApplication.push_fn 0x0100000000001000)
        LaunchApplication.pop_fn (inbound ⟨0xDEADBEEF, 0⟩)).2 :=
  have h := C6_initiator_magic_enforcement sampleCodes memOs 2
    (LaunchApplication.push_fn 0x0100000000001000) LaunchApplication.pop_fn
    (inbound ⟨0xDEADBEEF, 0⟩)
    (SendCommandImpl.request sampleCodes memOs 2
      (LaunchApplication.push_fn 0x0100000000001000) (inbound ⟨0xDEADBEEF, 0⟩)).2
    1
    ⟨[⟨0x800, CommandCommonHeader.toBytes ⟨0xDEADBEEF, 0⟩⟩,
      ⟨0x800, CommandCommonHeader.toBytes ⟨CommandMagic, 2⟩ ++ leBytes 8 0x0100000000001000⟩],
      [], [2]⟩
    ⟨[⟨0x800, CommandCommonHeader.toBytes ⟨0xDEADBEEF, 0⟩⟩,
      ⟨0x800, CommandCommonHeader.toBytes ⟨CommandMagic, 2⟩ ++ leBytes 8 0x0100000000001000⟩],
      [], [2]⟩
    (CommandCommonHeader.toBytes ⟨0xDEADBEEF, 0⟩)
    (by decide) (by decide) (by decide) (by decide)
  ⟨congrArg Prod.fst h.1, h.2.1, h.2.2⟩

/-- C7 at the request header `{magic = 0xDEADBEEF, code = 2}`. -/
theorem C7_responder_magic_enforcement_witness :
    ReceiveCommandImpl sampleCodes memOs (fun _ => popFields true [8])
        (fun _ => WriterFn.ret ResultSuccess) (inbound ⟨0xDEADBEEF, 2⟩)
      = (Outcome.returned sampleCodes.ResultInvalidInHeaderMagic,
          ⟨⟨[⟨0x800, CommandCommonHeader.toBytes ⟨0xDEADBEEF, 2⟩⟩], [], []⟩,
            [Event.PopStorage false ResultSuccess 1,
              Event.appletStorageRead 1 0 8 ResultSuccess
                (CommandCommonHeader.toBytes ⟨0xDEADBEEF, 2⟩),
              Event.appletStorageClose 1]⟩) :=
  C7_responder_magic_enforcement sampleCodes memOs (fun _ => popFields true [8])
    (fun _ => WriterFn.ret ResultSuccess) (inbound ⟨0xDEADBEEF, 2⟩) 1
    ⟨[⟨0x800, CommandCommonHeader.toBytes ⟨0xDEADBEEF, 2⟩⟩], [], []⟩
    ⟨[⟨0x800, CommandCommonHeader.toBytes ⟨0xDEADBEEF, 2⟩⟩], [], []⟩
    (CommandCommonHeader.toBytes ⟨0xDEADBEEF, 2⟩)
    (by decide) (by decide) (by decide)

/-- C8 at the reply header `{magic = CommandMagic, code = 0x1234}`: the call
returns `0x1234`. -/
theorem C8_remote_failure_pass_through_witness :
    (SendCommandImpl sampleCodes memOs 2 (LaunchApplication.push_fn 0x0100000000001000)
        LaunchApplication.pop_fn (inbound ⟨CommandMagic, 0x1234⟩)).1
      = Outcome.returned 0x1234 :=
  congrArg Prod.fst
    ((C8_remote_failure_pass_through sampleCodes memOs 2
      (LaunchApplication.push_fn 0x0100000000001000) LaunchApplication.pop_fn
      (inbound ⟨CommandMagic, 0x1234⟩)
      (SendCommandImpl.request sampleCodes memOs 2
        (LaunchApplication.push_fn 0x0100000000001000) (inbound ⟨CommandMagic, 0x1234⟩)).2
      1
      ⟨[⟨0x800, CommandCommonHeader.toBytes ⟨CommandMagic, 0x1234⟩⟩,
        ⟨0x800, CommandCommonHeader.toBytes ⟨CommandMagic, 2⟩ ++ leBytes 8 0x0100000000001000⟩],
        [], [2]⟩
      ⟨[⟨0x800, CommandCommonHeader.toBytes ⟨CommandMagic, 0x1234⟩⟩,
        ⟨0x800, CommandCommonHeader.toBytes ⟨CommandMagic, 2⟩ ++ leBytes 8 0x0100000000001000⟩],
        [], [2]⟩
      (CommandCommonHeader.toBytes ⟨CommandMagic, 0x1234⟩) 0x1234
      (by decide) (by decide) (by decide) (by decide)).1 (by decide))

/-- C9 at a request `{magic = CommandMagic, code = 2}` whose dispatch fails
with `0x1234`: the reply holds the header `{CommandMagic, 0x1234}` only, is
published and closed, and `push_fn` is not invoked. -/
theorem C9_responder_reply_framing_witness :
    (ReceiveCommandImpl sampleCodes memOs (fun _ => ReaderFn.ret 0x1234)
        (fun _ => pushFields true [[1, 2, 3]]) (inbound ⟨CommandMagic, 2⟩)).2.trace
      = [Event.PopStorage false ResultSuccess 1,
          Event.appletStorageRead 1 0 8 ResultSuccess (CommandCommonHeader.toBytes ⟨CommandMagic, 2⟩),
          Event.pop_fn (some 2),
          Event.appletStorageClose 1,
          Event.appletCreateStorage CommandStorageSize ResultSuccess 2,
          Event.appletStorageWrite 2 0 (CommandCommonHeader.toBytes ⟨CommandMagic, 0x1234⟩) 8
            ResultSuccess,
          Event.PushStorage 2 ResultSuccess,
          Event.appletStorageClose 2] :=
  ((C9_responder_reply_framing sampleCodes memOs (fun _ => ReaderFn.ret 0x1234)
    (fun _ => pushFields true [[1, 2, 3]]) (inbound ⟨CommandMagic, 2⟩) 1
    ⟨[⟨0x800, CommandCommonHeader.toBytes ⟨CommandMagic, 2⟩⟩], [], []⟩
    ⟨[⟨0x800, CommandCommonHeader.toBytes ⟨CommandMagic, 2⟩⟩], [], []⟩
    (CommandCommonHeader.toBytes ⟨CommandMagic, 2⟩) 2
    ((ReaderFn.ret 0x1234 : ReaderFn MemOs).run sampleCodes memOs ⟨1, 8⟩
      ⟨⟨[⟨0x800, CommandCommonHeader.toBytes ⟨CommandMagic, 2⟩⟩], [], []⟩,
        [Event.PopStorage false ResultSuccess 1,
          Event.appletStorageRead 1 0 8 ResultSuccess
            (CommandCommonHeader.toBytes ⟨CommandMagic, 2⟩),
          Event.pop_fn (some 2)]⟩)
    2
    ⟨[⟨0x800, CommandCommonHeader.toBytes ⟨CommandMagic, 2⟩⟩, ⟨0x800, []⟩], [], []⟩
    ⟨[⟨0x800, CommandCommonHeader.toBytes ⟨CommandMagic, 2⟩⟩,
      ⟨0x800, CommandCommonHeader.toBytes ⟨CommandMagic, 0x1234⟩⟩], [], []⟩
    _
    (by decide) (by decide) (by decide) rfl (by decide) (by decide) rfl).1
      (by decide)).2.trans (by decide)

/-- C10: the request phase of `SendCommandImpl` for
`DaemonMessage::LaunchApplication` (numeric value 2) with the encoder of
`LaunchApplication(0x0100000000001000)` creates a storage of `0x800` bytes
and writes 8 bytes at offset 0 (the little-endian `u32` `0x444D4930`, then
the little-endian `u32` `2`) and 8 bytes at offset 8 (the little-endian
bytes of the application id): 16 bytes at offsets 0 to 15, the writer cursor
ending at 16. With a reply that is the header `{0x444D4930, 0}` and no
payload, the call returns success. -/
theorem C10_framing_scenario :
    DaemonMessage.LaunchApplication.toU32 = 2 ∧
    (SendCommandImpl.requestBody sampleCodes memOs DaemonMessage.LaunchApplication.toU32
      (LaunchApplication.push_fn 0x0100000000001000) (inbound ⟨0x444D4930, 0⟩)).rc
      = ResultSuccess ∧
    (SendCommandImpl.requestBody sampleCodes memOs DaemonMessage.LaunchApplication.toU32
      (LaunchApplication.push_fn 0x0100000000001000) (inbound ⟨0x444D4930, 0⟩)).writer
      = ⟨2, 16⟩ ∧
    (SendCommandImpl.requestBody sampleCodes memOs DaemonMessage.LaunchApplication.toU32
      (LaunchApplication.push_fn 0x0100000000001000) (inbound ⟨0x444D4930, 0⟩)).world.trace
      = [Event.appletCreateStorage 0x800 ResultSuccess 2,
          Event.appletStorageWrite 2 0 [0x30, 0x49, 0x4D, 0x44, 0x02, 0, 0, 0] 8 ResultSuccess,
          Event.push_fn none,
          Event.appletStorageWrite 2 8 [0x00, 0x10, 0, 0, 0, 0, 0, 0x01] 8 ResultSuccess] ∧
    (SendCommandImpl.requestBody sampleCodes memOs DaemonMessage.LaunchApplication.toU32
      (LaunchApplication.push_fn 0x0100000000001000) (inbound ⟨0x444D4930, 0⟩)).world.os.content 2
      = some ⟨0x800, [0x30, 0x49, 0x4D, 0x44, 0x02, 0, 0, 0,
          0x00, 0x10, 0, 0, 0, 0, 0, 0x01]⟩ ∧
    (SendCommandImpl sampleCodes memOs DaemonMessage.LaunchApplication.toU32
      (LaunchApplication.push_fn 0x0100000000001000) LaunchApplication.pop_fn
      (inbound ⟨0x444D4930, 0⟩)).1 = Outcome.returned ResultSuccess := by
  decide

end dmi.impl

namespace ul.system.la

variable {σ : Type}

/-! ### The applet session -/

/-- The first two statements of `Start` leave `g_MenuAppletId` as it is. -/
theorem Start.prologue_menu (nx : Libnx σ) (s : Session σ) :
    (Start.prologue nx s).g_MenuAppletId = s.g_MenuAppletId := by
  unfold Start.prologue
  by_cases h : IsActive nx s = true <;> simp [h, Session.called, Terminate]

/-- The first two statements of `Start` leave `g_LastAppletId` as it is. -/
theorem Start.prologue_last (nx : Libnx σ) (s : Session σ) :
    (Start.prologue nx s).g_LastAppletId = s.g_LastAppletId := by
  unfold Start.prologue
  by_cases h : IsActive nx s = true <;> simp [h, Session.called, Terminate]

/-- The calls of the first two statements of `Start`: the request to exit
when the session is active, then the close. -/
theorem Start.prologue_calls (nx : Libnx σ) (s : Session σ) :
    (Start.prologue nx s).calls = s.calls ++
      (if IsActive nx s then
        [Call.appletHolderRequestExitOrTerminate 15000000000
          (nx.appletHolderRequestExitOrTerminate 15000000000 s.g_AppletHolder).1]
       else []) ++ [Call.appletHolderClose] := by
  unfold Start.prologue
  by_cases h : IsActive nx s = true <;> simp [h, Session.called, Terminate]

/-- The holder after the first two statements of `Start`: the old holder,
after the request to exit when the session is active, closed. -/
theorem Start.prologue_holder (nx : Libnx σ) (s : Session σ) :
    (Start.prologue nx s).g_AppletHolder = nx.appletHolderClose
      (if IsActive nx s then
        (nx.appletHolderRequestExitOrTerminate 15000000000 s.g_AppletHolder).2
       else s.g_AppletHolder) := by
  unfold Start.prologue
  by_cases h : IsActive nx s = true <;> simp [h, Session.called, Terminate]

end ul.system.la
namespace ul.system.la

variable {σ : Type}

/-- C11, as the code has it: whichever step of `Start` fails (creating the
handle, pushing the arguments, pushing the input when `in_size > 0`, or
starting), `Start` returns the result of that step, makes no later call, and
leaves `g_LastAppletId` and `g_MenuAppletId` as they were. The holder is
left as the failing step left it: `Start` does not close it. -/
theorem C11_start_failure_returns_step_error (nx : Libnx σ) (id : AppletId)
    (la_version : Nat) (in_data : List dmi.Byte) (in_size : Nat) (s : Session σ) :
    (∀ e h1,
      nx.appletCreateLibraryApplet id LibAppletMode_AllForeground
        (Start.prologue nx s).g_AppletHolder = (e, h1) →
      R_FAILED e = true →
      Start nx id la_version in_data in_size s =
        (e, ⟨h1, s.g_MenuAppletId, s.g_LastAppletId,
          (Start.prologue nx s).calls ++
            [Call.appletCreateLibraryApplet id LibAppletMode_AllForeground e]⟩)) ∧
    (∀ h1 e h2,
      nx.appletCreateLibraryApplet id LibAppletMode_AllForeground
        (Start.prologue nx s).g_AppletHolder = (ResultSuccess, h1) →
      nx.libappletArgsPush la_version h1 = (e, h2) →
      R_FAILED e = true →
      Start nx id la_version in_data in_size s =
        (e, ⟨h2, s.g_MenuAppletId, s.g_LastAppletId,
          (Start.prologue nx s).calls ++
            [Call.appletCreateLibraryApplet id LibAppletMode_AllForeground ResultSuccess,
              Call.libappletArgsPush la_version e]⟩)) ∧
    (∀ h1 h2 e h3,
      nx.appletCreateLibraryApplet id LibAppletMode_AllForeground
        (Start.prologue nx s).g_AppletHolder = (ResultSuccess, h1) →
      nx.libappletArgsPush la_version h1 = (ResultSuccess, h2) →
      in_size > 0 →
      nx.libappletPushInData in_data in_size h2 = (e, h3) →
      R_FAILED e = true →
      Start nx id la_version in_data in_size s =
        (e, ⟨h3, s.g_MenuAppletId, s.g_LastAppletId,
          (Start.prologue nx s).calls ++
            [Call.appletCreateLibraryApplet id LibAppletMode_AllForeground ResultSuccess,
              Call.libappletArgsPush la_version ResultSuccess,
              Call.libappletPushInData in_data in_size e]⟩)) ∧
    (∀ h1 h2 h3 e h4,
      nx.appletCreateLibraryApplet id LibAppletMode_AllForeground
        (Start.prologue nx s).g_AppletHolder = (ResultSuccess, h1) →
      nx.libappletArgsPush la_version h1 = (ResultSuccess, h2) →
      (if in_size > 0 then nx.libappletPushInData in_data in_size h2 = (ResultSuccess, h3)
       else h3 = h2) →
      nx.appletHolderStart h3 = (e, h4) →
      R_FAILED e = true →
      Start nx id la_version in_data in_size s =
        (e, ⟨h4, s.g_MenuAppletId, s.g_LastAppletId,
          (Start.prologue nx s).calls ++
            [Call.appletCreateLibraryApplet id LibAppletMode_AllForeground ResultSuccess,
              Call.libappletArgsPush la_version ResultSuccess] ++
            (if in_size > 0 then [Call.libappletPushInData in_data in_size ResultSuccess]
             else []) ++
            [Call.appletHolderStart e]⟩)) := by
  have hm := Start.prologue_menu nx s
  have hl := Start.prologue_last nx s
  have hne : ∀ e : Result, R_FAILED e = true → e ≠ 0 := by
    intro e he
    simpa [R_FAILED] using he
  refine ⟨?_, ?_, ?_, ?_⟩
  · intro e h1 hc he
    simp [Start, hc, hne e he, Session.called, hm, hl, R_FAILED]
  · intro h1 e h2 hc ha he
    simp [Start, hc, ha, hne e he, Session.called, hm, hl, R_FAILED, ResultSuccess]
  · intro h1 h2 e h3 hc ha hpos hd he
    simp [Start, hc, ha, hpos, hd, hne e he, Session.called, hm, hl, R_FAILED, ResultSuccess,
      Send]
  · intro h1 h2 h3 e h4 hc ha hd ht he
    by_cases hpos : in_size > 0
    · simp only [hpos, if_true] at hd
      simp [Start, hc, ha, hpos, hd, ht, hne e he, Session.called, hm, hl, R_FAILED,
        ResultSuccess, Send]
    · simp only [hpos, if_false] at hd
      subst hd
      simp [Start, hc, ha, hpos, ht, hne e he, Session.called, hm, hl, R_FAILED,
        ResultSuccess]

/-- C11 as stated fails: when pushing the arguments fails (here with
`0x1234`) after the handle was created, `Start` returns that error and the
created handle is still held: `IsActive()` is true after the call. -/
theorem C11_failed_start_keeps_handle :
    (Start (modelNx fun step => if step = Step.argsPush then 0x1234 else 0)
      AppletId_LibraryAppletShop 0 [] 0 Session.initial).1 = 0x1234 ∧
    IsActive (modelNx fun step => if step = Step.argsPush then 0x1234 else 0)
      (Start (modelNx fun step => if step = Step.argsPush then 0x1234 else 0)
        AppletId_LibraryAppletShop 0 [] 0 Session.initial).2 = true := by
  decide

/-- C12: in every execution of `Start` the calls on the holder are, in this
order: the request to exit with a timeout of 15,000,000,000 ns exactly when
`IsActive()` holds on entry (its result is dropped), the close of the
existing handle, the creation of the new handle on the holder so closed, and
then only steps of pushing arguments, pushing input and starting: no
creation comes before the close, and there is no second creation, close or
request to exit. -/
theorem C12_start_order (nx : Libnx σ) (id : AppletId) (la_version : Nat)
    (in_data : List dmi.Byte) (in_size : Nat) (s : Session σ) :
    (Start.prologue nx s).g_AppletHolder = nx.appletHolderClose
      (if IsActive nx s then
        (nx.appletHolderRequestExitOrTerminate 15000000000 s.g_AppletHolder).2
       else s.g_AppletHolder) ∧
    ∃ rest : List Call,
      (Start nx id la_version in_data in_size s).2.calls = s.calls ++
        (if IsActive nx s then
          [Call.appletHolderRequestExitOrTerminate 15000000000
            (nx.appletHolderRequestExitOrTerminate 15000000000 s.g_AppletHolder).1]
         else []) ++
        [Call.appletHolderClose,
          Call.appletCreateLibraryApplet id LibAppletMode_AllForeground
            (nx.appletCreateLibraryApplet id LibAppletMode_AllForeground
              (Start.prologue nx s).g_AppletHolder).1] ++ rest ∧
      ∀ c ∈ rest, c.isStartStep = true := by
  refine ⟨Start.prologue_holder nx s, ?_⟩
  have hpre : s.calls ++
      (if IsActive nx s then
        [Call.appletHolderRequestExitOrTerminate 15000000000
          (nx.appletHolderRequestExitOrTerminate 15000000000 s.g_AppletHolder).1]
       else []) ++
      [Call.appletHolderClose,
        Call.appletCreateLibraryApplet id LibAppletMode_AllForeground
          (nx.appletCreateLibraryApplet id LibAppletMode_AllForeground
            (Start.prologue nx s).g_AppletHolder).1]
      = (Start.prologue nx s).calls ++
        [Call.appletCreateLibraryApplet id LibAppletMode_AllForeground
          (nx.appletCreateLibraryApplet id LibAppletMode_AllForeground
            (Start.prologue nx s).g_AppletHolder).1] := by
    rw [Start.prologue_calls]
    simp
  simp only [hpre]
  have hstep : ∀ (a b rest : List Call), (∀ c ∈ rest, c.isStartStep = true) →
      ∃ r : List Call, a ++ (b ++ rest) = a ++ (b ++ r) ∧ ∀ c ∈ r, c.isStartStep = true :=
    fun a b rest h => ⟨rest, rfl, h⟩
  unfold Start
  dsimp only
  split
  · exact ⟨[], by simp [Session.called], by simp⟩
  · split
    · simp only [Session.called, Send, List.append_assoc]
      refine hstep _ _ _ ?_
      simp [Call.isStartStep]
    · by_cases hpos : in_size > 0
      · simp only [hpos, if_true]
        split
        · simp only [Session.called, Send, List.append_assoc]
          refine hstep _ _ _ ?_
          simp [Call.isStartStep]
        · split
          · simp only [Session.called, Send, List.append_assoc]
            refine hstep _ _ _ ?_
            simp [Call.isStartStep]
          · simp only [Session.called, Send, List.append_assoc]
            refine hstep _ _ _ ?_
            simp [Call.isStartStep]
      · simp only [hpos, if_false]
        split
        · simp only [Session.called, Send, List.append_assoc]
          refine hstep _ _ _ ?_
          simp [Call.isStartStep]
        · split
          · simp only [Session.called, Send, List.append_assoc]
            refine hstep _ _ _ ?_
            simp [Call.isStartStep]
          · simp only [Session.called, Send, List.append_assoc]
            refine hstep _ _ _ ?_
            simp [Call.isStartStep]

end ul.system.la
namespace ul.system.la

variable {σ : Type}

/-- `Start` either returns a failure, or returns `ResultSuccess` and has
recorded `id` as the last applet. -/
theorem Start_result_cases (nx : Libnx σ) (id : AppletId) (la_version : Nat)
    (in_data : List dmi.Byte) (in_size : Nat) (s : Session σ) :
    R_FAILED (Start nx id la_version in_data in_size s).1 = true ∨
    ((Start nx id la_version in_data in_size s).1 = ResultSuccess ∧
      (Start nx id la_version in_data in_size s).2.g_LastAppletId = id) := by
  unfold Start
  dsimp only
  split
  · left; assumption
  · split
    · left; assumption
    · by_cases hpos : in_size > 0
      · simp only [hpos, if_true]
        split
        · left; assumption
        · split
          · left; assumption
          · right; exact ⟨rfl, rfl⟩
      · simp only [hpos, if_false]
        split
        · left; assumption
        · split
          · left; assumption
          · right; exact ⟨rfl, rfl⟩

/-- A successful `Start(id, ...)` records `id` as the last applet. -/
theorem Start_success_records_id (nx : Libnx σ) (id : AppletId) (la_version : Nat)
    (in_data : List dmi.Byte) (in_size : Nat) (s : Session σ)
    (h : (Start nx id la_version in_data in_size s).1 = ResultSuccess) :
    (Start nx id la_version in_data in_size s).2.g_LastAppletId = id := by
  rcases Start_result_cases nx id la_version in_data in_size s with hf | ⟨_, hl⟩
  · rw [h] at hf
    simp [R_FAILED, ResultSuccess] at hf
  · exact hl

/-- C13: `GetLastAppletId` returns the value `g_LastAppletId` had before the
call; after the call `g_LastAppletId` is `AppletId_None` if `IsActive()` was
false and is unchanged otherwise, and nothing else changes. A successful
`Start(id, ...)` records `id`; so once the applet has finished (`IsActive()`
false) with `id` recorded, the first `GetLastAppletId` returns `id` and a
second one right after it returns `AppletId_None`. -/
theorem C13_last_applet_id_one_shot (nx : Libnx σ) (s : Session σ) :
    (GetLastAppletId nx s).1 = s.g_LastAppletId ∧
    (GetLastAppletId nx s).2 =
      ⟨s.g_AppletHolder, s.g_MenuAppletId,
        if IsActive nx s then s.g_LastAppletId else AppletId_None, s.calls⟩ ∧
    (∀ (id : AppletId) (la_version : Nat) (in_data : List dmi.Byte) (in_size : Nat),
      (Start nx id la_version in_data in_size s).1 = ResultSuccess →
      (Start nx id la_version in_data in_size s).2.g_LastAppletId = id) ∧
    (IsActive nx s = false →
      (GetLastAppletId nx s).1 = s.g_LastAppletId ∧
      (GetLastAppletId nx (GetLastAppletId nx s).2).1 = AppletId_None) := by
  have h1 : (GetLastAppletId nx s).1 = s.g_LastAppletId := by
    unfold GetLastAppletId
    by_cases h : IsActive nx s = true <;> simp [h]
  have h2 : (GetLastAppletId nx s).2 =
      ⟨s.g_AppletHolder, s.g_MenuAppletId,
        if IsActive nx s then s.g_LastAppletId else AppletId_None, s.calls⟩ := by
    unfold GetLastAppletId
    by_cases h : IsActive nx s = true <;> simp [h]
  refine ⟨h1, h2, ?_, ?_⟩
  · intro id la_version in_data in_size hs
    exact Start_success_records_id nx id la_version in_data in_size s hs
  · intro hna
    refine ⟨h1, ?_⟩
    rw [h2]
    simp [GetLastAppletId, hna]

/-- C13 on the model: after `Start` of the shop applet has succeeded and the
applet has finished, the first `GetLastAppletId` returns the shop applet and
the second `AppletId_None`. -/
theorem C13_last_applet_id_one_shot_witness :
    (GetLastAppletId (modelNx fun _ => 0)
      ⟨HolderModel.finish
        (Start (modelNx fun _ => 0) AppletId_LibraryAppletShop 0 [] 0
          Session.initial).2.g_AppletHolder,
       AppletId_None, AppletId_LibraryAppletShop, []⟩).1 = AppletId_LibraryAppletShop ∧
    (GetLastAppletId (modelNx fun _ => 0)
      (GetLastAppletId (modelNx fun _ => 0)
        ⟨HolderModel.finish
          (Start (modelNx fun _ => 0) AppletId_LibraryAppletShop 0 [] 0
            Session.initial).2.g_AppletHolder,
         AppletId_None, AppletId_LibraryAppletShop, []⟩).2).1 = AppletId_None :=
  (C13_last_applet_id_one_shot (modelNx fun _ => 0)
    ⟨HolderModel.finish
      (Start (modelNx fun _ => 0) AppletId_LibraryAppletShop 0 [] 0
        Session.initial).2.g_AppletHolder,
     AppletId_None, AppletId_LibraryAppletShop, []⟩).2.2.2 (by decide)

/-- C14, as the code has it: `IsMenu()` returns true if and only if
`IsActive()` is true, `g_MenuAppletId` is not `AppletId_None`, and the
recorded last applet equals `g_MenuAppletId`. -/
theorem C14_is_menu_iff (nx : Libnx σ) (s : Session σ) :
    (IsMenu nx s).1 = true ↔
      IsActive nx s = true ∧ s.g_MenuAppletId ≠ AppletId_None ∧
        s.g_LastAppletId = s.g_MenuAppletId := by
  unfold IsMenu
  by_cases ha : IsActive nx s = true
  · by_cases hm : s.g_MenuAppletId = AppletId_None
    · simp [ha, hm]
    · simp [ha, hm, GetLastAppletId]
  · simp [ha]

/-- C14 as stated fails: in the session left by a `Start` whose push of the
arguments failed, `IsActive()` is true and the recorded last applet equals
`g_MenuAppletId` (both are `AppletId_None`), yet `IsMenu()` is false. -/
theorem C14_is_menu_false_for_none :
    IsActive (modelNx fun step => if step = Step.argsPush then 0x1234 else 0)
      (Start (modelNx fun step => if step = Step.argsPush then 0x1234 else 0)
        AppletId_LibraryAppletShop 0 [] 0 Session.initial).2 = true ∧
    (Start (modelNx fun step => if step = Step.argsPush then 0x1234 else 0)
        AppletId_LibraryAppletShop 0 [] 0 Session.initial).2.g_LastAppletId =
      (Start (modelNx fun step => if step = Step.argsPush then 0x1234 else 0)
        AppletId_LibraryAppletShop 0 [] 0 Session.initial).2.g_MenuAppletId ∧
    (IsMenu (modelNx fun step => if step = Step.argsPush then 0x1234 else 0)
      (Start (modelNx fun step => if step = Step.argsPush then 0x1234 else 0)
        AppletId_LibraryAppletShop 0 [] 0 Session.initial).2).1 = false := by
  decide

/-- C15: `IsActive()` is true if and only if the handle of the state-changed
event is not `INVALID_HANDLE`, the service session of the holder is active,
and the applet has not signalled that it finished. It is a function of the
holder as it is at the call, and being a mere reading it changes nothing of
the session. In particular it is false whenever the applet has finished. -/
theorem C15_is_active_iff (nx : Libnx σ) (s : Session σ) :
    (IsActive nx s = true ↔
      nx.StateChangedEvent_revent s.g_AppletHolder ≠ INVALID_HANDLE ∧
      nx.serviceIsActive s.g_AppletHolder = true ∧
      nx.appletHolderCheckFinished s.g_AppletHolder = false) ∧
    (∀ s1 : Session σ, s1.g_AppletHolder = s.g_AppletHolder →
      IsActive nx s1 = IsActive nx s) ∧
    (nx.appletHolderCheckFinished s.g_AppletHolder = true → IsActive nx s = false) := by
  refine ⟨?_, ?_, ?_⟩
  · unfold IsActive
    by_cases h1 : nx.StateChangedEvent_revent s.g_AppletHolder = INVALID_HANDLE
    · simp [h1]
    · by_cases h2 : nx.serviceIsActive s.g_AppletHolder = true
      · simp [h1, h2]
      · simp [h1, h2]
  · intro s1 h
    unfold IsActive
    rw [h]
  · intro h
    unfold IsActive
    simp [h]

/-- No operation of the session other than `SetMenuAppletId` changes
`g_MenuAppletId`. -/
theorem op_run_menu (nx : Libnx σ) (s : Session σ) (op : Op) :
    (op.run nx s).g_MenuAppletId = s.g_MenuAppletId := by
  cases op with
  | IsActive => rfl
  | Terminate => rfl
  | Start id la_version in_data in_size =>
    have hm := Start.prologue_menu nx s
    simp only [Op.run, Start]
    split
    · exact hm
    · split
      · exact hm
      · by_cases hpos : in_size > 0
        · simp only [hpos, if_true]
          split
          · exact hm
          · split <;> exact hm
        · simp only [hpos, if_false]
          split
          · exact hm
          · split <;> exact hm
  | Send data size => rfl
  | Read size => rfl
  | Push st => rfl
  | Pop => rfl
  | GetLastAppletId =>
    simp only [Op.run, GetLastAppletId]
    split <;> rfl
  | IsMenu =>
    simp only [Op.run, IsMenu, GetLastAppletId]
    split
    · split
      · split <;> rfl
      · rfl
    · rfl
  | GetProgramIdForAppletId id => rfl
  | GetAppletIdForProgramId id => rfl

/-- C16: none of the operations `IsActive`, `Terminate`, `Start`, `Send`,
`Read`, `Push`, `Pop`, `GetLastAppletId`, `IsMenu`, `GetProgramIdForAppletId`,
`GetAppletIdForProgramId` changes `g_MenuAppletId`, whatever the calls on the
holder return; so after `SetMenuAppletId(id)` and any sequence of those
operations `GetMenuAppletId()` returns `id`. -/
theorem C16_menu_applet_id_frame (nx : Libnx σ) (id : AppletId) (s : Session σ) :
    (∀ (op : Op) (s1 : Session σ), (op.run nx s1).g_MenuAppletId = s1.g_MenuAppletId) ∧
    ∀ ops : List Op,
      GetMenuAppletId (ops.foldl (Op.run nx) (SetMenuAppletId id s)) = id := by
  refine ⟨fun op s1 => op_run_menu nx s1 op, ?_⟩
  have key : ∀ (ops : List Op) (s1 : Session σ),
      (ops.foldl (Op.run nx) s1).g_MenuAppletId = s1.g_MenuAppletId := by
    intro ops
    induction ops with
    | nil => intro s1; rfl
    | cons op rest ih =>
      intro s1
      rw [List.foldl_cons, ih, op_run_menu]
  intro ops
  unfold GetMenuAppletId
  rw [key]
  rfl

end ul.system.la

namespace dmi.impl

variable {σ : Type}

/-! ### Scope exit: publication, release, and the assertion -/

/-- Leaving a writer's block, in full: the storage of the writer is published;
when that fails the process stops with the failing code and the storage is
not closed; otherwise the storage is closed and the result of the block
stands. -/
theorem leaveWriterScope_eq (os : Os σ) (b : WriterStep σ ScopedStorageWriterBase) :
    leaveWriterScope os b =
      if R_FAILED (os.PushStorageFn b.writer.st b.world.os).1 then
        (Outcome.aborted (os.PushStorageFn b.writer.st b.world.os).1,
          ⟨(os.PushStorageFn b.writer.st b.world.os).2,
            b.world.trace ++
              [Event.PushStorage b.writer.st (os.PushStorageFn b.writer.st b.world.os).1]⟩)
      else
        (Outcome.returned b.rc,
          ⟨os.appletStorageClose b.writer.st (os.PushStorageFn b.writer.st b.world.os).2,
            b.world.trace ++
              [Event.PushStorage b.writer.st (os.PushStorageFn b.writer.st b.world.os).1,
                Event.appletStorageClose b.writer.st]⟩) := by
  unfold leaveWriterScope ScopedStorageWriterBase.dtor
  by_cases h : R_FAILED (os.PushStorageFn b.writer.st b.world.os).1 = true
  · simp [sys.PushStorage, h]
  · simp [sys.PushStorage, sys.appletStorageClose, h]

/-- The events `PushData` records are writes to the storage of the writer. -/
theorem ScopedStorageWriterBase.PushData_body (rc : ResultCodes) (os : Os σ)
    (self : ScopedStorageWriterBase) (data : List Byte) (size : Nat) (w : World σ) :
    w.continuedBy (Event.isWriterBody self.st) (self.PushData rc os data size w).world := by
  unfold ScopedStorageWriterBase.PushData
  by_cases hb : (self.cur_offset + size) % 2 ^ 64 ≤ CommandStorageSize
  · by_cases hf : R_FAILED (sys.appletStorageWrite os self.st self.cur_offset data size w).1
        = true <;> simp only [hb, hf, if_true] <;>
      exact World.continuedBy_event _ w _ _ (by simp [Event.isWriterBody])
  · simp only [hb, if_false]
    exact World.continuedBy_refl _ w

/-- The events `PopData` records are reads from the storage of the reader. -/
theorem ScopedStorageReaderBase.PopData_body (rc : ResultCodes) (os : Os σ)
    (self : ScopedStorageReaderBase) (size : Nat) (w : World σ) :
    w.continuedBy (Event.isReaderBody self.st) (self.PopData rc os size w).world := by
  unfold ScopedStorageReaderBase.PopData
  by_cases hb : (self.cur_offset + size) % 2 ^ 64 ≤ CommandStorageSize
  · by_cases hf : R_FAILED (sys.appletStorageRead os self.st self.cur_offset size w).1
        = true <;> simp only [hb, hf, if_true] <;>
      exact World.continuedBy_event _ w _ _ (by simp [Event.isReaderBody])
  · simp only [hb, if_false]
    exact World.continuedBy_refl _ w

/-- An injected writer function only records writes to the storage of the
writer. -/
theorem WriterFn.run_writer_body (rc : ResultCodes) (os : Os σ) (f : WriterFn σ) :
    ∀ (writer : ScopedStorageWriterBase) (w : World σ),
      w.continuedBy (Event.isWriterBody writer.st) (f.run rc os writer w).world := by
  induction f with
  | ret r => intro writer w; exact World.continuedBy_refl _ w
  | PushData data size k ih =>
    intro writer w
    simp only [WriterFn.run]
    have h := ih (writer.PushData rc os data size w).rc
      (writer.PushData rc os data size w).writer (writer.PushData rc os data size w).world
    rw [ScopedStorageWriterBase.PushData_st] at h
    exact World.continuedBy_trans
      (ScopedStorageWriterBase.PushData_body rc os writer data size w) h
  | effect g k ih =>
    intro writer w
    simp only [WriterFn.run]
    exact World.continuedBy_trans (World.continuedBy_os _ w _) (ih _ _ _)

/-- An injected reader function only records reads from the storage of the
reader. -/
theorem ReaderFn.run_reader_body (rc : ResultCodes) (os : Os σ) (f : ReaderFn σ) :
    ∀ (reader : ScopedStorageReaderBase) (w : World σ),
      w.continuedBy (Event.isReaderBody reader.st) (f.run rc os reader w).world := by
  induction f with
  | ret r => intro reader w; exact World.continuedBy_refl _ w
  | PopData size k ih =>
    intro reader w
    simp only [ReaderFn.run]
    have h := ih (reader.PopData rc os size w).rc (reader.PopData rc os size w).out
      (reader.PopData rc os size w).reader (reader.PopData rc os size w).world
    rw [ScopedStorageReaderBase.PopData_st] at h
    exact World.continuedBy_trans
      (ScopedStorageReaderBase.PopData_body rc os reader size w) h
  | effect g k ih =>
    intro reader w
    simp only [ReaderFn.run]
    exact World.continuedBy_trans (World.continuedBy_os _ w _) (ih _ _ _)

/-- A writer's block that has acquired the storage `st`: after the header is
pushed and, when `fn` is given, the injected function has run, the writer
still holds `st` and only body events were recorded. -/
theorem writerBlock_body (rc : ResultCodes) (os : Os σ) (hdr : List Byte)
    (fn : Option (WriterFn σ × Event)) (st : AppletStorage) (w0 : World σ)
    (hfn : ∀ f e, fn = some (f, e) → e.isWriterBody st = true) :
    (let p := ScopedStorageWriterBase.Push rc os ⟨st, 0⟩ hdr w0
     let b := if R_FAILED p.rc then p
       else match fn with
         | some (f, e) => f.run rc os p.writer (p.world.log e)
         | none => p
     b.writer.st = st ∧ w0.continuedBy (Event.isWriterBody st) b.world) := by
  dsimp only
  have hp := ScopedStorageWriterBase.PushData_body rc os ⟨st, 0⟩ hdr hdr.length w0
  have hpst := ScopedStorageWriterBase.PushData_st rc os ⟨st, 0⟩ hdr hdr.length w0
  unfold ScopedStorageWriterBase.Push
  split
  · exact ⟨hpst, hp⟩
  · cases fn with
    | none => exact ⟨hpst, hp⟩
    | some fe =>
      obtain ⟨f, e⟩ := fe
      dsimp only
      refine ⟨by rw [WriterFn.run_writer_st, hpst], ?_⟩
      have hlog :
          (ScopedStorageWriterBase.PushData rc os ⟨st, 0⟩ hdr hdr.length w0).world.continuedBy
          (Event.isWriterBody st)
          ((ScopedStorageWriterBase.PushData rc os ⟨st, 0⟩ hdr hdr.length w0).world.log e) :=
        World.continuedBy_event _ _ _ _ (hfn f e rfl)
      have h := WriterFn.run_writer_body rc os f
        (ScopedStorageWriterBase.PushData rc os ⟨st, 0⟩ hdr hdr.length w0).writer
        ((ScopedStorageWriterBase.PushData rc os ⟨st, 0⟩ hdr hdr.length w0).world.log e)
      rw [hpst] at h
      exact World.continuedBy_trans hp (World.continuedBy_trans hlog h)

end dmi.impl

namespace dmi.impl

variable {σ : Type}

/-- Opening a writer when the creation of the storage succeeds. -/
theorem OpenStorageWriter_success (os : Os σ) (w : World σ) (st : AppletStorage) (s1 : σ)
    (hcreate : os.appletCreateStorage CommandStorageSize w.os = (ResultSuccess, st, s1)) :
    OpenStorageWriter os ScopedStorageWriterBase.ctor w =
      ⟨ResultSuccess, ⟨st, 0⟩,
        ⟨s1, w.trace ++ [Event.appletCreateStorage CommandStorageSize ResultSuccess st]⟩⟩ := by
  simp [OpenStorageWriter, sys.appletCreateStorage, hcreate, R_FAILED, ResultSuccess,
    ScopedStorageWriterBase.ctor, ScopedStorageWriterBase.Initialize]

/-- Opening a reader when the receipt of the storage succeeds. -/
theorem OpenStorageReader_success (os : Os σ) (wait : Bool) (w : World σ)
    (st : AppletStorage) (s1 : σ)
    (hpop : os.PopStorageFn wait w.os = (ResultSuccess, st, s1)) :
    OpenStorageReader os ScopedStorageReaderBase.ctor wait w =
      ⟨ResultSuccess, [], ⟨st, 0⟩,
        ⟨s1, w.trace ++ [Event.PopStorage wait ResultSuccess st]⟩⟩ := by
  simp [OpenStorageReader, sys.PopStorage, hpop, R_FAILED, ResultSuccess,
    ScopedStorageReaderBase.ctor, ScopedStorageReaderBase.Initialize]

/-- The first block of `SendCommandImpl` once its storage `st` is acquired:
the writer holds `st` when the block is left, and only body events were
recorded after the creation. -/
theorem SendCommandImpl.requestBody_acquired (rc : ResultCodes) (os : Os σ) (msg_type : Nat)
    (push_fn : WriterFn σ) (w : World σ) (st : AppletStorage) (s1 : σ)
    (hcreate : os.appletCreateStorage CommandStorageSize w.os = (ResultSuccess, st, s1)) :
    (SendCommandImpl.requestBody rc os msg_type push_fn w).writer.st = st ∧
    World.continuedBy (Event.isWriterBody st)
      ⟨s1, w.trace ++ [Event.appletCreateStorage CommandStorageSize ResultSuccess st]⟩
      (SendCommandImpl.requestBody rc os msg_type push_fn w).world := by
  have h := writerBlock_body rc os (CommandCommonHeader.toBytes ⟨CommandMagic, msg_type⟩)
    (some (push_fn, Event.push_fn none)) st
    ⟨s1, w.trace ++ [Event.appletCreateStorage CommandStorageSize ResultSuccess st]⟩
    (by intro f e he; cases he; rfl)
  simp only [SendCommandImpl.requestBody, OpenStorageWriter_success os w st s1 hcreate]
  simpa [R_FAILED, ResultSuccess] using h

/-- The second block of `ReceiveCommandImpl` once its storage `st` is
acquired. -/
theorem ReceiveCommandImpl.replyBody_writer_acquired (rc : ResultCodes) (os : Os σ)
    (push_fn : Nat → WriterFn σ) (msg_type : Nat) (hdr : CommandCommonHeader) (w : World σ)
    (st : AppletStorage) (s1 : σ)
    (hcreate : os.appletCreateStorage CommandStorageSize w.os = (ResultSuccess, st, s1)) :
    (ReceiveCommandImpl.replyBody rc os push_fn msg_type hdr w).writer.st = st ∧
    World.continuedBy (Event.isWriterBody st)
      ⟨s1, w.trace ++ [Event.appletCreateStorage CommandStorageSize ResultSuccess st]⟩
      (ReceiveCommandImpl.replyBody rc os push_fn msg_type hdr w).world := by
  simp only [ReceiveCommandImpl.replyBody, OpenStorageWriter_success os w st s1 hcreate]
  by_cases hv : R_SUCCEEDED hdr.val = true
  · have h := writerBlock_body rc os hdr.toBytes
      (some (push_fn msg_type, Event.push_fn (some msg_type))) st
      ⟨s1, w.trace ++ [Event.appletCreateStorage CommandStorageSize ResultSuccess st]⟩
      (by intro f e he; cases he; rfl)
    simpa [R_FAILED, ResultSuccess, hv] using h
  · have h := writerBlock_body rc os hdr.toBytes none st
      ⟨s1, w.trace ++ [Event.appletCreateStorage CommandStorageSize ResultSuccess st]⟩
      (by intro f e he; cases he)
    simpa [R_FAILED, ResultSuccess, hv] using h

end dmi.impl

namespace dmi.impl

variable {σ : Type}

/-- Leaving a writer's block stops the process only with the failing result
of the publication, which is then the last event. -/
theorem leaveWriterScope_aborted (os : Os σ) (b : WriterStep σ ScopedStorageWriterBase)
    (a : Result) (h : (leaveWriterScope os b).1 = Outcome.aborted a) :
    R_FAILED a = true ∧
    (leaveWriterScope os b).2.trace.getLast? = some (Event.PushStorage b.writer.st a) := by
  rw [leaveWriterScope_eq] at h ⊢
  by_cases hp : R_FAILED (os.PushStorageFn b.writer.st b.world.os).1 = true
  · rw [if_pos hp] at h ⊢
    cases h
    exact ⟨hp, by simp⟩
  · rw [if_neg hp] at h
    cases h

/-- Leaving a writer's block returns the result of the block when the
publication succeeds. -/
theorem leaveWriterScope_returned (os : Os σ) (b : WriterStep σ ScopedStorageWriterBase)
    (h : R_FAILED (os.PushStorageFn b.writer.st b.world.os).1 = false) :
    (leaveWriterScope os b).1 = Outcome.returned b.rc := by
  rw [leaveWriterScope_eq]
  simp [h]

/-- C17 (amended): `SendCommandImpl` and `ReceiveCommandImpl` return a
`Result` to their caller on every path but one. The process is stopped
(`Outcome.aborted a`) only by the assertion in the destructor of a writer:
then `a` is a failing result and the last thing that happened is the
publication `PushStorage` of the writer's storage returning `a`. When the
publication primitive never fails, both functions return a `Result`, whatever
the other primitives and the injected functions do. -/
theorem C17_only_failed_publication_is_fatal (rc : ResultCodes) (os : Os σ) (msg_type : Nat)
    (push_fn : WriterFn σ) (pop_fn : ReaderFn σ)
    (recv_pop_fn : Nat → ReaderFn σ) (recv_push_fn : Nat → WriterFn σ) (w : World σ) :
    (∀ a, (SendCommandImpl rc os msg_type push_fn pop_fn w).1 = Outcome.aborted a →
      R_FAILED a = true ∧
      ∃ st, (SendCommandImpl rc os msg_type push_fn pop_fn w).2.trace.getLast? =
        some (Event.PushStorage st a)) ∧
    (∀ a, (ReceiveCommandImpl rc os recv_pop_fn recv_push_fn w).1 = Outcome.aborted a →
      R_FAILED a = true ∧
      ∃ st, (ReceiveCommandImpl rc os recv_pop_fn recv_push_fn w).2.trace.getLast? =
        some (Event.PushStorage st a)) ∧
    ((∀ st s, R_FAILED (os.PushStorageFn st s).1 = false) →
      (∃ r, (SendCommandImpl rc os msg_type push_fn pop_fn w).1 = Outcome.returned r) ∧
      (∃ r, (ReceiveCommandImpl rc os recv_pop_fn recv_push_fn w).1 = Outcome.returned r)) := by
  refine ⟨?_, ?_, ?_⟩
  · intro a h
    have hl := leaveWriterScope_aborted os (SendCommandImpl.requestBody rc os msg_type push_fn w)
    unfold SendCommandImpl at h ⊢
    unfold SendCommandImpl.request at h ⊢
    generalize leaveWriterScope os (SendCommandImpl.requestBody rc os msg_type push_fn w) = l
      at h hl ⊢
    rcases l with ⟨o, w1⟩
    cases o with
    | aborted x =>
      cases h
      exact ⟨(hl a rfl).1, _, (hl a rfl).2⟩
    | returned r =>
      by_cases hr : R_FAILED r = true
      · simp [hr] at h
      · simp [hr, SendCommandImpl.reply] at h
  · intro a h
    unfold ReceiveCommandImpl at h ⊢
    generalize ReceiveCommandImpl.read rc os recv_pop_fn w = r at h ⊢
    rcases r with ⟨early, mt, hdr, rd, w1⟩
    cases early with
    | some e => simp at h
    | none =>
      have hl := leaveWriterScope_aborted os
        (ReceiveCommandImpl.replyBody rc os recv_push_fn mt hdr w1) a h
      exact ⟨hl.1, _, hl.2⟩
  · intro hp
    constructor
    · have hl := leaveWriterScope_returned os
        (SendCommandImpl.requestBody rc os msg_type push_fn w) (hp _ _)
      unfold SendCommandImpl SendCommandImpl.request
      generalize leaveWriterScope os (SendCommandImpl.requestBody rc os msg_type push_fn w) = l
        at hl ⊢
      rcases l with ⟨o, w1⟩
      simp only at hl
      subst hl
      by_cases hr : R_FAILED (SendCommandImpl.requestBody rc os msg_type push_fn w).rc = true
      · exact ⟨(SendCommandImpl.requestBody rc os msg_type push_fn w).rc, by simp [hr]⟩
      · exact ⟨(SendCommandImpl.replyBody rc os pop_fn w1).rc,
          by simp [hr, SendCommandImpl.reply]⟩
    · unfold ReceiveCommandImpl
      generalize ReceiveCommandImpl.read rc os recv_pop_fn w = r
      rcases r with ⟨early, mt, hdr, rd, w1⟩
      cases early with
      | some e => exact ⟨e, rfl⟩
      | none =>
        exact ⟨_, leaveWriterScope_returned os
          (ReceiveCommandImpl.replyBody rc os recv_push_fn mt hdr w1) (hp _ _)⟩

/-- C17 (counterexample): on the storage model with a failing publication,
with every other primitive and the injected functions succeeding,
`SendCommandImpl` and `ReceiveCommandImpl` stop the process with the failing
code instead of returning a `Result`. -/
theorem C17_failed_publication_aborts :
    (SendCommandImpl sampleCodes (faultyOs ⟨0, fun _ => 0, 0x1234⟩) 0
      (WriterFn.ret ResultSuccess) (ReaderFn.ret ResultSuccess)
      (inbound ⟨CommandMagic, 0⟩)).1 = Outcome.aborted 0x1234 ∧
    (ReceiveCommandImpl sampleCodes (faultyOs ⟨0, fun _ => 0, 0x1234⟩)
      (fun _ => ReaderFn.ret ResultSuccess) (fun _ => WriterFn.ret ResultSuccess)
      (inbound ⟨CommandMagic, 2⟩)).1 = Outcome.aborted 0x1234 := by
  decide

end dmi.impl

namespace dmi.impl

variable {σ : Type}

/-- A trace continued by events of one kind, as a list of those events. -/
theorem continuedBy_body {p : Event → Bool} {w w1 : World σ} (h : w.continuedBy p w1) :
    ∃ body : List Event, w1.trace = w.trace ++ body ∧ body.all p = true := by
  refine ⟨w1.trace.drop w.trace.length, ?_, h.2⟩
  have ht := List.take_append_drop w.trace.length w1.trace
  rw [h.1] at ht
  exact ht.symm

/-- The second block of `SendCommandImpl` once its storage `st` is received:
the reader holds `st` when the block is left, and only body events were
recorded after the receipt. -/
theorem SendCommandImpl.replyBody_reader_acquired (rc : ResultCodes) (os : Os σ)
    (pop_fn : ReaderFn σ) (w : World σ) (st : AppletStorage) (s1 : σ)
    (hpop : os.PopStorageFn true w.os = (ResultSuccess, st, s1)) :
    (SendCommandImpl.replyBody rc os pop_fn w).reader.st = st ∧
    World.continuedBy (Event.isReaderBody st)
      ⟨s1, w.trace ++ [Event.PopStorage true ResultSuccess st]⟩
      (SendCommandImpl.replyBody rc os pop_fn w).world := by
  have hp := ScopedStorageReaderBase.PopData_body rc os ⟨st, 0⟩ CommandCommonHeader.sizeof
    ⟨s1, w.trace ++ [Event.PopStorage true ResultSuccess st]⟩
  have hpst := ScopedStorageReaderBase.PopData_st rc os ⟨st, 0⟩ CommandCommonHeader.sizeof
    ⟨s1, w.trace ++ [Event.PopStorage true ResultSuccess st]⟩
  simp only [SendCommandImpl.replyBody, OpenStorageReader_success os true w st s1 hpop,
    ScopedStorageReaderBase.Pop]
  have h0 : R_FAILED ResultSuccess = false := rfl
  simp only [h0, Bool.false_eq_true, if_false]
  split
  · exact ⟨hpst, hp⟩
  · split
    · exact ⟨hpst, hp⟩
    · split
      · exact ⟨hpst, hp⟩
      · refine ⟨by rw [ReaderFn.run_reader_st, hpst], ?_⟩
        have hlog :
            (ScopedStorageReaderBase.PopData rc os ⟨st, 0⟩ CommandCommonHeader.sizeof
              ⟨s1, w.trace ++ [Event.PopStorage true ResultSuccess st]⟩).world.continuedBy
            (Event.isReaderBody st)
            ((ScopedStorageReaderBase.PopData rc os ⟨st, 0⟩ CommandCommonHeader.sizeof
              ⟨s1, w.trace ++ [Event.PopStorage true ResultSuccess st]⟩).world.log
              (Event.pop_fn none)) :=
          World.continuedBy_event _ _ _ _ rfl
        have h := ReaderFn.run_reader_body rc os pop_fn
          (ScopedStorageReaderBase.PopData rc os ⟨st, 0⟩ CommandCommonHeader.sizeof
            ⟨s1, w.trace ++ [Event.PopStorage true ResultSuccess st]⟩).reader
          ((ScopedStorageReaderBase.PopData rc os ⟨st, 0⟩ CommandCommonHeader.sizeof
            ⟨s1, w.trace ++ [Event.PopStorage true ResultSuccess st]⟩).world.log
            (Event.pop_fn none))
        rw [hpst] at h
        exact World.continuedBy_trans hp (World.continuedBy_trans hlog h)

/-- The first block of `ReceiveCommandImpl` once its storage `st` is
received. -/
theorem ReceiveCommandImpl.readBody_acquired (rc : ResultCodes) (os : Os σ)
    (pop_fn : Nat → ReaderFn σ) (w : World σ) (st : AppletStorage) (s1 : σ)
    (hpop : os.PopStorageFn false w.os = (ResultSuccess, st, s1)) :
    (ReceiveCommandImpl.readBody rc os pop_fn w).reader.st = st ∧
    World.continuedBy (Event.isReaderBody st)
      ⟨s1, w.trace ++ [Event.PopStorage false ResultSuccess st]⟩
      (ReceiveCommandImpl.readBody rc os pop_fn w).world := by
  have hp := ScopedStorageReaderBase.PopData_body rc os ⟨st, 0⟩ CommandCommonHeader.sizeof
    ⟨s1, w.trace ++ [Event.PopStorage false ResultSuccess st]⟩
  have hpst := ScopedStorageReaderBase.PopData_st rc os ⟨st, 0⟩ CommandCommonHeader.sizeof
    ⟨s1, w.trace ++ [Event.PopStorage false ResultSuccess st]⟩
  simp only [ReceiveCommandImpl.readBody, OpenStorageReader_success os false w st s1 hpop,
    ScopedStorageReaderBase.Pop]
  have h0 : R_FAILED ResultSuccess = false := rfl
  simp only [h0, Bool.false_eq_true, if_false]
  split
  · exact ⟨hpst, hp⟩
  · split
    · exact ⟨hpst, hp⟩
    · refine ⟨by rw [ReaderFn.run_reader_st, hpst], ?_⟩
      have hlog :
          (ScopedStorageReaderBase.PopData rc os ⟨st, 0⟩ CommandCommonHeader.sizeof
            ⟨s1, w.trace ++ [Event.PopStorage false ResultSuccess st]⟩).world.continuedBy
          (Event.isReaderBody st)
          ((ScopedStorageReaderBase.PopData rc os ⟨st, 0⟩ CommandCommonHeader.sizeof
            ⟨s1, w.trace ++ [Event.PopStorage false ResultSuccess st]⟩).world.log
            (Event.pop_fn (some (CommandCommonHeader.ofBytes
              (ScopedStorageReaderBase.PopData rc os ⟨st, 0⟩ CommandCommonHeader.sizeof
                ⟨s1, w.trace ++ [Event.PopStorage false ResultSuccess st]⟩).out).val))) :=
        World.continuedBy_event _ _ _ _ rfl
      have h := ReaderFn.run_reader_body rc os
        (pop_fn (CommandCommonHeader.ofBytes
          (ScopedStorageReaderBase.PopData rc os ⟨st, 0⟩ CommandCommonHeader.sizeof
            ⟨s1, w.trace ++ [Event.PopStorage false ResultSuccess st]⟩).out).val)
        (ScopedStorageReaderBase.PopData rc os ⟨st, 0⟩ CommandCommonHeader.sizeof
          ⟨s1, w.trace ++ [Event.PopStorage false ResultSuccess st]⟩).reader
        ((ScopedStorageReaderBase.PopData rc os ⟨st, 0⟩ CommandCommonHeader.sizeof
          ⟨s1, w.trace ++ [Event.PopStorage false ResultSuccess st]⟩).world.log
          (Event.pop_fn (some (CommandCommonHeader.ofBytes
            (ScopedStorageReaderBase.PopData rc os ⟨st, 0⟩ CommandCommonHeader.sizeof
              ⟨s1, w.trace ++ [Event.PopStorage false ResultSuccess st]⟩).out).val)))
      rw [hpst] at h
      exact World.continuedBy_trans hp (World.continuedBy_trans hlog h)

end dmi.impl

namespace dmi.impl

variable {σ : Type}

/-- Leaving a writer's block whose writer holds `st`, after a body of events
recorded since `w0`: the publication of `st` comes once, after the body; the
release of `st` follows it when the publication succeeded, and the process
stops with no release when it failed. -/
theorem leaveWriterScope_acquired (os : Os σ) (b : WriterStep σ ScopedStorageWriterBase)
    (st : AppletStorage) (w0 : World σ) (hst : b.writer.st = st)
    (hbody : w0.continuedBy (Event.isWriterBody st) b.world) :
    ∃ (body : List Event) (p : Result),
      (leaveWriterScope os b).2.trace =
        w0.trace ++ body ++
          Event.PushStorage st p :: (if R_FAILED p then [] else [Event.appletStorageClose st]) ∧
      body.all (Event.isWriterBody st) = true ∧
      (leaveWriterScope os b).1 =
        if R_FAILED p then Outcome.aborted p else Outcome.returned b.rc := by
  subst hst
  obtain ⟨body, hb, hall⟩ := continuedBy_body hbody
  refine ⟨body, (os.PushStorageFn b.writer.st b.world.os).1, ?_, hall, ?_⟩
  · rw [leaveWriterScope_eq]
    by_cases hp : R_FAILED (os.PushStorageFn b.writer.st b.world.os).1 = true
    · simp [hp, hb]
    · simp [hp, hb]
  · rw [leaveWriterScope_eq]
    by_cases hp : R_FAILED (os.PushStorageFn b.writer.st b.world.os).1 = true
    · simp [hp]
    · simp [hp]

/-- C18 (amended): scoped publication, per scope of `SendCommandImpl` and
`ReceiveCommandImpl` (the first is `request` then `reply`, the second `read`
then `reply`). When the writer's storage `st` was acquired, what the scope
records after the creation is a body of writes to `st` and of the invocation
of the encoder, then one publication of `st`, after the last write, whatever
the header write and the encoder returned; the local handle is released once,
right after, when the publication succeeded, and never when it failed: then
the process stops. When a reader's storage `st` was received, the scope
records a body of reads from `st` and of the invocation of the decoder, then
one release of `st`, and no publication. -/
theorem C18_scoped_publication_and_release (rc : ResultCodes) (os : Os σ) (msg_type : Nat)
    (push_fn : WriterFn σ) (pop_fn : ReaderFn σ)
    (recv_pop_fn : Nat → ReaderFn σ) (recv_push_fn : Nat → WriterFn σ)
    (recv_msg_type : Nat) (in_out_header : CommandCommonHeader)
    (w : World σ) (st : AppletStorage) (s1 : σ) :
    (os.appletCreateStorage CommandStorageSize w.os = (ResultSuccess, st, s1) →
      (∃ (body : List Event) (p : Result),
        (SendCommandImpl.request rc os msg_type push_fn w).2.trace =
          w.trace ++ Event.appletCreateStorage CommandStorageSize ResultSuccess st :: body ++
            Event.PushStorage st p ::
              (if R_FAILED p then [] else [Event.appletStorageClose st]) ∧
        body.all (Event.isWriterBody st) = true ∧
        (SendCommandImpl.request rc os msg_type push_fn w).1 =
          if R_FAILED p then Outcome.aborted p
          else Outcome.returned (SendCommandImpl.requestBody rc os msg_type push_fn w).rc) ∧
      (∃ (body : List Event) (p : Result),
        (ReceiveCommandImpl.reply rc os recv_push_fn recv_msg_type in_out_header w).2.trace =
          w.trace ++ Event.appletCreateStorage CommandStorageSize ResultSuccess st :: body ++
            Event.PushStorage st p ::
              (if R_FAILED p then [] else [Event.appletStorageClose st]) ∧
        body.all (Event.isWriterBody st) = true ∧
        (ReceiveCommandImpl.reply rc os recv_push_fn recv_msg_type in_out_header w).1 =
          if R_FAILED p then Outcome.aborted p
          else Outcome.returned
            (ReceiveCommandImpl.replyBody rc os recv_push_fn recv_msg_type in_out_header w).rc)) ∧
    (os.PopStorageFn true w.os = (ResultSuccess, st, s1) →
      ∃ body : List Event,
        (SendCommandImpl.reply rc os pop_fn w).2.trace =
          w.trace ++ Event.PopStorage true ResultSuccess st :: body ++
            [Event.appletStorageClose st] ∧
        body.all (Event.isReaderBody st) = true) ∧
    (os.PopStorageFn false w.os = (ResultSuccess, st, s1) →
      ∃ body : List Event,
        (ReceiveCommandImpl.read rc os recv_pop_fn w).world.trace =
          w.trace ++ Event.PopStorage false ResultSuccess st :: body ++
            [Event.appletStorageClose st] ∧
        body.all (Event.isReaderBody st) = true) := by
  refine ⟨?_, ?_, ?_⟩
  · intro hcreate
    constructor
    · obtain ⟨hst, hbody⟩ :=
        SendCommandImpl.requestBody_acquired rc os msg_type push_fn w st s1 hcreate
      obtain ⟨body, p, ht, hall, ho⟩ := leaveWriterScope_acquired os _ st _ hst hbody
      exact ⟨body, p, by simpa [SendCommandImpl.request] using ht, hall, ho⟩
    · obtain ⟨hst, hbody⟩ := ReceiveCommandImpl.replyBody_writer_acquired rc os recv_push_fn
        recv_msg_type in_out_header w st s1 hcreate
      obtain ⟨body, p, ht, hall, ho⟩ := leaveWriterScope_acquired os _ st _ hst hbody
      exact ⟨body, p, by simpa [ReceiveCommandImpl.reply] using ht, hall, ho⟩
  · intro hpop
    obtain ⟨hst, hbody⟩ := SendCommandImpl.replyBody_reader_acquired rc os pop_fn w st s1 hpop
    obtain ⟨body, hb, hall⟩ := continuedBy_body hbody
    refine ⟨body, ?_, hall⟩
    simp [SendCommandImpl.reply, ScopedStorageReaderBase.dtor, sys.appletStorageClose,
      World.log, hb, hst]
  · intro hpop
    obtain ⟨hst, hbody⟩ := ReceiveCommandImpl.readBody_acquired rc os recv_pop_fn w st s1 hpop
    obtain ⟨body, hb, hall⟩ := continuedBy_body hbody
    refine ⟨body, ?_, hall⟩
    simp [ReceiveCommandImpl.read, ScopedStorageReaderBase.dtor, sys.appletStorageClose,
      World.log, hb, hst]

end dmi.impl

namespace dmi.impl

/-- C18 (witness): on the storage model, where the creation in the world
`inbound` gives the storage `2`, the writer's scope of `SendCommandImpl`
records the creation, a body of writes to `2`, and the publication of `2`
followed by its release when the publication succeeded. -/
theorem C18_scoped_publication_and_release_witness :
    memOs.appletCreateStorage CommandStorageSize (inbound ⟨CommandMagic, 0⟩).os =
      (ResultSuccess, 2,
        (memOs.appletCreateStorage CommandStorageSize (inbound ⟨CommandMagic, 0⟩).os).2.2) ∧
    ∃ (body : List Event) (p : Result),
      (SendCommandImpl.request sampleCodes memOs 0 (WriterFn.ret ResultSuccess)
        (inbound ⟨CommandMagic, 0⟩)).2.trace =
        (inbound ⟨CommandMagic, 0⟩).trace ++
          Event.appletCreateStorage CommandStorageSize ResultSuccess 2 :: body ++
          Event.PushStorage 2 p :: (if R_FAILED p then [] else [Event.appletStorageClose 2]) ∧
      body.all (Event.isWriterBody 2) = true ∧
      (SendCommandImpl.request sampleCodes memOs 0 (WriterFn.ret ResultSuccess)
        (inbound ⟨CommandMagic, 0⟩)).1 =
        if R_FAILED p then Outcome.aborted p
        else Outcome.returned (SendCommandImpl.requestBody sampleCodes memOs 0
          (WriterFn.ret ResultSuccess) (inbound ⟨CommandMagic, 0⟩)).rc :=
  ⟨by decide,
    ((C18_scoped_publication_and_release sampleCodes memOs 0 (WriterFn.ret ResultSuccess)
      (ReaderFn.ret ResultSuccess) (fun _ => ReaderFn.ret ResultSuccess)
      (fun _ => WriterFn.ret ResultSuccess) 0 ⟨CommandMagic, 0⟩ (inbound ⟨CommandMagic, 0⟩) 2
      (memOs.appletCreateStorage CommandStorageSize (inbound ⟨CommandMagic, 0⟩).os).2.2).1
      (by decide)).1⟩

/-- C18 (counterexample): on the storage model with a failing publication,
`SendCommandImpl` acquires the storage `2`, writes the header to it, and its
publication fails: the storage is never released, nothing reaches the peer,
and the process stops. -/
theorem C18_failed_publication_never_releases :
    Event.appletCreateStorage CommandStorageSize ResultSuccess 2 ∈
      (SendCommandImpl sampleCodes (faultyOs ⟨0, fun _ => 0, 0x1234⟩) 0
        (WriterFn.ret ResultSuccess) (ReaderFn.ret ResultSuccess)
        (inbound ⟨CommandMagic, 0⟩)).2.trace ∧
    (SendCommandImpl sampleCodes (faultyOs ⟨0, fun _ => 0, 0x1234⟩) 0
      (WriterFn.ret ResultSuccess) (ReaderFn.ret ResultSuccess)
      (inbound ⟨CommandMagic, 0⟩)).2.trace.count (Event.appletStorageClose 2) = 0 ∧
    (SendCommandImpl sampleCodes (faultyOs ⟨0, fun _ => 0, 0x1234⟩) 0
      (WriterFn.ret ResultSuccess) (ReaderFn.ret ResultSuccess)
      (inbound ⟨CommandMagic, 0⟩)).2.os.outbox = [] ∧
    (SendCommandImpl sampleCodes (faultyOs ⟨0, fun _ => 0, 0x1234⟩) 0
      (WriterFn.ret ResultSuccess) (ReaderFn.ret ResultSuccess)
      (inbound ⟨CommandMagic, 0⟩)).2.trace.getLast? = some (Event.PushStorage 2 0x1234) := by
  decide

end dmi.impl

namespace ul.menu.smi

open dmi dmi.impl

variable {σ : Type}

/-- Every command function is `SendCommand` on its message type, its first
lambda and `return ResultSuccess`. -/
theorem Command.call_eq (rc : ResultCodes) (os : Os σ) (sm : SystemMessage) (c : Command)
    (w : World σ) :
    c.call rc os sm w = SendCommandImpl rc os (c.msg sm) c.push_fn returnSuccess w := by
  cases c <;> rfl

/-- The first lambda of every command returns `ResultSuccess`, whatever its
write returned. -/
theorem Command.push_fn_rc (rc : ResultCodes) (os : Os σ) (c : Command)
    (writer : ScopedStorageWriterBase) (w : World σ) :
    (c.push_fn.run rc os writer w).rc = ResultSuccess := by
  cases c <;> rfl

/-- C19 (amended): every command function of `smi_Commands` is the generic
send on its own message type, its encoder and the `return ResultSuccess`
decoder. The encoder is one payload write whose result is discarded: it
returns `ResultSuccess` whatever `Push`/`PushData` returned, and leaves the
writer and the world as that one write left them. So once the buffer is
created and the header written, the request phase has the result
`ResultSuccess`, also when the payload write failed, and the call is decided
by the publication at the exit of the writer's scope alone: when the
publication fails the process stops with its result, otherwise the call is
the reply phase, whose result it returns. -/
theorem C19_payload_write_result_discarded (rc : ResultCodes) (os : Os σ) (sm : SystemMessage)
    (c : Command) (w : World σ) :
    c.call rc os sm w = SendCommandImpl rc os (c.msg sm) c.push_fn returnSuccess w ∧
    (∃ (data : List Byte) (size : Nat),
      ∀ (writer : ScopedStorageWriterBase) (w1 : World σ),
        c.push_fn.run rc os writer w1 =
          ⟨ResultSuccess, (writer.PushData rc os data size w1).writer,
            (writer.PushData rc os data size w1).world⟩) ∧
    (R_FAILED (OpenStorageWriter os ScopedStorageWriterBase.ctor w).rc = false →
      R_FAILED ((OpenStorageWriter os ScopedStorageWriterBase.ctor w).writer.Push rc os
        (CommandCommonHeader.toBytes ⟨CommandMagic, c.msg sm⟩)
        (OpenStorageWriter os ScopedStorageWriterBase.ctor w).world).rc = false →
      (SendCommandImpl.requestBody rc os (c.msg sm) c.push_fn w).rc = ResultSuccess ∧
      c.call rc os sm w =
        if R_FAILED (os.PushStorageFn
            (SendCommandImpl.requestBody rc os (c.msg sm) c.push_fn w).writer.st
            (SendCommandImpl.requestBody rc os (c.msg sm) c.push_fn w).world.os).1 then
          (Outcome.aborted (os.PushStorageFn
              (SendCommandImpl.requestBody rc os (c.msg sm) c.push_fn w).writer.st
              (SendCommandImpl.requestBody rc os (c.msg sm) c.push_fn w).world.os).1,
            (SendCommandImpl.request rc os (c.msg sm) c.push_fn w).2)
        else
          SendCommandImpl.reply rc os returnSuccess
            (SendCommandImpl.request rc os (c.msg sm) c.push_fn w).2) := by
  refine ⟨Command.call_eq rc os sm c w, ?_, ?_⟩
  · cases c with
    | SetSelectedUser user_id =>
      exact ⟨leBytes 8 user_id.1 ++ leBytes 8 user_id.2, 16, fun _ _ => rfl⟩
    | LaunchApplication app_id => exact ⟨leBytes 8 app_id, 8, fun _ _ => rfl⟩
    | LaunchHomebrewLibraryApplet Create nro_path nro_argv =>
      exact ⟨Create nro_path nro_argv false [], (Create nro_path nro_argv false []).length,
        fun _ _ => rfl⟩
    | LaunchHomebrewApplication Create nro_path nro_argv =>
      exact ⟨Create nro_path nro_argv false [], (Create nro_path nro_argv false []).length,
        fun _ _ => rfl⟩
    | OpenWebPage url => exact ⟨url, 500, fun _ _ => rfl⟩
    | SetHomebrewTakeoverApplication app_id => exact ⟨leBytes 8 app_id, 8, fun _ _ => rfl⟩
    | UpdateMenuPath menu_path => exact ⟨menu_path, FS_MAX_PATH, fun _ _ => rfl⟩
    | UpdateMenuIndex menu_index => exact ⟨leBytes 4 menu_index, 4, fun _ _ => rfl⟩
  · intro ho hp
    have hb : (SendCommandImpl.requestBody rc os (c.msg sm) c.push_fn w).rc = ResultSuccess := by
      simp only [SendCommandImpl.requestBody, ho, hp, Bool.false_eq_true, if_false]
      exact Command.push_fn_rc rc os c _ _
    refine ⟨hb, ?_⟩
    rw [Command.call_eq]
    have h0 : R_FAILED ResultSuccess = false := rfl
    unfold SendCommandImpl SendCommandImpl.request
    rw [leaveWriterScope_eq]
    by_cases hpub : R_FAILED (os.PushStorageFn
        (SendCommandImpl.requestBody rc os (c.msg sm) c.push_fn w).writer.st
        (SendCommandImpl.requestBody rc os (c.msg sm) c.push_fn w).world.os).1 = true
    · simp only [hpub, if_true]
    · simp only [hpub, hb, h0, Bool.false_eq_true, if_false]

/-- C19 (witness): on the storage model where the write of the payload (at
offset `8`) fails with `0x1234`, the buffer is created, the header written
and the storage published, and the call of `LaunchApplication` is the reply
phase after its request phase. -/
theorem C19_payload_write_result_discarded_witness :
    LaunchApplication sampleCodes (faultyOs ⟨0, fun o => if o = 8 then 0x1234 else 0, 0⟩)
        sampleMessages 0x0100000000001000 (inbound ⟨CommandMagic, 0⟩) =
      SendCommandImpl.reply sampleCodes
        (faultyOs ⟨0, fun o => if o = 8 then 0x1234 else 0, 0⟩) returnSuccess
        (SendCommandImpl.request sampleCodes
          (faultyOs ⟨0, fun o => if o = 8 then 0x1234 else 0, 0⟩)
          sampleMessages.LaunchApplication
          (LaunchApplication.push_fn 0x0100000000001000) (inbound ⟨CommandMagic, 0⟩)).2 :=
  (((C19_payload_write_result_discarded sampleCodes
    (faultyOs ⟨0, fun o => if o = 8 then 0x1234 else 0, 0⟩) sampleMessages
    (Command.LaunchApplication 0x0100000000001000) (inbound ⟨CommandMagic, 0⟩)).2.2
    (by decide) (by decide)).2).trans (if_neg (by decide))

/-- C19 (counterexample): on the storage model where the write of the
payload (at offset `8`) fails with `0x1234`, `LaunchApplication` does not
return `0x1234`: the failing write is recorded, the storage is published, the
reply phase runs, and the call returns `ResultSuccess`. -/
theorem C19_failed_payload_write_continues :
    Event.appletStorageWrite 2 8 (leBytes 8 0x0100000000001000) 8 0x1234 ∈
      (LaunchApplication sampleCodes (faultyOs ⟨0, fun o => if o = 8 then 0x1234 else 0, 0⟩)
        sampleMessages 0x0100000000001000 (inbound ⟨CommandMagic, 0⟩)).2.trace ∧
    Event.PopStorage true ResultSuccess 1 ∈
      (LaunchApplication sampleCodes (faultyOs ⟨0, fun o => if o = 8 then 0x1234 else 0, 0⟩)
        sampleMessages 0x0100000000001000 (inbound ⟨CommandMagic, 0⟩)).2.trace ∧
    (LaunchApplication sampleCodes (faultyOs ⟨0, fun o => if o = 8 then 0x1234 else 0, 0⟩)
      sampleMessages 0x0100000000001000 (inbound ⟨CommandMagic, 0⟩)).1 =
      Outcome.returned ResultSuccess := by
  decide

end ul.menu.smi

namespace ul.cfg

open ul.system.la

/-- With no entry of the queried id, the loop of `GetEntry` falls through to
the defaults. -/
theorem Config.GetEntry.loop_absent (T : TypeArg) (id : ConfigEntryId)
    (entries : List ConfigEntry) (h : ∀ entry ∈ entries, entry.header.id ≠ id) :
    Config.GetEntry.loop T id entries = Config.GetEntry.defaults T id := by
  induction entries with
  | nil => rfl
  | cons entry rest ih =>
    have h1 : entry.header.id ≠ id := h entry (List.mem_cons_self _ _)
    have h2 : ∀ e ∈ rest, e.header.id ≠ id := fun e he => h e (List.mem_cons_of_mem _ he)
    simp only [Config.GetEntry.loop, h1, if_false]
    exact ih h2

/-- C20: for every `Config` with no entry of the queried id, `GetEntry<T>`
returns `true` with the default when `T` is the type of the id
(`MenuTakeoverProgramId`: `u64` `0x010000000000100B`;
`HomebrewAppletTakeoverProgramId`: `u64` `0x0100000000001001`;
`HomebrewApplicationTakeoverApplicationId`: `u64` `0`; `ViewerUsbEnabled`:
`bool` `false`; `ActiveThemeName`: the empty string) and `false` for any
other `T`; and `GetAppletIdForProgramId` maps the two default take-over
program ids to `AppletId_LibraryAppletShop` and
`AppletId_LibraryAppletAuth`. -/
theorem C20_config_defaults (cfg : Config) (id : ConfigEntryId) (T : TypeArg)
    (h : ∀ entry ∈ cfg.entries, entry.header.id ≠ id) :
    (id = ConfigEntryId.MenuTakeoverProgramId →
      cfg.GetEntry T id =
        if T = TypeArg.u64 then some (Value.u64 0x010000000000100B) else none) ∧
    (id = ConfigEntryId.HomebrewAppletTakeoverProgramId →
      cfg.GetEntry T id =
        if T = TypeArg.u64 then some (Value.u64 0x0100000000001001) else none) ∧
    (id = ConfigEntryId.HomebrewApplicationTakeoverApplicationId →
      cfg.GetEntry T id = if T = TypeArg.u64 then some (Value.u64 0) else none) ∧
    (id = ConfigEntryId.ViewerUsbEnabled →
      cfg.GetEntry T id = if T = TypeArg.bool then some (Value.bool false) else none) ∧
    (id = ConfigEntryId.ActiveThemeName →
      cfg.GetEntry T id = if T = TypeArg.string then some (Value.string []) else none) ∧
    GetAppletIdForProgramId 0x010000000000100B = AppletId_LibraryAppletShop ∧
    GetAppletIdForProgramId 0x0100000000001001 = AppletId_LibraryAppletAuth := by
  have hl : cfg.GetEntry T id = Config.GetEntry.defaults T id :=
    Config.GetEntry.loop_absent T id cfg.entries h
  refine ⟨?_, ?_, ?_, ?_, ?_, by decide, by decide⟩ <;>
    (intro hid; rw [hl, hid]; rfl)

/-- C20 (witness): a `Config` whose one entry is of `ViewerUsbEnabled` has no
entry of `MenuTakeoverProgramId`, and gives the default for it. -/
theorem C20_config_defaults_witness :
    (∀ entry ∈ (Config.mk [⟨⟨ConfigEntryId.ViewerUsbEnabled, ConfigEntryType.Bool, 1, 0⟩,
        true, 0, []⟩]).entries,
      entry.header.id ≠ ConfigEntryId.MenuTakeoverProgramId) ∧
    (Config.mk [⟨⟨ConfigEntryId.ViewerUsbEnabled, ConfigEntryType.Bool, 1, 0⟩,
        true, 0, []⟩]).GetEntry TypeArg.u64 ConfigEntryId.MenuTakeoverProgramId =
      some (Value.u64 0x010000000000100B) :=
  ⟨by decide,
    (C20_config_defaults
      (Config.mk [⟨⟨ConfigEntryId.ViewerUsbEnabled, ConfigEntryType.Bool, 1, 0⟩, true, 0, []⟩])
      ConfigEntryId.MenuTakeoverProgramId TypeArg.u64 (by decide)).1 rfl⟩

end ul.cfg

namespace dmi.impl

variable {σ : Type}

/-! ### The cursor and the wraparound of `size_t` -/

/-- What `PushData` does to the cursor, for every state and every size: it is
left alone when the call fails, and on success it is the `size_t` sum
`(cur_offset + size) mod 2^64`. When the sum does not overflow, a successful
call advances the cursor by `size`. -/
theorem ScopedStorageWriterBase.PushData_cursor (rc : ResultCodes) (os : Os σ)
    (self : ScopedStorageWriterBase) (data : List Byte) (size : Nat) (w : World σ) :
    (R_FAILED (self.PushData rc os data size w).rc = true →
      (self.PushData rc os data size w).writer.cur_offset = self.cur_offset) ∧
    (R_FAILED (self.PushData rc os data size w).rc = false →
      (self.PushData rc os data size w).writer.cur_offset =
        (self.cur_offset + size) % 2 ^ 64 ∨
      (self.PushData rc os data size w).writer.cur_offset = self.cur_offset) ∧
    (self.cur_offset + size < 2 ^ 64 →
      self.cur_offset ≤ (self.PushData rc os data size w).writer.cur_offset) := by
  unfold ScopedStorageWriterBase.PushData
  by_cases hb : (self.cur_offset + size) % 2 ^ 64 ≤ CommandStorageSize
  · rw [if_pos hb]
    dsimp only
    by_cases hf : R_FAILED (sys.appletStorageWrite os self.st self.cur_offset data size w).1
        = true
    · rw [if_pos hf]
      exact ⟨fun _ => rfl, fun _ => Or.inr rfl, fun _ => Nat.le_refl _⟩
    · rw [if_neg hf]
      refine ⟨fun h => ?_, fun _ => Or.inl rfl, fun hlt => ?_⟩
      · have h0 : R_FAILED ResultSuccess = false := rfl
        rw [h0] at h
        cases h
      · show self.cur_offset ≤ (self.cur_offset + size) % 2 ^ 64
        rw [Nat.mod_eq_of_lt hlt]
        exact Nat.le_add_right _ _
  · rw [if_neg hb]
    exact ⟨fun _ => rfl, fun _ => Or.inr rfl, fun _ => Nat.le_refl _⟩

end dmi.impl

namespace ul.system.la

/-- C23: the static applet table carries no program id twice and no applet
id twice; each lookup gives, for every entry, the other component of that
very entry (no entry is shadowed by an earlier one), so for every applet id
of the table the two lookups compose to the identity and the program id
found is not `0`. -/
theorem C23_applet_table_bijection :
    (g_AppletTable.map AppletInfo.program_id).Nodup ∧
    (g_AppletTable.map AppletInfo.applet_id).Nodup ∧
    (∀ info ∈ g_AppletTable,
      GetProgramIdForAppletId info.applet_id = info.program_id ∧
      GetAppletIdForProgramId info.program_id = info.applet_id ∧
      GetAppletIdForProgramId (GetProgramIdForAppletId info.applet_id) = info.applet_id ∧
      GetProgramIdForAppletId info.applet_id ≠ 0) := by
  decide

end ul.system.la

namespace dmi.impl

variable {σ : Type}

/-! ### The reply of the responder -/

/-- The first block of `ReceiveCommandImpl`, once the request storage `st` is
received, is left by a `return` exactly when the header cannot be read or its
magic is not `CommandMagic`. -/
theorem ReceiveCommandImpl.read_early_iff (rc : ResultCodes) (os : Os σ)
    (pop_fn : Nat → ReaderFn σ) (w : World σ) (st : AppletStorage) (s1 : σ)
    (hpop : os.PopStorageFn false w.os = (ResultSuccess, st, s1)) :
    (ReceiveCommandImpl.read rc os pop_fn w).early = none ↔
      (R_FAILED (ScopedStorageReaderBase.Pop rc os ⟨st, 0⟩ CommandCommonHeader.sizeof
        ⟨s1, w.trace ++ [Event.PopStorage false ResultSuccess st]⟩).rc = false ∧
      (CommandCommonHeader.ofBytes (ScopedStorageReaderBase.Pop rc os ⟨st, 0⟩
        CommandCommonHeader.sizeof
        ⟨s1, w.trace ++ [Event.PopStorage false ResultSuccess st]⟩).out).magic =
        CommandMagic) := by
  have h0 : R_FAILED ResultSuccess = false := rfl
  simp only [ReceiveCommandImpl.read, ReceiveCommandImpl.readBody,
    OpenStorageReader_success os false w st s1 hpop, h0, Bool.false_eq_true, if_false]
  by_cases hf : R_FAILED (ScopedStorageReaderBase.Pop rc os ⟨st, 0⟩ CommandCommonHeader.sizeof
      ⟨s1, w.trace ++ [Event.PopStorage false ResultSuccess st]⟩).rc = true
  · simp [hf]
  · by_cases hm : (CommandCommonHeader.ofBytes (ScopedStorageReaderBase.Pop rc os ⟨st, 0⟩
        CommandCommonHeader.sizeof
        ⟨s1, w.trace ++ [Event.PopStorage false ResultSuccess st]⟩).out).magic = CommandMagic
    · simp [hf, hm]
    · simp [hf, hm]

/-- A call of `PushData` that passes the bounds test records exactly one
event, the write at the cursor, whatever the write returns. -/
theorem ScopedStorageWriterBase.PushData_write_event (rc : ResultCodes) (os : Os σ)
    (self : ScopedStorageWriterBase) (data : List Byte) (size : Nat) (w : World σ)
    (hb : (self.cur_offset + size) % 2 ^ 64 ≤ CommandStorageSize) :
    (self.PushData rc os data size w).world.trace =
      w.trace ++ [Event.appletStorageWrite self.st self.cur_offset data size
        (os.appletStorageWrite self.st self.cur_offset data size w.os).1] := by
  unfold ScopedStorageWriterBase.PushData
  rw [if_pos hb]
  dsimp only
  split <;> rfl

/-- What a writer's block records after the push of the header: the
invocation of the injected function, when it is reached, and its writes. -/
theorem writerBlock_tail (rc : ResultCodes) (os : Os σ) (hdr : List Byte)
    (fn : Option (WriterFn σ × Event)) (st : AppletStorage) (w0 : World σ)
    (hfn : ∀ f e, fn = some (f, e) → e.isWriterBody st = true) :
    (let p := ScopedStorageWriterBase.Push rc os ⟨st, 0⟩ hdr w0
     let b := if R_FAILED p.rc then p
       else match fn with
         | some (f, e) => f.run rc os p.writer (p.world.log e)
         | none => p
     p.world.continuedBy (Event.isWriterBody st) b.world) := by
  dsimp only
  have hpst := ScopedStorageWriterBase.PushData_st rc os ⟨st, 0⟩ hdr hdr.length w0
  unfold ScopedStorageWriterBase.Push
  split
  · exact World.continuedBy_refl _ _
  · cases fn with
    | none => exact World.continuedBy_refl _ _
    | some fe =>
      obtain ⟨f, e⟩ := fe
      dsimp only
      have hlog :
          (ScopedStorageWriterBase.PushData rc os ⟨st, 0⟩ hdr hdr.length w0).world.continuedBy
          (Event.isWriterBody st)
          ((ScopedStorageWriterBase.PushData rc os ⟨st, 0⟩ hdr hdr.length w0).world.log e) :=
        World.continuedBy_event _ _ _ _ (hfn f e rfl)
      have h := WriterFn.run_writer_body rc os f
        (ScopedStorageWriterBase.PushData rc os ⟨st, 0⟩ hdr hdr.length w0).writer
        ((ScopedStorageWriterBase.PushData rc os ⟨st, 0⟩ hdr hdr.length w0).world.log e)
      rw [hpst] at h
      exact World.continuedBy_trans hlog h

/-- The second block of `ReceiveCommandImpl` once its storage `st` is
created: the write of the 8 header bytes at offset `0` of `st` is the first
thing recorded after the creation, whatever it returns, and what follows are
the invocation of the encoder and its writes to `st`. -/
theorem ReceiveCommandImpl.replyBody_header_write (rc : ResultCodes) (os : Os σ)
    (push_fn : Nat → WriterFn σ) (msg_type : Nat) (hdr : CommandCommonHeader) (w : World σ)
    (st : AppletStorage) (s1 : σ)
    (hcreate : os.appletCreateStorage CommandStorageSize w.os = (ResultSuccess, st, s1)) :
    ∃ (r : Result) (rest : List Event),
      (ReceiveCommandImpl.replyBody rc os push_fn msg_type hdr w).world.trace =
        w.trace ++ Event.appletCreateStorage CommandStorageSize ResultSuccess st ::
          Event.appletStorageWrite st 0 hdr.toBytes 8 r :: rest ∧
      rest.all (Event.isWriterBody st) = true := by
  have hlen : hdr.toBytes.length = 8 := CommandCommonHeader.length_toBytes hdr
  have hb : ((⟨st, 0⟩ : ScopedStorageWriterBase).cur_offset + 8) % 2 ^ 64 ≤
      CommandStorageSize := by
    show (0 + 8) % 2 ^ 64 ≤ CommandStorageSize
    decide
  have hp := ScopedStorageWriterBase.PushData_write_event rc os ⟨st, 0⟩ hdr.toBytes 8
    ⟨s1, w.trace ++ [Event.appletCreateStorage CommandStorageSize ResultSuccess st]⟩ hb
  have htail : World.continuedBy (Event.isWriterBody st)
      (ScopedStorageWriterBase.Push rc os ⟨st, 0⟩ hdr.toBytes
        ⟨s1, w.trace ++ [Event.appletCreateStorage CommandStorageSize ResultSuccess st]⟩).world
      (ReceiveCommandImpl.replyBody rc os push_fn msg_type hdr w).world := by
    simp only [ReceiveCommandImpl.replyBody, OpenStorageWriter_success os w st s1 hcreate]
    by_cases hv : R_SUCCEEDED hdr.val = true
    · have h := writerBlock_tail rc os hdr.toBytes
        (some (push_fn msg_type, Event.push_fn (some msg_type))) st
        ⟨s1, w.trace ++ [Event.appletCreateStorage CommandStorageSize ResultSuccess st]⟩
        (by intro f e he; cases he; rfl)
      simpa [R_FAILED, ResultSuccess, hv] using h
    · have h := writerBlock_tail rc os hdr.toBytes none st
        ⟨s1, w.trace ++ [Event.appletCreateStorage CommandStorageSize ResultSuccess st]⟩
        (by intro f e he; cases he)
      simpa [R_FAILED, ResultSuccess, hv] using h
  obtain ⟨rest, hrest, hall⟩ := continuedBy_body htail
  refine ⟨(os.appletStorageWrite st 0 hdr.toBytes 8 s1).1, rest, ?_, hall⟩
  rw [hrest]
  unfold ScopedStorageWriterBase.Push
  rw [hlen, hp]
  simp

/-- Leaving a writer's block, as a record: the publication of the writer's
storage follows what the block recorded, and the release follows it when the
publication succeeded. -/
theorem leaveWriterScope_trace (os : Os σ) (b : WriterStep σ ScopedStorageWriterBase) :
    (leaveWriterScope os b).2.trace =
      b.world.trace ++
        Event.PushStorage b.writer.st (os.PushStorageFn b.writer.st b.world.os).1 ::
          (if R_FAILED (os.PushStorageFn b.writer.st b.world.os).1 then []
           else [Event.appletStorageClose b.writer.st]) ∧
    (leaveWriterScope os b).1 =
      if R_FAILED (os.PushStorageFn b.writer.st b.world.os).1 then
        Outcome.aborted (os.PushStorageFn b.writer.st b.world.os).1
      else Outcome.returned b.rc := by
  rw [leaveWriterScope_eq]
  by_cases hp : R_FAILED (os.PushStorageFn b.writer.st b.world.os).1 = true
  · simp [hp]
  · simp [hp]

/-- C22 (amended): in every execution of `ReceiveCommandImpl` in which the
request storage `st` was received: the first block is left by a `return`
exactly when the header cannot be read or its magic is not `CommandMagic`, and
then `ReceiveCommandImpl` returns that error having only read from `st` and
closed it: no reply storage is created or published. Otherwise, whatever the
dispatch function returned, the reply block runs, and once its storage `st2`
is created: the write of the header to `st2` is attempted first, `st2` is
published once at the end of the block, and `ReceiveCommandImpl` returns only
when that publication succeeded (a failing publication stops the process), so
whenever it returns `st2` has been published. -/
theorem C22_reply_after_valid_header (rc : ResultCodes) (os : Os σ)
    (pop_fn : Nat → ReaderFn σ) (push_fn : Nat → WriterFn σ) (w : World σ)
    (st : AppletStorage) (s1 : σ)
    (hpop : os.PopStorageFn false w.os = (ResultSuccess, st, s1)) :
    ((ReceiveCommandImpl.read rc os pop_fn w).early = none ↔
      (R_FAILED (ScopedStorageReaderBase.Pop rc os ⟨st, 0⟩ CommandCommonHeader.sizeof
        ⟨s1, w.trace ++ [Event.PopStorage false ResultSuccess st]⟩).rc = false ∧
      (CommandCommonHeader.ofBytes (ScopedStorageReaderBase.Pop rc os ⟨st, 0⟩
        CommandCommonHeader.sizeof
        ⟨s1, w.trace ++ [Event.PopStorage false ResultSuccess st]⟩).out).magic =
        CommandMagic)) ∧
    (∀ e, (ReceiveCommandImpl.read rc os pop_fn w).early = some e →
      (ReceiveCommandImpl rc os pop_fn push_fn w).1 = Outcome.returned e ∧
      ∃ body : List Event,
        (ReceiveCommandImpl rc os pop_fn push_fn w).2.trace =
          w.trace ++ Event.PopStorage false ResultSuccess st :: body ++
            [Event.appletStorageClose st] ∧
        body.all (Event.isReaderBody st) = true) ∧
    ((ReceiveCommandImpl.read rc os pop_fn w).early = none →
      ∀ (st2 : AppletStorage) (s2 : σ),
        os.appletCreateStorage CommandStorageSize (ReceiveCommandImpl.read rc os pop_fn w).world.os
          = (ResultSuccess, st2, s2) →
        (∃ (r : Result) (rest : List Event) (p : Result),
          (ReceiveCommandImpl rc os pop_fn push_fn w).2.trace =
            (ReceiveCommandImpl.read rc os pop_fn w).world.trace ++
              Event.appletCreateStorage CommandStorageSize ResultSuccess st2 ::
              Event.appletStorageWrite st2 0
                (ReceiveCommandImpl.read rc os pop_fn w).in_out_header.toBytes 8 r :: rest ++
              Event.PushStorage st2 p ::
                (if R_FAILED p then [] else [Event.appletStorageClose st2]) ∧
          rest.all (Event.isWriterBody st2) = true ∧
          (ReceiveCommandImpl rc os pop_fn push_fn w).1 =
            if R_FAILED p then Outcome.aborted p
            else Outcome.returned (ReceiveCommandImpl.replyBody rc os push_fn
              (ReceiveCommandImpl.read rc os pop_fn w).msg_type
              (ReceiveCommandImpl.read rc os pop_fn w).in_out_header
              (ReceiveCommandImpl.read rc os pop_fn w).world).rc) ∧
        (∀ r : Result, (ReceiveCommandImpl rc os pop_fn push_fn w).1 = Outcome.returned r →
          Event.PushStorage st2 ResultSuccess ∈
            (ReceiveCommandImpl rc os pop_fn push_fn w).2.trace)) := by
  refine ⟨ReceiveCommandImpl.read_early_iff rc os pop_fn w st s1 hpop, ?_, ?_⟩
  · intro e he
    obtain ⟨hst, hbody⟩ := ReceiveCommandImpl.readBody_acquired rc os pop_fn w st s1 hpop
    obtain ⟨body, hb, hall⟩ := continuedBy_body hbody
    have hcall : ReceiveCommandImpl rc os pop_fn push_fn w =
        (Outcome.returned e, (ReceiveCommandImpl.read rc os pop_fn w).world) := by
      unfold ReceiveCommandImpl
      simp only [he]
    rw [hcall]
    refine ⟨rfl, body, ?_, hall⟩
    simp [ReceiveCommandImpl.read, ScopedStorageReaderBase.dtor, sys.appletStorageClose,
      World.log, hb, hst]
  · intro hnone st2 s2 hcreate
    have hcall : ReceiveCommandImpl rc os pop_fn push_fn w =
        ReceiveCommandImpl.reply rc os push_fn (ReceiveCommandImpl.read rc os pop_fn w).msg_type
          (ReceiveCommandImpl.read rc os pop_fn w).in_out_header
          (ReceiveCommandImpl.read rc os pop_fn w).world := by
      unfold ReceiveCommandImpl
      simp only [hnone]
    rw [hcall]
    obtain ⟨hst, _⟩ := ReceiveCommandImpl.replyBody_writer_acquired rc os push_fn
      (ReceiveCommandImpl.read rc os pop_fn w).msg_type
      (ReceiveCommandImpl.read rc os pop_fn w).in_out_header
      (ReceiveCommandImpl.read rc os pop_fn w).world st2 s2 hcreate
    obtain ⟨r, rest, hrest, hall⟩ := ReceiveCommandImpl.replyBody_header_write rc os push_fn
      (ReceiveCommandImpl.read rc os pop_fn w).msg_type
      (ReceiveCommandImpl.read rc os pop_fn w).in_out_header
      (ReceiveCommandImpl.read rc os pop_fn w).world st2 s2 hcreate
    obtain ⟨ht, ho⟩ := leaveWriterScope_trace os (ReceiveCommandImpl.replyBody rc os push_fn
      (ReceiveCommandImpl.read rc os pop_fn w).msg_type
      (ReceiveCommandImpl.read rc os pop_fn w).in_out_header
      (ReceiveCommandImpl.read rc os pop_fn w).world)
    rw [hst, hrest] at ht
    rw [hst] at ho
    unfold ReceiveCommandImpl.reply
    refine ⟨⟨r, rest, _, ?_, hall, ho⟩, ?_⟩
    · rw [ht]
    · intro r1 hr1
      rw [ho] at hr1
      rw [ht]
      split at hr1
      · cases hr1
      · rename_i hp
        have hp0 : (os.PushStorageFn st2 (ReceiveCommandImpl.replyBody rc os push_fn
            (ReceiveCommandImpl.read rc os pop_fn w).msg_type
            (ReceiveCommandImpl.read rc os pop_fn w).in_out_header
            (ReceiveCommandImpl.read rc os pop_fn w).world).world.os).1 = ResultSuccess := by
          simpa [R_FAILED, ResultSuccess] using hp
        rw [hp0]
        simp

end dmi.impl

namespace dmi.impl

/-- C22 (witness): on the storage model, a request with a valid header whose
dispatch fails with `0x99` is received as the storage `1`; the reply storage
`2` is created after the first block and, `ReceiveCommandImpl` returning, it
has been published. -/
theorem C22_reply_after_valid_header_witness :
    memOs.PopStorageFn false (inbound ⟨CommandMagic, 2⟩).os =
      (ResultSuccess, 1, (memOs.PopStorageFn false (inbound ⟨CommandMagic, 2⟩).os).2.2) ∧
    (ReceiveCommandImpl sampleCodes memOs (fun _ => ReaderFn.ret 0x99)
      (fun _ => WriterFn.ret ResultSuccess) (inbound ⟨CommandMagic, 2⟩)).1 =
      Outcome.returned ResultSuccess ∧
    Event.PushStorage 2 ResultSuccess ∈
      (ReceiveCommandImpl sampleCodes memOs (fun _ => ReaderFn.ret 0x99)
        (fun _ => WriterFn.ret ResultSuccess) (inbound ⟨CommandMagic, 2⟩)).2.trace :=
  ⟨by decide, by decide,
    ((C22_reply_after_valid_header sampleCodes memOs (fun _ => ReaderFn.ret 0x99)
      (fun _ => WriterFn.ret ResultSuccess) (inbound ⟨CommandMagic, 2⟩) 1
      (memOs.PopStorageFn false (inbound ⟨CommandMagic, 2⟩).os).2.2 (by decide)).2.2
      (by decide) 2
      (memOs.appletCreateStorage CommandStorageSize
        (ReceiveCommandImpl.read sampleCodes memOs (fun _ => ReaderFn.ret 0x99)
          (inbound ⟨CommandMagic, 2⟩)).world.os).2.2
      (by decide)).2 ResultSuccess (by decide)⟩

/-- C22 (counterexample): on the storage model, a request whose header has
the magic `0xDEADBEEF`, and a request storage of 4 bytes whose header cannot
be read, are both received from the peer; `ReceiveCommandImpl` returns the
error after reading and closing the storage, and nothing is created or
published: the peer gets no reply. -/
theorem C22_invalid_request_gets_no_reply :
    (ReceiveCommandImpl sampleCodes memOs (fun _ => ReaderFn.ret ResultSuccess)
      (fun _ => WriterFn.ret ResultSuccess) (inbound ⟨0xDEADBEEF, 2⟩)).1 =
      Outcome.returned sampleCodes.ResultInvalidInHeaderMagic ∧
    (ReceiveCommandImpl sampleCodes memOs (fun _ => ReaderFn.ret ResultSuccess)
      (fun _ => WriterFn.ret ResultSuccess) (inbound ⟨0xDEADBEEF, 2⟩)).2.trace =
      [Event.PopStorage false ResultSuccess 1,
        Event.appletStorageRead 1 0 8 ResultSuccess (CommandCommonHeader.toBytes ⟨0xDEADBEEF, 2⟩),
        Event.appletStorageClose 1] ∧
    (ReceiveCommandImpl sampleCodes memOs (fun _ => ReaderFn.ret ResultSuccess)
      (fun _ => WriterFn.ret ResultSuccess) (inbound ⟨0xDEADBEEF, 2⟩)).2.os.outbox = [] ∧
    (ReceiveCommandImpl sampleCodes memOs (fun _ => ReaderFn.ret ResultSuccess)
      (fun _ => WriterFn.ret ResultSuccess) ⟨⟨[⟨4, []⟩], [1], []⟩, []⟩).1 =
      Outcome.returned MemOs.failure ∧
    (ReceiveCommandImpl sampleCodes memOs (fun _ => ReaderFn.ret ResultSuccess)
      (fun _ => WriterFn.ret ResultSuccess) ⟨⟨[⟨4, []⟩], [1], []⟩, []⟩).2.trace =
      [Event.PopStorage false ResultSuccess 1,
        Event.appletStorageRead 1 0 8 MemOs.failure [],
        Event.appletStorageClose 1] ∧
    (ReceiveCommandImpl sampleCodes memOs (fun _ => ReaderFn.ret ResultSuccess)
      (fun _ => WriterFn.ret ResultSuccess) ⟨⟨[⟨4, []⟩], [1], []⟩, []⟩).2.os.outbox = [] := by
  decide

end dmi.impl

namespace dmi.impl

variable {σ : Type}

/-! ### A writer whose storage was never created -/

/-- Opening a writer when the creation of the storage fails with `e`: the
writer is left as constructed, with the zero storage. -/
theorem OpenStorageWriter_failure (os : Os σ) (w : World σ) (e : Result)
    (st : AppletStorage) (s1 : σ)
    (hcreate : os.appletCreateStorage CommandStorageSize w.os = (e, st, s1))
    (he : R_FAILED e = true) :
    OpenStorageWriter os ScopedStorageWriterBase.ctor w =
      ⟨e, ScopedStorageWriterBase.ctor,
        ⟨s1, w.trace ++ [Event.appletCreateStorage CommandStorageSize e st]⟩⟩ := by
  simp [OpenStorageWriter, sys.appletCreateStorage, hcreate, he, World.log]

/-- When the creation of the writer's storage fails with `e`, the block of
`SendCommandImpl` and that of `ReceiveCommandImpl` are left at once, and the
destructor of the writer still runs: `PushStorage` is invoked on the zero
storage of the writer as constructed. When that publication fails the process
stops; when it succeeds the zero storage is closed and `e` is returned. -/
theorem writer_scope_after_failed_creation (rc : ResultCodes) (os : Os σ) (msg_type : Nat)
    (push_fn : WriterFn σ) (pop_fn : ReaderFn σ) (recv_push_fn : Nat → WriterFn σ)
    (recv_msg_type : Nat) (in_out_header : CommandCommonHeader)
    (w : World σ) (e : Result) (st : AppletStorage) (s1 : σ)
    (hcreate : os.appletCreateStorage CommandStorageSize w.os = (e, st, s1))
    (he : R_FAILED e = true) :
    SendCommandImpl rc os msg_type push_fn pop_fn w =
      leaveWriterScope os ⟨e, ScopedStorageWriterBase.ctor,
        ⟨s1, w.trace ++ [Event.appletCreateStorage CommandStorageSize e st]⟩⟩ ∧
    ReceiveCommandImpl.reply rc os recv_push_fn recv_msg_type in_out_header w =
      leaveWriterScope os ⟨e, ScopedStorageWriterBase.ctor,
        ⟨s1, w.trace ++ [Event.appletCreateStorage CommandStorageSize e st]⟩⟩ ∧
    leaveWriterScope os ⟨e, ScopedStorageWriterBase.ctor,
        ⟨s1, w.trace ++ [Event.appletCreateStorage CommandStorageSize e st]⟩⟩ =
      if R_FAILED (os.PushStorageFn 0 s1).1 then
        (Outcome.aborted (os.PushStorageFn 0 s1).1,
          ⟨(os.PushStorageFn 0 s1).2,
            w.trace ++ [Event.appletCreateStorage CommandStorageSize e st,
              Event.PushStorage 0 (os.PushStorageFn 0 s1).1]⟩)
      else
        (Outcome.returned e,
          ⟨os.appletStorageClose 0 (os.PushStorageFn 0 s1).2,
            w.trace ++ [Event.appletCreateStorage CommandStorageSize e st,
              Event.PushStorage 0 (os.PushStorageFn 0 s1).1,
              Event.appletStorageClose 0]⟩) := by
  have ho := OpenStorageWriter_failure os w e st s1 hcreate he
  refine ⟨?_, ?_, ?_⟩
  · have hb : SendCommandImpl.requestBody rc os msg_type push_fn w =
        ⟨e, ScopedStorageWriterBase.ctor,
          ⟨s1, w.trace ++ [Event.appletCreateStorage CommandStorageSize e st]⟩⟩ := by
      simp only [SendCommandImpl.requestBody, ho, he, if_true]
    unfold SendCommandImpl SendCommandImpl.request
    rw [hb, leaveWriterScope_eq]
    by_cases hp : R_FAILED (os.PushStorageFn 0 s1).1 = true
    · simp [ScopedStorageWriterBase.ctor, hp]
    · simp [ScopedStorageWriterBase.ctor, hp, he]
  · have hb : ReceiveCommandImpl.replyBody rc os recv_push_fn recv_msg_type in_out_header w =
        ⟨e, ScopedStorageWriterBase.ctor,
          ⟨s1, w.trace ++ [Event.appletCreateStorage CommandStorageSize e st]⟩⟩ := by
      simp only [ReceiveCommandImpl.replyBody, ho, he, if_true]
    unfold ReceiveCommandImpl.reply
    rw [hb]
  · rw [leaveWriterScope_eq]
    by_cases hp : R_FAILED (os.PushStorageFn 0 s1).1 = true
    · simp [ScopedStorageWriterBase.ctor, hp]
    · simp [ScopedStorageWriterBase.ctor, hp]

/-- C26 (the code at the failing input): on the storage model where the
creation of a storage fails with `0x1234`, `SendCommandImpl` and
`ReceiveCommandImpl` (after a valid request) invoke `PushStorage` on the zero
storage of the writer right after the failed creation; the model refuses to
publish a storage that does not exist, so the assertion of the destructor
stops the process with `MemOs.failure` and `0x1234` is not returned. -/
theorem C26_failed_creation_still_publishes :
    (SendCommandImpl sampleCodes (faultyOs ⟨0x1234, fun _ => 0, 0⟩) 0
      (WriterFn.ret ResultSuccess) (ReaderFn.ret ResultSuccess)
      (inbound ⟨CommandMagic, 0⟩)).2.trace =
      [Event.appletCreateStorage CommandStorageSize 0x1234 0,
        Event.PushStorage 0 MemOs.failure] ∧
    (SendCommandImpl sampleCodes (faultyOs ⟨0x1234, fun _ => 0, 0⟩) 0
      (WriterFn.ret ResultSuccess) (ReaderFn.ret ResultSuccess)
      (inbound ⟨CommandMagic, 0⟩)).1 = Outcome.aborted MemOs.failure ∧
    (ReceiveCommandImpl sampleCodes (faultyOs ⟨0x1234, fun _ => 0, 0⟩)
      (fun _ => ReaderFn.ret ResultSuccess) (fun _ => WriterFn.ret ResultSuccess)
      (inbound ⟨CommandMagic, 2⟩)).2.trace.drop 4 =
      [Event.appletCreateStorage CommandStorageSize 0x1234 0,
        Event.PushStorage 0 MemOs.failure] ∧
    (ReceiveCommandImpl sampleCodes (faultyOs ⟨0x1234, fun _ => 0, 0⟩)
      (fun _ => ReaderFn.ret ResultSuccess) (fun _ => WriterFn.ret ResultSuccess)
      (inbound ⟨CommandMagic, 2⟩)).1 = Outcome.aborted MemOs.failure := by
  decide

end dmi.impl

namespace ul.cfg

/-! ### Setting and getting an entry -/

/-- A `Set` that returns `true` on a value keeps the id of the entry and
makes `Get` of the same type give that value. -/
theorem ConfigEntry.Set_true (entry : ConfigEntry) (v : Value)
    (h : (entry.Set (Arg.value v)).1 = true) :
    (entry.Set (Arg.value v)).2.header.id = entry.header.id ∧
    (entry.Set (Arg.value v)).2.Get v.type = some v := by
  unfold ConfigEntry.Set at h ⊢
  by_cases hb : entry.header.type = ConfigEntryType.Bool
  · cases v <;> simp_all [ConfigEntry.Get, Value.type]
  · by_cases hu : entry.header.type = ConfigEntryType.U64
    · cases v <;> simp_all [ConfigEntry.Get, Value.type]
    · by_cases hs : entry.header.type = ConfigEntryType.String
      · cases v <;> simp_all [ConfigEntry.Get, Value.type]
      · simp_all

/-- A `Set` that returns `false` leaves the entry as it was. -/
theorem ConfigEntry.Set_false (entry : ConfigEntry) (t : Arg)
    (h : (entry.Set t).1 = false) : (entry.Set t).2 = entry := by
  unfold ConfigEntry.Set at h ⊢
  by_cases hb : entry.header.type = ConfigEntryType.Bool
  · rcases t with ⟨_ | _ | _⟩ | _ <;> simp_all
  · by_cases hu : entry.header.type = ConfigEntryType.U64
    · rcases t with ⟨_ | _ | _⟩ | _ <;> simp_all
    · by_cases hs : entry.header.type = ConfigEntryType.String
      · rcases t with ⟨_ | _ | _⟩ | _ <;> simp_all
      · simp_all

/-- The entry that `SetEntry` creates for an enumerator carries the id and
gives the value back by `Get` of the same type. -/
theorem Config.SetEntry.new_entry_get (id : ConfigEntryId) (v : Value) (entry : ConfigEntry)
    (hid : id ∈ ConfigEntryId.enumerators)
    (h : Config.SetEntry.new_entry id (Arg.value v) = some entry) :
    entry.header.id = id ∧ entry.Get v.type = some v := by
  simp only [ConfigEntryId.enumerators, List.mem_cons, List.mem_singleton, List.not_mem_nil,
    or_false] at hid
  unfold Config.SetEntry.new_entry at h
  rcases hid with rfl | rfl | rfl | rfl | rfl <;> cases v <;>
    simp [ConfigEntryId.MenuTakeoverProgramId, ConfigEntryId.HomebrewAppletTakeoverProgramId,
      ConfigEntryId.HomebrewApplicationTakeoverApplicationId, ConfigEntryId.ViewerUsbEnabled,
      ConfigEntryId.ActiveThemeName] at h <;>
    subst h <;>
    simp [ConfigEntry.Get, Value.type, ConfigEntryType.Bool, ConfigEntryType.U64,
      ConfigEntryType.String, ConfigEntryId.MenuTakeoverProgramId,
      ConfigEntryId.HomebrewAppletTakeoverProgramId,
      ConfigEntryId.HomebrewApplicationTakeoverApplicationId, ConfigEntryId.ViewerUsbEnabled,
      ConfigEntryId.ActiveThemeName]

/-- The loop of `SetEntry` that returns `true` on a value, for an id that is
an enumerator or that some entry carries, leaves entries on which the loop of
`GetEntry` finds that value. -/
theorem Config.SetEntry.loop_get (id : ConfigEntryId) (v : Value)
    (entries : List ConfigEntry)
    (hid : id ∈ ConfigEntryId.enumerators ∨ ∃ entry ∈ entries, entry.header.id = id)
    (h : (Config.SetEntry.loop id (Arg.value v) entries).1 = true) :
    Config.GetEntry.loop v.type id (Config.SetEntry.loop id (Arg.value v) entries).2 =
      some v := by
  induction entries with
  | nil =>
    have hid1 : id ∈ ConfigEntryId.enumerators := by
      rcases hid with hid | ⟨e, he, _⟩
      · exact hid
      · cases he
    unfold Config.SetEntry.loop at h ⊢
    cases hn : Config.SetEntry.new_entry id (Arg.value v) with
    | none => simp [hn] at h
    | some entry =>
      have hg := Config.SetEntry.new_entry_get id v entry hid1 hn
      simp [Config.GetEntry.loop, hg.1, hg.2]
  | cons entry rest ih =>
    unfold Config.SetEntry.loop at h ⊢
    by_cases he : entry.header.id = id
    · rw [if_pos he] at h ⊢
      have hs := ConfigEntry.Set_true entry v h
      simp only [Config.GetEntry.loop]
      rw [if_pos (hs.1.trans he)]
      exact hs.2
    · rw [if_neg he] at h ⊢
      simp only [Config.GetEntry.loop]
      rw [if_neg he]
      refine ih ?_ h
      rcases hid with hid | ⟨e, hmem, hee⟩
      · exact Or.inl hid
      · rcases List.mem_cons.mp hmem with rfl | hmem
        · exact absurd hee he
        · exact Or.inr ⟨e, hmem, hee⟩

/-- The loop of `SetEntry` that returns `false` leaves the entries as they
were. -/
theorem Config.SetEntry.loop_false (id : ConfigEntryId) (t : Arg) (entries : List ConfigEntry)
    (h : (Config.SetEntry.loop id t entries).1 = false) :
    (Config.SetEntry.loop id t entries).2 = entries := by
  induction entries with
  | nil =>
    unfold Config.SetEntry.loop at h ⊢
    cases hn : Config.SetEntry.new_entry id t with
    | none => rfl
    | some entry => simp [hn] at h
  | cons entry rest ih =>
    unfold Config.SetEntry.loop at h ⊢
    by_cases he : entry.header.id = id
    · rw [if_pos he] at h ⊢
      rw [ConfigEntry.Set_false entry t h]
    · rw [if_neg he] at h ⊢
      rw [ih h]

/-- C24 (amended): for every `Config`, whatever its entries (several of one
id, or of a type that does not go with their id), every `id` that is one of
the five enumerators of `ConfigEntryId` or the id of an entry the `Config`
holds, and every value `v` of type `bool`, `u64` or `std::string`: when
`SetEntry(id, v)` returns `true`, `GetEntry` of the type of `v` on `id` right
after returns `true` and gives exactly `v`; and for every `id` and every
argument, when `SetEntry` returns `false` the `Config` is unchanged. -/
theorem C24_set_get_round_trip (cfg : Config) (id : ConfigEntryId) (v : Value) :
    ((id ∈ ConfigEntryId.enumerators ∨ ∃ entry ∈ cfg.entries, entry.header.id = id) →
      (cfg.SetEntry id (Arg.value v)).1 = true →
      (cfg.SetEntry id (Arg.value v)).2.GetEntry v.type id = some v) ∧
    (∀ t : Arg, (cfg.SetEntry id t).1 = false → (cfg.SetEntry id t).2 = cfg) := by
  constructor
  · intro hid h
    exact Config.SetEntry.loop_get id v cfg.entries hid h
  · intro t h
    have hl := Config.SetEntry.loop_false id t cfg.entries h
    simp only [Config.SetEntry, hl]

/-- C24 (witness): on a `Config` with two entries of `ViewerUsbEnabled`, the
first of type `U64`, setting the `u64` value `7` on `ViewerUsbEnabled`
returns `true` and `GetEntry` gives `7` back. -/
theorem C24_set_get_round_trip_witness :
    ConfigEntryId.ViewerUsbEnabled ∈ ConfigEntryId.enumerators ∧
    ((Config.mk [⟨⟨ConfigEntryId.ViewerUsbEnabled, ConfigEntryType.U64, 8, 0⟩, false, 1, []⟩,
        ⟨⟨ConfigEntryId.ViewerUsbEnabled, ConfigEntryType.Bool, 1, 0⟩, true, 0, []⟩]).SetEntry
      ConfigEntryId.ViewerUsbEnabled (Arg.value (Value.u64 7))).2.GetEntry TypeArg.u64
        ConfigEntryId.ViewerUsbEnabled = some (Value.u64 7) :=
  ⟨by decide,
    (C24_set_get_round_trip
      (Config.mk [⟨⟨ConfigEntryId.ViewerUsbEnabled, ConfigEntryType.U64, 8, 0⟩, false, 1, []⟩,
        ⟨⟨ConfigEntryId.ViewerUsbEnabled, ConfigEntryType.Bool, 1, 0⟩, true, 0, []⟩])
      ConfigEntryId.ViewerUsbEnabled (Value.u64 7)).1 (Or.inl (by decide)) (by decide)⟩

/-- C24 (counterexample): the value `5` of the underlying type of
`ConfigEntryId` is none of the enumerators. On the empty `Config`,
`SetEntry<u64>(5, 7)` takes no `case` of the `switch`, appends the entry as it
started (type `Bool`, every value zero) and returns `true`; `GetEntry<u64>`
on `5` right after returns `false`. Likewise `SetEntry<bool>(5, true)`
returns `true` and `GetEntry<bool>` then gives `false`, not `true`. -/
theorem C24_unlisted_id_breaks_round_trip :
    5 ∉ ConfigEntryId.enumerators ∧
    ((Config.mk []).SetEntry 5 (Arg.value (Value.u64 7))).1 = true ∧
    ((Config.mk []).SetEntry 5 (Arg.value (Value.u64 7))).2.GetEntry TypeArg.u64 5 = none ∧
    ((Config.mk []).SetEntry 5 (Arg.value (Value.bool true))).1 = true ∧
    ((Config.mk []).SetEntry 5 (Arg.value (Value.bool true))).2.GetEntry TypeArg.bool 5 =
      some (Value.bool false) := by
  decide

end ul.cfg

namespace ul.cfg

/-! ### The well-formedness of a `Config` under `SetEntry` -/

/-- `Set` keeps the id and the type of the entry. -/
theorem ConfigEntry.Set_header (entry : ConfigEntry) (t : Arg) :
    (entry.Set t).2.header.id = entry.header.id ∧
    (entry.Set t).2.header.type = entry.header.type := by
  unfold ConfigEntry.Set
  by_cases hb : entry.header.type = ConfigEntryType.Bool
  · rw [if_pos hb]
    rcases t with ⟨_ | _ | _⟩ | _ <;> exact ⟨rfl, rfl⟩
  · rw [if_neg hb]
    by_cases hu : entry.header.type = ConfigEntryType.U64
    · rw [if_pos hu]
      rcases t with ⟨_ | _ | _⟩ | _ <;> exact ⟨rfl, rfl⟩
    · rw [if_neg hu]
      by_cases hs : entry.header.type = ConfigEntryType.String
      · rw [if_pos hs]
        rcases t with ⟨_ | _ | _⟩ | _ <;> exact ⟨rfl, rfl⟩
      · rw [if_neg hs]
        exact ⟨rfl, rfl⟩

/-- The entry that `SetEntry` creates for an enumerator carries the id and
the type that goes with it. -/
theorem Config.SetEntry.new_entry_header (id : ConfigEntryId) (t : Arg) (entry : ConfigEntry)
    (hid : id ∈ ConfigEntryId.enumerators)
    (h : Config.SetEntry.new_entry id t = some entry) :
    entry.header.id = id ∧ ConfigEntryId.type id = some entry.header.type := by
  simp only [ConfigEntryId.enumerators, List.mem_cons, List.mem_singleton, List.not_mem_nil,
    or_false] at hid
  unfold Config.SetEntry.new_entry at h
  rcases hid with rfl | rfl | rfl | rfl | rfl <;> rcases t with ⟨_ | _ | _⟩ | _ <;>
    simp [ConfigEntryId.MenuTakeoverProgramId, ConfigEntryId.HomebrewAppletTakeoverProgramId,
      ConfigEntryId.HomebrewApplicationTakeoverApplicationId, ConfigEntryId.ViewerUsbEnabled,
      ConfigEntryId.ActiveThemeName] at h <;>
    subst h <;>
    simp [ConfigEntryId.type, ConfigEntryId.MenuTakeoverProgramId,
      ConfigEntryId.HomebrewAppletTakeoverProgramId,
      ConfigEntryId.HomebrewApplicationTakeoverApplicationId, ConfigEntryId.ViewerUsbEnabled,
      ConfigEntryId.ActiveThemeName]

/-- What the loop of `SetEntry` does to the entries: either every entry
keeps its id and its type, in the same order, or no entry had the id and one
new entry is appended. -/
theorem Config.SetEntry.loop_shape (id : ConfigEntryId) (t : Arg)
    (entries : List ConfigEntry) :
    (Config.SetEntry.loop id t entries).2.map (fun e => (e.header.id, e.header.type)) =
        entries.map (fun e => (e.header.id, e.header.type)) ∨
    ∃ entry, Config.SetEntry.new_entry id t = some entry ∧
      (∀ e ∈ entries, e.header.id ≠ id) ∧
      (Config.SetEntry.loop id t entries).2 = entries ++ [entry] := by
  induction entries with
  | nil =>
    unfold Config.SetEntry.loop
    cases hn : Config.SetEntry.new_entry id t with
    | none => exact Or.inl rfl
    | some entry => exact Or.inr ⟨entry, rfl, by simp, rfl⟩
  | cons e rest ih =>
    unfold Config.SetEntry.loop
    by_cases he : e.header.id = id
    · rw [if_pos he]
      left
      simp [(ConfigEntry.Set_header e t).1, (ConfigEntry.Set_header e t).2]
    · rw [if_neg he]
      rcases ih with h | ⟨entry, hn, hno, hl⟩
      · left
        simp [h]
      · right
        refine ⟨entry, hn, ?_, ?_⟩
        · intro x hx
          rcases List.mem_cons.mp hx with rfl | hx
          · exact he
          · exact hno x hx
        · simp [hl]

/-- Well-formedness depends only on the ids and the types of the entries, in
their order. -/
theorem Config.WellFormed_of_headers (a b : Config)
    (h : b.entries.map (fun e => (e.header.id, e.header.type)) =
      a.entries.map (fun e => (e.header.id, e.header.type)))
    (hw : a.WellFormed) : b.WellFormed := by
  have hid : b.entries.map (fun e => e.header.id) = a.entries.map (fun e => e.header.id) := by
    have := congrArg (List.map Prod.fst) h
    simpa [List.map_map, Function.comp] using this
  refine ⟨by rw [hid]; exact hw.1, ?_⟩
  intro entry hentry
  have hm : (entry.header.id, entry.header.type) ∈
      b.entries.map (fun e => (e.header.id, e.header.type)) :=
    List.mem_map.mpr ⟨entry, hentry, rfl⟩
  rw [h] at hm
  obtain ⟨x, hx, hxe⟩ := List.mem_map.mp hm
  have h1 : x.header.id = entry.header.id := congrArg Prod.fst hxe
  have h2 : x.header.type = entry.header.type := congrArg Prod.snd hxe
  rw [← h1, ← h2]
  exact hw.2 x hx

/-- `SetEntry` on an enumerator keeps a `Config` well-formed. -/
theorem Config.SetEntry_wellFormed (cfg : Config) (id : ConfigEntryId) (t : Arg)
    (hid : id ∈ ConfigEntryId.enumerators) (hw : cfg.WellFormed) :
    (cfg.SetEntry id t).2.WellFormed := by
  rcases Config.SetEntry.loop_shape id t cfg.entries with h | ⟨entry, hn, hno, hl⟩
  · exact Config.WellFormed_of_headers cfg _ h hw
  · have hh := Config.SetEntry.new_entry_header id t entry hid hn
    unfold Config.WellFormed Config.SetEntry
    simp only [hl]
    constructor
    · rw [List.map_append, List.map_singleton]
      refine List.Nodup.append hw.1 (List.nodup_singleton _) ?_
      intro x hx1 hx2
      rw [List.mem_singleton] at hx2
      obtain ⟨e, he, hee⟩ := List.mem_map.mp hx1
      exact hno e he (by rw [hee, hx2, hh.1])
    · intro e he
      rcases List.mem_append.mp he with he | he
      · exact hw.2 e he
      · rw [List.mem_singleton] at he
        rw [he, hh.1]
        exact hh.2

/-- Every call of `SetEntry` leaves the number of entries as it was or adds
one. -/
theorem Config.SetEntry_length (cfg : Config) (id : ConfigEntryId) (t : Arg) :
    (cfg.SetEntry id t).2.entries.length = cfg.entries.length ∨
    (cfg.SetEntry id t).2.entries.length = cfg.entries.length + 1 := by
  rcases Config.SetEntry.loop_shape id t cfg.entries with h | ⟨entry, _, _, hl⟩
  · left
    have := congrArg List.length h
    simpa [Config.SetEntry] using this
  · right
    simp [Config.SetEntry, hl]

/-- A sequence of calls of `SetEntry` on enumerators keeps a `Config`
well-formed. -/
theorem Config.SetEntries_wellFormed (calls : List (ConfigEntryId × Arg)) :
    ∀ cfg : Config, (∀ call ∈ calls, call.1 ∈ ConfigEntryId.enumerators) → cfg.WellFormed →
      (cfg.SetEntries calls).WellFormed := by
  induction calls with
  | nil => intro cfg _ hw; exact hw
  | cons call rest ih =>
    intro cfg hids hw
    unfold Config.SetEntries
    exact ih _ (fun c hc => hids c (List.mem_cons_of_mem _ hc))
      (Config.SetEntry_wellFormed cfg call.1 call.2 (hids call (List.mem_cons_self _ _)) hw)

/-- A well-formed `Config` has at most five entries. -/
theorem Config.WellFormed_length (cfg : Config) (hw : cfg.WellFormed) :
    cfg.entries.length ≤ 5 := by
  have hsub : cfg.entries.map (fun e => e.header.id) ⊆ ConfigEntryId.enumerators := by
    intro x hx
    obtain ⟨e, he, hee⟩ := List.mem_map.mp hx
    have ht := hw.2 e he
    rw [hee] at ht
    unfold ConfigEntryId.type at ht
    simp only [ConfigEntryId.enumerators, List.mem_cons, List.mem_singleton, List.not_mem_nil,
      or_false]
    by_cases h1 : x = ConfigEntryId.MenuTakeoverProgramId ∨
        x = ConfigEntryId.HomebrewAppletTakeoverProgramId ∨
        x = ConfigEntryId.HomebrewApplicationTakeoverApplicationId
    · rcases h1 with h | h | h
      · exact Or.inl h
      · exact Or.inr (Or.inl h)
      · exact Or.inr (Or.inr (Or.inl h))
    · rw [if_neg h1] at ht
      by_cases h2 : x = ConfigEntryId.ViewerUsbEnabled
      · exact Or.inr (Or.inr (Or.inr (Or.inl h2)))
      · rw [if_neg h2] at ht
        by_cases h3 : x = ConfigEntryId.ActiveThemeName
        · exact Or.inr (Or.inr (Or.inr (Or.inr h3)))
        · rw [if_neg h3] at ht
          cases ht
  have hlen := (List.Nodup.subperm hw.1 hsub).length_le
  simpa [ConfigEntryId.enumerators] using hlen

/-- C25 (amended): `SetEntry` with an id that is one of the five enumerators
of `ConfigEntryId` preserves the predicate "no two entries share an id and
the type of every entry is the one that goes with its id"; starting from the
empty `Config`, after any sequence of calls of `SetEntry` whose ids are
enumerators the `Config` satisfies it and has at most 5 entries; and every
call, whatever its id, leaves the number of entries as it was or adds one. -/
theorem C25_set_entry_keeps_well_formed (calls : List (ConfigEntryId × Arg)) :
    (∀ (cfg : Config) (id : ConfigEntryId) (t : Arg), id ∈ ConfigEntryId.enumerators →
      cfg.WellFormed → (cfg.SetEntry id t).2.WellFormed) ∧
    ((∀ call ∈ calls, call.1 ∈ ConfigEntryId.enumerators) →
      ((Config.mk []).SetEntries calls).WellFormed ∧
      ((Config.mk []).SetEntries calls).entries.length ≤ 5) ∧
    (∀ (cfg : Config) (id : ConfigEntryId) (t : Arg),
      (cfg.SetEntry id t).2.entries.length = cfg.entries.length ∨
      (cfg.SetEntry id t).2.entries.length = cfg.entries.length + 1) := by
  have hw0 : (Config.mk []).WellFormed := ⟨List.nodup_nil, fun _ h => nomatch h⟩
  refine ⟨fun cfg id t hid h => Config.SetEntry_wellFormed cfg id t hid h, ?_,
    Config.SetEntry_length⟩
  intro hids
  have hw := Config.SetEntries_wellFormed calls (Config.mk []) hids hw0
  exact ⟨hw, Config.WellFormed_length _ hw⟩

/-- C25 (witness): six calls from the empty `Config`, setting the five ids
and one of them again with a value of the wrong type, leave a well-formed
`Config` of five entries. -/
theorem C25_set_entry_keeps_well_formed_witness :
    (∀ call ∈ [(ConfigEntryId.ViewerUsbEnabled, Arg.value (Value.bool true)),
        (ConfigEntryId.ActiveThemeName, Arg.value (Value.string [65])),
        (ConfigEntryId.MenuTakeoverProgramId, Arg.value (Value.u64 0x010000000000100B)),
        (ConfigEntryId.ViewerUsbEnabled, Arg.value (Value.u64 1)),
        (ConfigEntryId.HomebrewAppletTakeoverProgramId, Arg.value (Value.u64 1)),
        (ConfigEntryId.HomebrewApplicationTakeoverApplicationId, Arg.value (Value.u64 2))],
      call.1 ∈ ConfigEntryId.enumerators) ∧
    ((Config.mk []).SetEntries
      [(ConfigEntryId.ViewerUsbEnabled, Arg.value (Value.bool true)),
        (ConfigEntryId.ActiveThemeName, Arg.value (Value.string [65])),
        (ConfigEntryId.MenuTakeoverProgramId, Arg.value (Value.u64 0x010000000000100B)),
        (ConfigEntryId.ViewerUsbEnabled, Arg.value (Value.u64 1)),
        (ConfigEntryId.HomebrewAppletTakeoverProgramId, Arg.value (Value.u64 1)),
        (ConfigEntryId.HomebrewApplicationTakeoverApplicationId,
          Arg.value (Value.u64 2))]).WellFormed ∧
    ((Config.mk []).SetEntries
      [(ConfigEntryId.ViewerUsbEnabled, Arg.value (Value.bool true)),
        (ConfigEntryId.ActiveThemeName, Arg.value (Value.string [65])),
        (ConfigEntryId.MenuTakeoverProgramId, Arg.value (Value.u64 0x010000000000100B)),
        (ConfigEntryId.ViewerUsbEnabled, Arg.value (Value.u64 1)),
        (ConfigEntryId.HomebrewAppletTakeoverProgramId, Arg.value (Value.u64 1)),
        (ConfigEntryId.HomebrewApplicationTakeoverApplicationId,
          Arg.value (Value.u64 2))]).entries.length = 5 :=
  ⟨by decide,
    ((C25_set_entry_keeps_well_formed
      [(ConfigEntryId.ViewerUsbEnabled, Arg.value (Value.bool true)),
        (ConfigEntryId.ActiveThemeName, Arg.value (Value.string [65])),
        (ConfigEntryId.MenuTakeoverProgramId, Arg.value (Value.u64 0x010000000000100B)),
        (ConfigEntryId.ViewerUsbEnabled, Arg.value (Value.u64 1)),
        (ConfigEntryId.HomebrewAppletTakeoverProgramId, Arg.value (Value.u64 1)),
        (ConfigEntryId.HomebrewApplicationTakeoverApplicationId,
          Arg.value (Value.u64 2))]).2.1
      (by decide)).1,
    by decide⟩

/-- C25 (counterexample): the value `5` of the underlying type of
`ConfigEntryId` is none of the enumerators. From the empty `Config`, one call
`SetEntry<u64>(5, 1)` appends an entry whose type goes with no id, so the
predicate is broken; and after the five enumerators are set, the same call
gives a sixth entry. -/
theorem C25_unlisted_id_breaks_well_formed :
    5 ∉ ConfigEntryId.enumerators ∧
    ¬ ((Config.mk []).SetEntries [(5, Arg.value (Value.u64 1))]).WellFormed ∧
    ((Config.mk []).SetEntries
      [(ConfigEntryId.MenuTakeoverProgramId, Arg.value (Value.u64 1)),
        (ConfigEntryId.HomebrewAppletTakeoverProgramId, Arg.value (Value.u64 1)),
        (ConfigEntryId.HomebrewApplicationTakeoverApplicationId, Arg.value (Value.u64 1)),
        (ConfigEntryId.ViewerUsbEnabled, Arg.value (Value.bool true)),
        (ConfigEntryId.ActiveThemeName, Arg.value (Value.string [65])),
        (5, Arg.value (Value.u64 1))]).entries.length = 6 := by
  decide

end ul.cfg
